import Mathlib

/-!
# soundspace: streaming buffer scheduler, emitters, registry and animator

A shallow embedding of `src/soundspace/soundspace.cpp`.

Conventions of the embedding
* `size_t`, `unsigned long` are 64 bit (the `sizeof(chunk_size) == 8` branch of the source),
  `unsigned int` is 32 bit; both are natural numbers reduced modulo `2 ^ 64` / `2 ^ 32`
  wherever the C arithmetic can wrap.
* `ALfloat` (`float`) and `double` are IEEE 754 binary32 and binary64 values (`Flt`: a sign
  and an exact rational magnitude, the infinities and not-a-number).  Every operation is
  rounded once to the format of its C type, to nearest with ties to even, as on x86-64 with
  SSE2: no excess precision and no fused multiply-add.  The operations are the fields of an
  `FPU`; `FPU.ieee` is the arithmetic of the program, and a theorem stated for every `FPU`
  holds for it.
* The fields of a `struct timespec` are integers; the `long` differences of two clock
  readings do not overflow.
* A `Source *` is represented by the OpenAL name (`id`) of the source it points to.
* The OpenAL backend is a state (`AL`) that accepts every call (`alGetError` always yields
  `AL_NO_ERROR`, so `checkError` never throws) and records every call in a log.
* A read outside the mapped file (undefined behaviour in C) is a failure of the operation.
-/

namespace Soundspace

/-! ## Floating point -/

/-- A value of an IEEE 754 binary format: not a number, an infinity, or a finite number given
by its sign and its magnitude (so that both zeros exist).  `float` and `double` values are
both of this type; a `float` is a value that `binary32` represents.  The magnitude is at least
0 in every literal and in every result of an operation. -/
inductive Flt where
  | nan
  | inf (neg : Bool)
  | fin (neg : Bool) (mag : ℚ)
  deriving DecidableEq, Repr

instance (n : Nat) : OfNat Flt n := ⟨Flt.fin false n⟩

/-- The number a finite value stands for (0 for the others). -/
def Flt.value : Flt → ℚ
  | Flt.fin neg mag => if neg then -mag else mag
  | _ => 0

/-- Whether the value is finite. -/
def Flt.isFin : Flt → Bool
  | Flt.fin _ _ => true
  | _ => false

/-- The finite value that stands for the rational `q`. -/
def Flt.ofValue (q : ℚ) : Flt :=
  Flt.fin (decide (q < 0)) |q|

/-- Unary minus. -/
def Flt.negate : Flt → Flt
  | Flt.nan => Flt.nan
  | Flt.inf neg => Flt.inf (!neg)
  | Flt.fin neg mag => Flt.fin (!neg) mag

/-- A binary format: the precision in bits, the exponent of the least positive value and the
exponent of the greatest binade. -/
structure Fmt where
  prec : Nat
  emin : Int
  emax : Int

def binary32 : Fmt := { prec := 24, emin := -149, emax := 127 }
def binary64 : Fmt := { prec := 53, emin := -1074, emax := 1023 }

/-- The number of binary digits of `n`, by halving at most `fuel` times. -/
def bitLen : Nat → Nat → Nat
  | 0, _ => 0
  | fuel + 1, n => if n = 0 then 0 else bitLen fuel (n / 2) + 1

/-- The exponent `k` with `2 ^ k <= x < 2 ^ (k + 1)`, for `x > 0`. -/
def floorLog2 (x : ℚ) : Int :=
  let k := (bitLen x.num.toNat x.num.toNat : Int) - (bitLen x.den x.den : Int)
  if (2 : ℚ) ^ k ≤ x then k else k - 1

/-- Rounding of the magnitude `x` to the nearest value of the format, ties to even, with the
sign `neg`: the unit in the last place is `2 ^ e`, and a result beyond the greatest binade is
an infinity. -/
def roundMag (f : Fmt) (neg : Bool) (x : ℚ) : Flt :=
  if x ≤ 0 then Flt.fin neg 0
  else
    let e := max (floorLog2 x - ((f.prec : Int) - 1)) f.emin
    let y := x / (2 : ℚ) ^ e
    let n : Int := ⌊y⌋
    let r := y - n
    let m : Int :=
      if r < 1 / 2 then n else if 1 / 2 < r then n + 1 else if n % 2 = 0 then n else n + 1
    if (2 : ℚ) ^ (f.emax + 1) ≤ m * (2 : ℚ) ^ e then Flt.inf neg
    else Flt.fin neg (m * (2 : ℚ) ^ e)

/-- Conversion of a value to the format `f` (of a `double` to `float` for `binary32`). -/
def Flt.round (f : Fmt) : Flt → Flt
  | Flt.fin neg mag => roundMag f neg mag
  | x => x

/-- The value of the format nearest to the rational `q`. -/
def Flt.ofRat (f : Fmt) (q : ℚ) : Flt :=
  roundMag f (decide (q < 0)) |q|

/-- Multiplication in the format `f`. -/
def Flt.mul (f : Fmt) : Flt → Flt → Flt
  | Flt.nan, _ => Flt.nan
  | _, Flt.nan => Flt.nan
  | Flt.inf a, Flt.inf b => Flt.inf (xor a b)
  | Flt.inf a, Flt.fin b m => if m = 0 then Flt.nan else Flt.inf (xor a b)
  | Flt.fin a m, Flt.inf b => if m = 0 then Flt.nan else Flt.inf (xor a b)
  | Flt.fin a m, Flt.fin b k => roundMag f (xor a b) (m * k)

/-- Division in the format `f`. -/
def Flt.div (f : Fmt) : Flt → Flt → Flt
  | Flt.nan, _ => Flt.nan
  | _, Flt.nan => Flt.nan
  | Flt.inf _, Flt.inf _ => Flt.nan
  | Flt.inf a, Flt.fin b _ => Flt.inf (xor a b)
  | Flt.fin a _, Flt.inf b => Flt.fin (xor a b) 0
  | Flt.fin a m, Flt.fin b k =>
    if k = 0 then (if m = 0 then Flt.nan else Flt.inf (xor a b))
    else roundMag f (xor a b) (m / k)

/-- Addition in the format `f`; an exact sum 0 is `-0` only for two negative zeros. -/
def Flt.add (f : Fmt) : Flt → Flt → Flt
  | Flt.nan, _ => Flt.nan
  | _, Flt.nan => Flt.nan
  | Flt.inf a, Flt.inf b => if a = b then Flt.inf a else Flt.nan
  | Flt.inf a, Flt.fin _ _ => Flt.inf a
  | Flt.fin _ _, Flt.inf b => Flt.inf b
  | Flt.fin a m, Flt.fin b k =>
    let s := (Flt.fin a m).value + (Flt.fin b k).value
    if s = 0 then Flt.fin (a && b) 0 else roundMag f (decide (s < 0)) |s|

/-- Subtraction in the format `f`. -/
def Flt.sub (f : Fmt) (x y : Flt) : Flt :=
  Flt.add f x y.negate

/-- The comparison `x >= y`: false when either side is not a number. -/
def Flt.ge : Flt → Flt → Bool
  | Flt.nan, _ => false
  | _, Flt.nan => false
  | Flt.inf a, Flt.inf b => !a || b
  | Flt.inf a, Flt.fin _ _ => !a
  | Flt.fin _ _, Flt.inf b => b
  | Flt.fin a m, Flt.fin b k => decide ((Flt.fin b k).value ≤ (Flt.fin a m).value)

/-- The floating-point operations of the animations, by the C type they are carried out in:
the `float` (`ALfloat`) operations, the `double` operations, the conversion of a `double` to
`float`, the conversion of a `long` to `double`, and the literal `1E-9`.  The comparison `>=`,
unary minus and the promotion of a `float` to `double` are exact in every arithmetic. -/
structure FPU where
  add32 : Flt → Flt → Flt
  sub32 : Flt → Flt → Flt
  mul32 : Flt → Flt → Flt
  add64 : Flt → Flt → Flt
  sub64 : Flt → Flt → Flt
  mul64 : Flt → Flt → Flt
  div64 : Flt → Flt → Flt
  toFloat : Flt → Flt
  ofLong : Int → Flt
  nano : Flt

/-- The arithmetic of the compiled program: IEEE 754 binary32 for `float`, binary64 for
`double`, every operation rounded once to nearest, ties to even. -/
def FPU.ieee : FPU :=
  { add32 := Flt.add binary32, sub32 := Flt.sub binary32, mul32 := Flt.mul binary32,
    add64 := Flt.add binary64, sub64 := Flt.sub binary64, mul64 := Flt.mul binary64,
    div64 := Flt.div binary64, toFloat := Flt.round binary32,
    ofLong := fun z => Flt.ofRat binary64 z, nano := Flt.ofRat binary64 (1 / 1000000000) }

/-- An operation without rounding error on finite values. -/
def Flt.exact2 (op : ℚ → ℚ → ℚ) (x y : Flt) : Flt :=
  if x.isFin && y.isFin then Flt.ofValue (op x.value y.value) else Flt.nan

/-- The arithmetic without rounding error on finite values: the exact arithmetic of the
position maps `Scale.position` and `Rotate.position`.  A division by 0 and every operation on
a value that is not finite give not-a-number. -/
def FPU.exact : FPU :=
  { add32 := Flt.exact2 (fun p q => p + q), sub32 := Flt.exact2 (fun p q => p - q),
    mul32 := Flt.exact2 (fun p q => p * q),
    add64 := Flt.exact2 (fun p q => p + q), sub64 := Flt.exact2 (fun p q => p - q),
    mul64 := Flt.exact2 (fun p q => p * q),
    div64 := fun x y => if y.value = 0 then Flt.nan else Flt.exact2 (fun p q => p / q) x y,
    toFloat := fun x => x, ofLong := fun z => Flt.ofValue z,
    nano := Flt.ofValue (1 / 1000000000) }

/-! ## Constants and machine words -/

abbrev ALuint := Nat
abbrev ALfloat := Flt

def NBUFFERS : Nat := 2
def BUFFER_INTERVAL : Nat := 1000

/-- The value of `sizeof(struct chunk)`: `char type[4]; unsigned int length`. -/
def sizeof_chunk : Nat := 8
/-- The value of `sizeof(struct riff_header)`: `char riff[4]; unsigned int length; char wave[4]`. -/
def sizeof_riff_header : Nat := 12
/-- The value of `sizeof(struct wave_format)`: 4 + 4 + 2 + 2 + 4 + 4 + 2 + 2 bytes. -/
def sizeof_wave_format : Nat := 24
/-- The value of `sizeof(struct pcm_header)`: `char data[4]; unsigned int length`. -/
def sizeof_pcm_header : Nat := 8

def HEADER_SIZE : Nat := sizeof_riff_header + sizeof_wave_format + sizeof_pcm_header

/-- Modulus of `size_t` / `unsigned long`. -/
def SIZE_MOD : Nat := 2 ^ 64
/-- Modulus of `unsigned int`. -/
def UINT_MOD : Nat := 2 ^ 32

/-! ## The mapped file -/

/-- The bytes of `tag` as `strncmp(-, tag, 4)` compares them. -/
def tag_RIFF : List Nat := [82, 73, 70, 70]
def tag_WAVE : List Nat := [87, 65, 86, 69]
def tag_fmt : List Nat := [102, 109, 116, 32]
def tag_data : List Nat := [100, 97, 116, 97]

/-- One byte of the mapping; `none` outside of it. -/
def readByte (f : List Nat) (p : Nat) : Option Nat :=
  (f.get? p).map (fun b => b % 256)

/-- Four bytes at `p` (a `char[4]` field). -/
def readTag (f : List Nat) (p : Nat) : Option (List Nat) :=
  match readByte f p, readByte f (p + 1), readByte f (p + 2), readByte f (p + 3) with
  | some a, some b, some c, some d => some [a, b, c, d]
  | _, _, _, _ => none

/-- Little-endian `unsigned short` at `p`. -/
def readU16 (f : List Nat) (p : Nat) : Option Nat :=
  match readByte f p, readByte f (p + 1) with
  | some a, some b => some (a + 256 * b)
  | _, _ => none

/-- Little-endian `unsigned int` at `p`. -/
def readU32 (f : List Nat) (p : Nat) : Option Nat :=
  match readByte f p, readByte f (p + 1), readByte f (p + 2), readByte f (p + 3) with
  | some a, some b, some c, some d => some (a + 256 * b + 65536 * c + 16777216 * d)
  | _, _, _, _ => none

/-! ## Buffer -/

inductive ALformat where
  | AL_FORMAT_MONO8
  | AL_FORMAT_MONO16
  | AL_FORMAT_STEREO8
  | AL_FORMAT_STEREO16
  deriving DecidableEq, Repr

/-- The fields of `class Buffer` (`st` is represented by `st_size`, `id` by `id0`, `id1`). -/
structure Buffer where
  id0 : ALuint
  id1 : ALuint
  st_size : Nat
  offset : Nat
  chunk_size : Nat
  format : ALformat
  frequency : Nat
  interval : Nat
  deriving DecidableEq, Repr

/-- The loop `while (strncmp(chead->type, "data", 4)) { buf += sizeof(struct chunk) +
chead->length; ... }` of `fromFile`, started with `buf` at byte `pos`.  It yields the position of
the chunk header whose tag is `data`.  Every iteration moves `pos` forward by at least 8 and needs
`pos + 4 <= size`, so `fuel = size` iterations are never used up. -/
def scanData (f : List Nat) : Nat → Nat → Except String Nat
  | 0, _ => Except.error "read outside of the mapping"
  | fuel + 1, pos =>
    match readTag f pos with
    | none => Except.error "read outside of the mapping"
    | some t =>
      if t = tag_data then Except.ok pos
      else
        match readU32 f (pos + 4) with
        | none => Except.error "read outside of the mapping"
        | some len => scanData f fuel (pos + sizeof_chunk + len)

/-- The or-shift sequence of `fromFile` followed by `chunk_size += 1`, on a 64-bit `size_t`. -/
def smear (x : Nat) : Nat :=
  let c := x
  let c := c ||| (c >>> 1)
  let c := c ||| (c >>> 2)
  let c := c ||| (c >>> 4)
  let c := c ||| (c >>> 8)
  let c := c ||| (c >>> 16)
  let c := c ||| (c >>> 32)
  (c + 1) % SIZE_MOD

/-- The part of `fromFile` from `offset = HEADER_SIZE` on: the chunk size and the interval
computed from `whead->bytes_per_second` and `st.st_size` (which is at least `HEADER_SIZE` here).
The integer division by `bytes_per_second = 0` is a failure. -/
def chunkParams (bytes_per_second st_size : Nat) : Except String (Nat × Nat) :=
  let chunk_size := bytes_per_second / 1000 * BUFFER_INTERVAL % UINT_MOD
  let interval := BUFFER_INTERVAL / 2
  let chunk_size := smear chunk_size
  if 2 * chunk_size % SIZE_MOD > st_size - HEADER_SIZE then
    let chunk_size := (st_size - HEADER_SIZE) / 2
    if bytes_per_second = 0 then Except.error "division by zero"
    else
      let interval := chunk_size * 1000 % SIZE_MOD / bytes_per_second
      let interval := interval / 2
      Except.ok (chunk_size, interval)
  else Except.ok (chunk_size, interval)

/-- The format selected from `whead->channels` and `whead->bits_per_sample`. -/
def selectFormat (channels bits_per_sample : Nat) : Except String ALformat :=
  if channels = 1 then
    Except.ok (if bits_per_sample = 8 then ALformat.AL_FORMAT_MONO8 else ALformat.AL_FORMAT_MONO16)
  else if channels = 2 then
    Except.ok (if bits_per_sample = 8 then ALformat.AL_FORMAT_STEREO8
      else ALformat.AL_FORMAT_STEREO16)
  else Except.error "bad number of channels"

/-- The header fields `fromFile` reads through `rhead`, `whead` and `phead`. -/
structure Header where
  riff : List Nat
  length : Nat
  wave : List Nat
  fmt : List Nat
  len : Nat
  channels : Nat
  sample_rate : Nat
  bytes_per_second : Nat
  bits_per_sample : Nat
  dataPos : Nat
  data : List Nat
  deriving DecidableEq, Repr

/-- The reads of `fromFile`: the fixed header at bytes 0..35, the chunk scan starting at
`sizeof(riff_header) + sizeof(wave_format)`, and the tag of the chunk the scan stopped at. -/
def readHeader (f : List Nat) : Except String Header :=
  match readTag f 0, readU32 f 4, readTag f 8, readTag f 12, readU32 f 16,
      readU16 f 22, readU32 f 24, readU32 f 28, readU16 f 34 with
  | some riff, some length, some wave, some fmt, some len,
      some channels, some sample_rate, some bytes_per_second, some bits_per_sample =>
    match scanData f f.length (sizeof_riff_header + sizeof_wave_format) with
    | Except.error e => Except.error e
    | Except.ok dataPos =>
      match readTag f dataPos with
      | none => Except.error "read outside of the mapping"
      | some data =>
        Except.ok { riff := riff, length := length, wave := wave, fmt := fmt, len := len,
                    channels := channels, sample_rate := sample_rate,
                    bytes_per_second := bytes_per_second, bits_per_sample := bits_per_sample,
                    dataPos := dataPos, data := data }
  | _, _, _, _, _, _, _, _, _ => Except.error "read outside of the mapping"

/-- The body of `Buffer::fromFile` on the mapped bytes `f` of a regular file; `id0`, `id1` are
the names `alGenBuffers(NBUFFERS, id)` hands out. -/
def Buffer.fromFile (f : List Nat) (id0 id1 : ALuint) : Except String Buffer :=
  let st_size := f.length
  if st_size < HEADER_SIZE then Except.error "muha"
  else
    match readHeader f with
    | Except.error e => Except.error e
    | Except.ok h =>
      if h.riff ≠ tag_RIFF ∨ h.wave ≠ tag_WAVE then Except.error "bad riff wave header"
      else if (h.length + 8) % UINT_MOD ≠ st_size then
        Except.error "someone is lying about the size of this wave"
      else if h.fmt ≠ tag_fmt ∨ h.len ≠ 16 then Except.error "bad wave format"
      else
        match selectFormat h.channels h.bits_per_sample with
        | Except.error e => Except.error e
        | Except.ok format =>
          if h.data ≠ tag_data then Except.error "bad pcm header"
          else
            match chunkParams h.bytes_per_second st_size with
            | Except.error e => Except.error e
            | Except.ok (chunk_size, interval) =>
              Except.ok { id0 := id0, id1 := id1, st_size := st_size, offset := HEADER_SIZE,
                          chunk_size := chunk_size, format := format,
                          frequency := h.sample_rate, interval := interval }

/-- The method `Buffer::left`: `st.st_size - offset` as a `size_t`. -/
def Buffer.left (b : Buffer) : Nat :=
  (b.st_size + SIZE_MOD - b.offset % SIZE_MOD) % SIZE_MOD

/-- The method `Buffer::reset`. -/
def Buffer.reset (b : Buffer) : Buffer :=
  { b with offset := HEADER_SIZE }

/-! ## The OpenAL backend -/

inductive ALenum where
  | AL_POSITION
  | AL_VELOCITY
  | AL_PITCH
  | AL_GAIN
  | AL_MIN_GAIN
  | AL_MAX_GAIN
  | AL_SOURCE_STATE
  | AL_BUFFERS_PROCESSED
  deriving DecidableEq, Repr

inductive ALstate where
  | AL_INITIAL
  | AL_PLAYING
  | AL_PAUSED
  | AL_STOPPED
  deriving DecidableEq, Repr

/-- The numeric value of a source state (`AL_INITIAL = 0x1011`, ...). -/
def ALstate.toInt : ALstate → Int
  | ALstate.AL_INITIAL => 4113
  | ALstate.AL_PLAYING => 4114
  | ALstate.AL_PAUSED => 4115
  | ALstate.AL_STOPPED => 4116

/-- An `ALfloat[3]`. -/
structure Vec3 where
  x : ALfloat
  y : ALfloat
  z : ALfloat
  deriving DecidableEq, Repr

/-- What the backend holds for one source name: the six parameters the program reads and
writes, the play state, the queue of buffer names (oldest first) and how many of the leading
queue entries have been processed. -/
structure Voice where
  position : Vec3
  velocity : Vec3
  pitch : ALfloat
  gain : ALfloat
  min_gain : ALfloat
  max_gain : ALfloat
  state : ALstate
  queue : List ALuint
  processed : Nat
  deriving DecidableEq, Repr

/-- The backend calls the program issues. -/
inductive ALCall where
  | alGetError
  | alGetSourcei (source : ALuint) (pname : ALenum)
  | alGetSourcef (source : ALuint) (pname : ALenum)
  | alGetSourcefv (source : ALuint) (pname : ALenum)
  | alSourcei (source : ALuint) (pname : ALenum) (value : Int)
  | alSourcef (source : ALuint) (pname : ALenum) (value : ALfloat)
  | alSourcefv (source : ALuint) (pname : ALenum) (value : Vec3)
  | alBufferData (buffer : ALuint) (format : ALformat) (start len frequency : Nat)
  | alSourceQueueBuffers (source buffer : ALuint)
  | alSourceUnqueueBuffers (source : ALuint)
  | alSourcePlay (source : ALuint)
  | alSourceStop (source : ALuint)
  | alSourcePause (source : ALuint)
  | alSourceRewind (source : ALuint)
  | alDeleteBuffers (id0 id1 : ALuint)
  | alDeleteSources (source : ALuint)
  deriving DecidableEq, Repr

/-- The backend: the state of every source name and the calls received so far. -/
structure AL where
  voices : ALuint → Voice
  log : List ALCall

def AL.call (al : AL) (c : ALCall) : AL :=
  { al with log := al.log ++ [c] }

def AL.setVoice (al : AL) (id : ALuint) (f : Voice → Voice) : AL :=
  { al with voices := fun j => if j = id then f (al.voices j) else al.voices j }

/-- The function `checkError`: `alGetError` yields `AL_NO_ERROR` and nothing is thrown. -/
def checkError (al : AL) : AL :=
  al.call ALCall.alGetError

def Voice.getf (v : Voice) : ALenum → ALfloat
  | ALenum.AL_PITCH => v.pitch
  | ALenum.AL_GAIN => v.gain
  | ALenum.AL_MIN_GAIN => v.min_gain
  | ALenum.AL_MAX_GAIN => v.max_gain
  | _ => 0

def Voice.setf (v : Voice) (x : ALfloat) : ALenum → Voice
  | ALenum.AL_PITCH => { v with pitch := x }
  | ALenum.AL_GAIN => { v with gain := x }
  | ALenum.AL_MIN_GAIN => { v with min_gain := x }
  | ALenum.AL_MAX_GAIN => { v with max_gain := x }
  | _ => v

def Voice.getfv (v : Voice) : ALenum → Vec3
  | ALenum.AL_POSITION => v.position
  | ALenum.AL_VELOCITY => v.velocity
  | _ => { x := 0, y := 0, z := 0 }

def Voice.setfv (v : Voice) (x : Vec3) : ALenum → Voice
  | ALenum.AL_POSITION => { v with position := x }
  | ALenum.AL_VELOCITY => { v with velocity := x }
  | _ => v

def Voice.geti (v : Voice) : ALenum → Int
  | ALenum.AL_SOURCE_STATE => v.state.toInt
  | ALenum.AL_BUFFERS_PROCESSED => v.processed
  | _ => 0

def alGetSourcei (al : AL) (id : ALuint) (pname : ALenum) : Int × AL :=
  ((al.voices id).geti pname, al.call (ALCall.alGetSourcei id pname))

def alGetSourcef (al : AL) (id : ALuint) (pname : ALenum) : ALfloat × AL :=
  ((al.voices id).getf pname, al.call (ALCall.alGetSourcef id pname))

def alGetSourcefv (al : AL) (id : ALuint) (pname : ALenum) : Vec3 × AL :=
  ((al.voices id).getfv pname, al.call (ALCall.alGetSourcefv id pname))

def alSourcef (al : AL) (id : ALuint) (pname : ALenum) (x : ALfloat) : AL :=
  (al.setVoice id (fun v => v.setf x pname)).call (ALCall.alSourcef id pname x)

def alSourcefv (al : AL) (id : ALuint) (pname : ALenum) (x : Vec3) : AL :=
  (al.setVoice id (fun v => v.setfv x pname)).call (ALCall.alSourcefv id pname x)

/-- The call `alBufferData(buffer, format, data + start, len, frequency)`. -/
def alBufferData (al : AL) (buffer : ALuint) (format : ALformat) (start len frequency : Nat) :
    AL :=
  al.call (ALCall.alBufferData buffer format start len frequency)

/-- Appends one buffer to the queue of the source. -/
def alSourceQueueBuffers (al : AL) (id buffer : ALuint) : AL :=
  (al.setVoice id (fun v => { v with queue := v.queue ++ [buffer] })).call
    (ALCall.alSourceQueueBuffers id buffer)

/-- Removes the oldest processed buffer from the queue and yields its name; with no processed
buffer the call has no effect and the name read back is 0. -/
def alSourceUnqueueBuffers (al : AL) (id : ALuint) : ALuint × AL :=
  let v := al.voices id
  match v.queue with
  | b :: rest =>
    if 0 < v.processed then
      (b, (al.setVoice id (fun v => { v with queue := rest, processed := v.processed - 1 })).call
        (ALCall.alSourceUnqueueBuffers id))
    else (0, al.call (ALCall.alSourceUnqueueBuffers id))
  | [] => (0, al.call (ALCall.alSourceUnqueueBuffers id))

/-- Playing resumes a paused source; from any other state it starts at the head of the queue. -/
def alSourcePlay (al : AL) (id : ALuint) : AL :=
  (al.setVoice id (fun v =>
    if v.state = ALstate.AL_PAUSED then { v with state := ALstate.AL_PLAYING }
    else { v with state := ALstate.AL_PLAYING, processed := 0 })).call (ALCall.alSourcePlay id)

/-- Stopping a source marks all of its queued buffers as processed. -/
def alSourceStop (al : AL) (id : ALuint) : AL :=
  (al.setVoice id (fun v =>
    { v with state := ALstate.AL_STOPPED, processed := v.queue.length })).call
    (ALCall.alSourceStop id)

def alSourcePause (al : AL) (id : ALuint) : AL :=
  (al.setVoice id (fun v =>
    if v.state = ALstate.AL_PLAYING then { v with state := ALstate.AL_PAUSED } else v)).call
    (ALCall.alSourcePause id)

def alSourceRewind (al : AL) (id : ALuint) : AL :=
  (al.setVoice id (fun v => { v with state := ALstate.AL_INITIAL, processed := 0 })).call
    (ALCall.alSourceRewind id)

/-! ## SourceSettings -/

/-- The fields of `class SourceSettings`: the source name and the cached `name ## _value`s. -/
structure SourceSettings where
  id : ALuint
  position_value : Vec3
  velocity_value : Vec3
  pitch_value : ALfloat
  gain_value : ALfloat
  min_gain_value : ALfloat
  max_gain_value : ALfloat
  state_value : Int
  buffers_processed_value : Int
  deriving DecidableEq, Repr

/-- The private `get(pname, ALfloat &)`. -/
def SourceSettings.getf (s : SourceSettings) (al : AL) (pname : ALenum) : ALfloat × AL :=
  let r := alGetSourcef al s.id pname
  (r.1, checkError r.2)

/-- The private `get(pname, ALfloat [])`. -/
def SourceSettings.getfv (s : SourceSettings) (al : AL) (pname : ALenum) : Vec3 × AL :=
  let r := alGetSourcefv al s.id pname
  (r.1, checkError r.2)

/-- The private `get(pname, ALint &)`. -/
def SourceSettings.geti (s : SourceSettings) (al : AL) (pname : ALenum) : Int × AL :=
  let r := alGetSourcei al s.id pname
  (r.1, checkError r.2)

/-- The private `set(pname, ALfloat)`. -/
def SourceSettings.setf (s : SourceSettings) (al : AL) (pname : ALenum) (x : ALfloat) : AL :=
  checkError (alSourcef al s.id pname x)

/-- The private `set(pname, ALfloat [])`. -/
def SourceSettings.setfv (s : SourceSettings) (al : AL) (pname : ALenum) (x : Vec3) : AL :=
  checkError (alSourcefv al s.id pname x)

/-- The getter `position()`. -/
def SourceSettings.position (s : SourceSettings) (al : AL) : Vec3 × SourceSettings × AL :=
  let r := s.getfv al ALenum.AL_POSITION
  (r.1, { s with position_value := r.1 }, r.2)

/-- The setters `position(ALfloat v[])` and `position(x, y, z)`. -/
def SourceSettings.set_position (s : SourceSettings) (al : AL) (v : Vec3) :
    SourceSettings × AL :=
  ({ s with position_value := v }, s.setfv al ALenum.AL_POSITION v)

/-- The getter `velocity()`. -/
def SourceSettings.velocity (s : SourceSettings) (al : AL) : Vec3 × SourceSettings × AL :=
  let r := s.getfv al ALenum.AL_VELOCITY
  (r.1, { s with velocity_value := r.1 }, r.2)

/-- The setters `velocity(ALfloat v[])` and `velocity(x, y, z)`. -/
def SourceSettings.set_velocity (s : SourceSettings) (al : AL) (v : Vec3) :
    SourceSettings × AL :=
  ({ s with velocity_value := v }, s.setfv al ALenum.AL_VELOCITY v)

/-- The getter `pitch()`. -/
def SourceSettings.pitch (s : SourceSettings) (al : AL) : ALfloat × SourceSettings × AL :=
  let r := s.getf al ALenum.AL_PITCH
  (r.1, { s with pitch_value := r.1 }, r.2)

/-- The setter `pitch(v)`. -/
def SourceSettings.set_pitch (s : SourceSettings) (al : AL) (v : ALfloat) :
    SourceSettings × AL :=
  ({ s with pitch_value := v }, s.setf al ALenum.AL_PITCH v)

/-- The getter `gain()`. -/
def SourceSettings.gain (s : SourceSettings) (al : AL) : ALfloat × SourceSettings × AL :=
  let r := s.getf al ALenum.AL_GAIN
  (r.1, { s with gain_value := r.1 }, r.2)

/-- The setter `gain(v)`. -/
def SourceSettings.set_gain (s : SourceSettings) (al : AL) (v : ALfloat) :
    SourceSettings × AL :=
  ({ s with gain_value := v }, s.setf al ALenum.AL_GAIN v)

/-- The getter `min_gain()`. -/
def SourceSettings.min_gain (s : SourceSettings) (al : AL) : ALfloat × SourceSettings × AL :=
  let r := s.getf al ALenum.AL_MIN_GAIN
  (r.1, { s with min_gain_value := r.1 }, r.2)

/-- The setter `min_gain(v)`. -/
def SourceSettings.set_min_gain (s : SourceSettings) (al : AL) (v : ALfloat) :
    SourceSettings × AL :=
  ({ s with min_gain_value := v }, s.setf al ALenum.AL_MIN_GAIN v)

/-- The getter `max_gain()`. -/
def SourceSettings.max_gain (s : SourceSettings) (al : AL) : ALfloat × SourceSettings × AL :=
  let r := s.getf al ALenum.AL_MAX_GAIN
  (r.1, { s with max_gain_value := r.1 }, r.2)

/-- The setter `max_gain(v)`. -/
def SourceSettings.set_max_gain (s : SourceSettings) (al : AL) (v : ALfloat) :
    SourceSettings × AL :=
  ({ s with max_gain_value := v }, s.setf al ALenum.AL_MAX_GAIN v)

/-- The getter `buffers_processed()`. -/
def SourceSettings.buffers_processed (s : SourceSettings) (al : AL) :
    Int × SourceSettings × AL :=
  let r := s.geti al ALenum.AL_BUFFERS_PROCESSED
  (r.1, { s with buffers_processed_value := r.1 }, r.2)

/-- The getter `state()`. -/
def SourceSettings.state (s : SourceSettings) (al : AL) : Int × SourceSettings × AL :=
  let r := s.geti al ALenum.AL_SOURCE_STATE
  (r.1, { s with state_value := r.1 }, r.2)

/-- The method `SourceSettings::update`. -/
def SourceSettings.update (s : SourceSettings) (al : AL) : SourceSettings × AL :=
  let r := s.position al
  let r := r.2.1.velocity r.2.2
  let r := r.2.1.pitch r.2.2
  let r := r.2.1.gain r.2.2
  let r := r.2.1.min_gain r.2.2
  let r := r.2.1.max_gain r.2.2
  (r.2.1, r.2.2)

/-- The method `SourceSettings::apply`. -/
def SourceSettings.apply (s : SourceSettings) (al : AL) : SourceSettings × AL :=
  let r := s.set_position al s.position_value
  let r := r.1.set_velocity r.2 r.1.velocity_value
  let r := r.1.set_pitch r.2 r.1.pitch_value
  let r := r.1.set_gain r.2 r.1.gain_value
  let r := r.1.set_min_gain r.2 r.1.min_gain_value
  let r := r.1.set_max_gain r.2 r.1.max_gain_value
  r

/-- The constructor `SourceSettings(ALuint _id)`; the two integer fields are not initialised by
the source and are 0 here. -/
def SourceSettings.new (id : ALuint) (al : AL) : SourceSettings × AL :=
  SourceSettings.update
    { id := id, position_value := { x := 0, y := 0, z := 0 },
      velocity_value := { x := 0, y := 0, z := 0 }, pitch_value := 0, gain_value := 0,
      min_gain_value := 0, max_gain_value := 0, state_value := 0,
      buffers_processed_value := 0 } al

/-- The six parameters of an emitter as the backend holds them. -/
def Voice.params (v : Voice) : Vec3 × Vec3 × ALfloat × ALfloat × ALfloat × ALfloat :=
  (v.position, v.velocity, v.pitch, v.gain, v.min_gain, v.max_gain)

/-- The six parameters of an emitter as `SourceSettings` caches them. -/
def SourceSettings.params (c : SourceSettings) :
    Vec3 × Vec3 × ALfloat × ALfloat × ALfloat × ALfloat :=
  (c.position_value, c.velocity_value, c.pitch_value, c.gain_value, c.min_gain_value,
    c.max_gain_value)

/-- The settings that `SourceSettings(id)` reads off a voice. -/
def SourceSettings.ofVoice (id : ALuint) (v : Voice) : SourceSettings :=
  { id := id, position_value := v.position, velocity_value := v.velocity,
    pitch_value := v.pitch, gain_value := v.gain, min_gain_value := v.min_gain,
    max_gain_value := v.max_gain, state_value := 0, buffers_processed_value := 0 }

/-! ## Source and the feeding of its buffer -/

/-- The fields of `class Source` (the libevent timer is represented by `timer_set`). -/
structure Source extends SourceSettings where
  buffer : Option Buffer
  _loop : Bool
  paused : Bool
  timer_set : Bool
  deriving DecidableEq, Repr

/-- The method `Source::enqueue_buffer`. -/
def Source.enqueue_buffer (id : ALuint) (al : AL) (buf_id : ALuint) : AL :=
  alSourceQueueBuffers al id buf_id

/-- The method `Source::unqueue_buffer`. -/
def Source.unqueue_buffer (id : ALuint) (al : AL) : ALuint × AL :=
  alSourceUnqueueBuffers al id

/-- The offset lies between the header and the end of the file, whose size is a `size_t`. -/
def Buffer.inv (b : Buffer) : Prop :=
  HEADER_SIZE ≤ b.offset ∧ b.offset ≤ b.st_size ∧ b.st_size < SIZE_MOD

/-- The function `Buffer::feed_one`; `source` is the name of the source the buffer is queued
on.  Yields the `int` returned, the buffer and the backend. -/
def Buffer.feed_one (b : Buffer) (source : ALuint) (al : AL) (buffer : ALuint) (len : Nat) :
    Nat × Buffer × AL :=
  if b.left = 0 then (0, b, al)
  else
    let len := if b.left < len then b.left else len
    let al := alBufferData al buffer b.format b.offset len b.frequency
    let b := { b with offset := (b.offset + len) % SIZE_MOD }
    let al := Source.enqueue_buffer source al buffer
    (1, b, al)

/-- Repeated calls `feed_one(source, buffer, chunk_size)`: the values returned, oldest first,
the buffer and the backend after `n` calls. -/
def Buffer.feed_repeat (source buffer : ALuint) : Nat → Buffer → AL → List Nat × Buffer × AL
  | 0, b, al => ([], b, al)
  | n + 1, b, al =>
    let r := b.feed_one source al buffer b.chunk_size
    let t := Buffer.feed_repeat source buffer n r.2.1 r.2.2
    (r.1 :: t.1, t.2)

/-- The function `Buffer::feed_start`. -/
def Buffer.feed_start (b : Buffer) (source : ALuint) (loop : Bool) (al : AL) :
    Nat × Buffer × AL :=
  let r := b.feed_one source al b.id0 b.chunk_size
  let b := r.2.1
  let b := if b.left = 0 ∧ loop = true then b.reset else b
  b.feed_one source r.2.2 b.id1 b.chunk_size

/-- The loop `while (num--) { ... }` of `Buffer::feed_more`, with the `return 1` after it. -/
def Buffer.feed_more_loop (source : ALuint) (loop : Bool) :
    Nat → Buffer → AL → Nat × Buffer × AL
  | 0, b, al => (1, b, al)
  | num + 1, b, al =>
    let b := if b.left = 0 ∧ loop = true then b.reset else b
    let u := Source.unqueue_buffer source al
    let r := b.feed_one source u.2 u.1 b.chunk_size
    if r.1 = 0 then (0, r.2.1, r.2.2)
    else Buffer.feed_more_loop source loop num r.2.1 r.2.2

/-- The function `Buffer::feed_more` on the buffer bound to `s`; `num` is the `ALint` count
read back, which is not negative, so its conversion to `ALuint` keeps the value. -/
def Buffer.feed_more (b : Buffer) (s : Source) (al : AL) : Nat × Buffer × Source × AL :=
  let g := s.toSourceSettings.buffers_processed al
  let s := { s with toSourceSettings := g.2.1 }
  let num := g.1.toNat
  let r := Buffer.feed_more_loop s.id s._loop num b g.2.2
  (r.1, r.2.1, s, r.2.2)

/-- The method `Source::timer_continue`. -/
def Source.timer_continue (s : Source) : Source :=
  if s.timer_set = false then { s with timer_set := true } else s

/-- The method `Source::timer_stop`. -/
def Source.timer_stop (s : Source) : Source :=
  if s.timer_set = true then { s with timer_set := false } else s

/-- The method `Source::timer_start`. -/
def Source.timer_start (s : Source) (al : AL) : Source × AL :=
  match s.buffer with
  | none => (s, al)
  | some b =>
    let r := b.feed_start s.id s._loop al
    let s := { s with buffer := some r.2.1 }
    if r.1 ≠ 0 then (s.timer_continue, r.2.2) else (s, r.2.2)

/-- The loop `while (num--) unqueue_buffer();` of `Source::Stop`. -/
def Source.unqueue_all (id : ALuint) : Nat → AL → AL
  | 0, al => al
  | num + 1, al => Source.unqueue_all id num (Source.unqueue_buffer id al).2

/-- The method `Source::Stop`. -/
def Source.Stop (s : Source) (al : AL) : Source × AL :=
  match s.buffer with
  | none => (s, al)
  | some b =>
    let s := s.timer_stop
    let s := { s with buffer := some b.reset }
    let al := alSourceStop al s.id
    let s := { s with paused := false }
    let g := s.toSourceSettings.buffers_processed al
    let s := { s with toSourceSettings := g.2.1 }
    let num := g.1.toNat
    (s, Source.unqueue_all s.id num g.2.2)

/-- The method `Source::Play`. -/
def Source.Play (s : Source) (al : AL) : Source × AL :=
  match s.buffer with
  | none => (s, al)
  | some _ =>
    if s.paused = true then
      let s := { s with paused := false }
      let s := s.timer_continue
      (s, alSourcePlay al s.id)
    else
      let r := s.Stop al
      let r := r.1.timer_start r.2
      (r.1, alSourcePlay r.2 r.1.id)

/-- The method `Source::Rewind`. -/
def Source.Rewind (s : Source) (al : AL) : Source × AL :=
  match s.buffer with
  | none => (s, al)
  | some b =>
    let s := { s with buffer := some b.reset }
    let al := alSourceRewind al s.id
    ({ s with paused := false }, al)

/-- The method `Source::Pause`. -/
def Source.Pause (s : Source) (al : AL) : Source × AL :=
  let s := { s with paused := true }
  let s := s.timer_stop
  (s, alSourcePause al s.id)

/-- The method `Source::run`, the body of the refill timer callback. -/
def Source.run (s : Source) (al : AL) : Source × AL :=
  let s := { s with timer_set := false }
  match s.buffer with
  | none => (s, al)
  | some b =>
    let r := b.feed_more s al
    let s := { r.2.2.1 with buffer := some r.2.1 }
    if r.1 ≠ 0 then (s.timer_continue, r.2.2.2) else (s, r.2.2.2)

/-! ## Animations -/

/-- A `struct timespec`. -/
structure timespec where
  tv_sec : Int
  tv_nsec : Int
  deriving DecidableEq, Repr

/-- The functions of `<cmath>` the animations call: `std::sqrt` on a `float` (the `float`
overload), `cos` and `sin` on a `double`. -/
structure Libm where
  sqrt : Flt → Flt
  cos : Flt → Flt
  sin : Flt → Flt

/-- The subclasses of `Animation` with their own fields (`t0` is a `double`). -/
inductive AnimKind where
  | FadeGain (old_gain new_gain : ALfloat)
  | Scale (speed : ALfloat) (t0 : Flt)
  | Rotate (speed : ALfloat) (t0 : Flt)
  deriving DecidableEq, Repr

/-- The fields of `class Animation` (`end_` is the field `end`, `length` is a `double`);
`source` points to the emitter the animation acts on. -/
structure Animation where
  start : timespec
  end_ : timespec
  now : timespec
  length : Flt
  source : ALuint
  kind : AnimKind
  deriving DecidableEq, Repr

/-- The method `Animation::update`, with the reading `clock_gettime` delivers. -/
def Animation.update (a : Animation) (t : timespec) : Animation :=
  { a with now := t }

/-- The numerator of `Animation::p`:
`(now.tv_sec - start.tv_sec) + (now.tv_nsec - start.tv_nsec)*1E-9`, the two differences being
`long`, the product and the sum `double`. -/
def Animation.elapsed (U : FPU) (a : Animation) : Flt :=
  U.add64 (U.ofLong (a.now.tv_sec - a.start.tv_sec))
    (U.mul64 (U.ofLong (a.now.tv_nsec - a.start.tv_nsec)) U.nano)

/-- The method `Animation::p`. -/
def Animation.p (U : FPU) (a : Animation) : Flt :=
  U.div64 (a.elapsed U) a.length

/-- The method `Animation::done`: `p() >= 1.0`. -/
def Animation.done (U : FPU) (a : Animation) : Bool :=
  Flt.ge (a.p U) 1

/-- The setter `gain(v)` called on a `Source`. -/
def Source.set_gain (s : Source) (al : AL) (v : ALfloat) : Source × AL :=
  let r := s.toSourceSettings.set_gain al v
  ({ s with toSourceSettings := r.1 }, r.2)

/-- The setter `pitch(v)` called on a `Source`. -/
def Source.set_pitch (s : Source) (al : AL) (v : ALfloat) : Source × AL :=
  let r := s.toSourceSettings.set_pitch al v
  ({ s with toSourceSettings := r.1 }, r.2)

/-- The getter `position()` called on a `Source`. -/
def Source.position (s : Source) (al : AL) : Vec3 × Source × AL :=
  let r := s.toSourceSettings.position al
  (r.1, { s with toSourceSettings := r.2.1 }, r.2.2)

/-- The setter `position(x, y, z)` called on a `Source`. -/
def Source.set_position (s : Source) (al : AL) (v : Vec3) : Source × AL :=
  let r := s.toSourceSettings.set_position al v
  ({ s with toSourceSettings := r.1 }, r.2)

/-- The setter `velocity(v)` called on a `Source`. -/
def Source.set_velocity (s : Source) (al : AL) (v : Vec3) : Source × AL :=
  let r := s.toSourceSettings.set_velocity al v
  ({ s with toSourceSettings := r.1 }, r.2)

/-- The setter `loop(bool v)`. -/
def Source.set_loop (s : Source) (al : AL) (v : Bool) : Source × AL :=
  ({ s with _loop := v }, al)

/-- The method `Source::update` (inherited). -/
def Source.update (s : Source) (al : AL) : Source × AL :=
  let r := s.toSourceSettings.update al
  ({ s with toSourceSettings := r.1 }, r.2)

/-- The virtual method `step` of `FadeGain`, `Scale` and `Rotate`, acting on the emitter `s`
that `source` points to.  An argument of a setter is converted to `ALfloat`. -/
def Animation.step (U : FPU) (M : Libm) (a : Animation) (s : Source) (al : AL) :
    Animation × Source × AL :=
  match a.kind with
  | AnimKind.FadeGain old_gain new_gain =>
    let t := a.p U
    if Flt.ge t 1 then
      let r := s.set_gain al new_gain
      (a, r.1, r.2)
    else
      let r := s.set_gain al
        (U.toFloat (U.add64 old_gain (U.mul64 (U.sub32 new_gain old_gain) t)))
      (a, r.1, r.2)
  | AnimKind.Scale speed t0 =>
    let g := s.position al
    let v := g.1
    let r := M.sqrt (U.add32 (U.add32 (U.mul32 v.x v.x) (U.mul32 v.y v.y)) (U.mul32 v.z v.z))
    let t := U.mul64 (U.sub64 (a.p U) t0) speed
    let t := U.div64 (U.add64 r t) r
    let w := g.2.1.set_position g.2.2
      { x := U.toFloat (U.mul64 v.x t), y := U.toFloat (U.mul64 v.y t),
        z := U.toFloat (U.mul64 v.z t) }
    ({ a with kind := AnimKind.Scale speed (a.p U) }, w.1, w.2)
  | AnimKind.Rotate speed t0 =>
    let g := s.position al
    let v := g.1
    let t := U.mul64 (U.sub64 (a.p U) t0) speed
    let ca := U.toFloat (M.cos t)
    let cd := ca
    let cb := U.toFloat (M.sin t)
    let cc := cb.negate
    let w := g.2.1.set_position g.2.2
      { x := U.add32 (U.mul32 v.x ca) (U.mul32 v.z cb), y := v.y,
        z := U.add32 (U.mul32 v.x cc) (U.mul32 v.z cd) }
    ({ a with kind := AnimKind.Rotate speed (a.p U) }, w.1, w.2)

/-- The emitter a `Source *` points to, among the emitters the device owns. -/
def lookupSource (srcs : List Source) (p : ALuint) : Option Source :=
  srcs.find? (fun s => s.id = p)

/-- Writes `s` back over the emitter with the same name. -/
def storeSource : List Source → Source → List Source
  | [], _ => []
  | x :: rest, s => if x.id = s.id then s :: rest else x :: storeSource rest s

/-- Runs a method of `Source` on the emitter `p` points to.  With no such emitter (a dangling
pointer, undefined behaviour in C) nothing happens. -/
def withSource (f : Source → AL → Source × AL) (srcs : List Source) (p : ALuint) (al : AL) :
    List Source × AL :=
  match lookupSource srcs p with
  | none => (srcs, al)
  | some s =>
    let r := f s al
    (storeSource srcs r.1, r.2)

/-- The class `Animator`: the list `l` of active animations. -/
structure Animator where
  l : List Animation
  deriving DecidableEq, Repr

/-- The method `Animator::add`. -/
def Animator.add (an : Animator) (a : Animation) : Animator :=
  { l := an.l ++ [a] }

/-- The body of the loop of `Animator::run` for one animation: `update`, `step`, `done`.
Yields the animation if it stays in the list, `none` if it is erased. -/
def Animator.visit (U : FPU) (M : Libm) (t : timespec) (a : Animation) (srcs : List Source)
    (al : AL) : Option Animation × List Source × AL :=
  let a := a.update t
  match lookupSource srcs a.source with
  | none => (if a.done U then none else some a, srcs, al)
  | some s =>
    let r := a.step U M s al
    (if r.1.done U then none else some r.1, storeSource srcs r.2.1, r.2.2)

/-- The loop of `Animator::run`; `now i` is the clock reading of the `i`-th `update`. -/
def Animator.run_loop (U : FPU) (M : Libm) (now : Nat → timespec) :
    Nat → List Animation → List Source → AL → List Animation × List Source × AL
  | _, [], srcs, al => ([], srcs, al)
  | i, a :: rest, srcs, al =>
    let v := Animator.visit U M (now i) a srcs al
    let r := Animator.run_loop U M now (i + 1) rest v.2.1 v.2.2
    (v.1.toList ++ r.1, r.2)

/-- The method `Animator::run`, one tick of the animation timer. -/
def Animator.run (U : FPU) (M : Libm) (now : Nat → timespec) (an : Animator)
    (srcs : List Source) (al : AL) : Animator × List Source × AL :=
  let r := Animator.run_loop U M now 0 an.l srcs al
  ({ l := r.1 }, r.2)

/-- A sequence of ticks of the animation timer, one clock per tick. -/
def Animator.ticks (U : FPU) (M : Libm) :
    List (Nat → timespec) → Animator → List Source → AL → Animator × List Source × AL
  | [], an, srcs, al => (an, srcs, al)
  | now :: rest, an, srcs, al =>
    let r := Animator.run U M now an srcs al
    Animator.ticks U M rest r.1 r.2.1 r.2.2

/-- The loop of `Animator::removeSource`. -/
def Animator.remove_loop (s : ALuint) : List Animation → List Animation
  | [] => []
  | a :: rest =>
    if a.source = s then Animator.remove_loop s rest else a :: Animator.remove_loop s rest

/-- The method `Animator::removeSource`. -/
def Animator.removeSource (an : Animator) (s : ALuint) : Animator :=
  { l := Animator.remove_loop s an.l }

/-! ## Device -/

/-- The order of `std::string` keys: byte-wise lexicographic. -/
def lexLt : List Nat → List Nat → Bool
  | [], [] => false
  | [], _ :: _ => true
  | _ :: _, [] => false
  | a :: as, b :: bs => if a < b then true else if b < a then false else lexLt as bs

def keyLt (a b : String) : Bool :=
  lexLt (a.toList.map Char.toNat) (b.toList.map Char.toNat)

/-- The method `std::map::find`. -/
def mapFind (m : List (String × ALuint)) (k : String) : Option ALuint :=
  (m.find? (fun e => e.1 = k)).map (fun e => e.2)

/-- Puts a new key at its place in key order. -/
def mapPlace (k : String) (v : ALuint) : List (String × ALuint) → List (String × ALuint)
  | [] => [(k, v)]
  | e :: rest => if keyLt k e.1 then (k, v) :: e :: rest else e :: mapPlace k v rest

/-- The method `std::map::insert`: a key that is present keeps its element. -/
def mapInsert (m : List (String × ALuint)) (k : String) (v : ALuint) :
    List (String × ALuint) :=
  match mapFind m k with
  | some _ => m
  | none => mapPlace k v m

/-- The values a selector (a `Json::Value`) can take, as `getSource` and `Ids2Sources` tell
them apart: `num n` is a numeric value with `asUInt() = n`, `other` is a value that is neither
numeric nor a string, a bool nor an array. -/
inductive JsonItem where
  | num (n : Nat)
  | str (s : String)
  | other
  deriving DecidableEq, Repr

inductive Json where
  | item (v : JsonItem)
  | bool (b : Bool)
  | arr (l : List JsonItem)
  deriving DecidableEq, Repr

/-- The fields of `class Device` that the registry operations use; `name2source` is kept in
key order. -/
structure Device where
  sources : List Source
  snapshot : List SourceSettings
  name2source : List (String × ALuint)
  animator : Animator
  deriving DecidableEq, Repr

/-- The method `Device::addName`; the message on a name already present goes to `std::cerr`
and nothing is thrown. -/
def Device.addName (d : Device) (name : String) (s : ALuint) : Device :=
  { d with name2source := mapInsert d.name2source name s }

/-- The method `Source::copy`. -/
def Source.copy (s : Source) (al : AL) : SourceSettings × AL :=
  SourceSettings.new s.id al

/-- The second loop of `Device::makeSnapshot`. -/
def Device.copy_loop : List Source → AL → List SourceSettings × AL
  | [], al => ([], al)
  | s :: rest, al =>
    let c := s.copy al
    let r := Device.copy_loop rest c.2
    (c.1 :: r.1, r.2)

/-- The method `Device::makeSnapshot`. -/
def Device.makeSnapshot (d : Device) (al : AL) : Device × AL :=
  let r := Device.copy_loop d.sources al
  ({ d with snapshot := r.1 }, r.2)

/-- The loop of `Device::applySnapshot` over `snapshot[i]`, `sources[i]`. -/
def Device.apply_loop :
    List SourceSettings → List Source → AL → List SourceSettings × List Source × AL
  | c :: snap, s :: srcs, al =>
    let a := c.apply al
    let u := s.update a.2
    let r := Device.apply_loop snap srcs u.2
    (a.1 :: r.1, u.1 :: r.2.1, r.2.2)
  | snap, srcs, al => (snap, srcs, al)

/-- The method `Device::applySnapshot`.  The first component is the exception thrown, if any;
it is thrown before anything is changed. -/
def Device.applySnapshot (d : Device) (al : AL) : Except String Unit × Device × AL :=
  if d.sources.length ≠ d.snapshot.length then
    (Except.error "mismatching snapshot", d, al)
  else
    let r := Device.apply_loop d.snapshot d.sources al
    (Except.ok (), { d with snapshot := r.1, sources := r.2.1 }, r.2.2)

/-- The method `Device::getSource(size_t n)`; an index outside of `sources` (undefined
behaviour in C) is a failure. -/
def Device.getSourceAt (d : Device) (n : Nat) : Except String ALuint :=
  match d.sources.get? n with
  | some s => Except.ok s.id
  | none => Except.error "index outside of sources"

/-- The method `Device::getSource(const std::string &)`. -/
def Device.getSourceNamed (d : Device) (s : String) : Except String ALuint :=
  match mapFind d.name2source s with
  | none => Except.error "Could not find source by name."
  | some p => Except.ok p

/-- The method `Device::getSource(Json::Value &)`. -/
def Device.getSource (d : Device) : JsonItem → Except String ALuint
  | JsonItem.num n => d.getSourceAt n
  | JsonItem.str s => d.getSourceNamed s
  | JsonItem.other => Except.error "Bad argument 1 to getSource(). Expected uint or string."

/-- The loop of `Ids2Sources` over the elements of an array. -/
def Device.resolve_loop (d : Device) : List JsonItem → Except String (List ALuint)
  | [] => Except.ok []
  | v :: rest =>
    match d.getSource v with
    | Except.error e => Except.error e
    | Except.ok p =>
      match Device.resolve_loop d rest with
      | Except.error e => Except.error e
      | Except.ok ps => Except.ok (p :: ps)

/-- The method `Device::Ids2Sources`. -/
def Device.Ids2Sources (d : Device) : Json → Except String (List ALuint)
  | Json.arr (v :: rest) => d.resolve_loop (v :: rest)
  | Json.bool true => Except.ok (d.sources.map (fun s => s.id))
  | Json.bool false =>
    Except.error "bad argument one to Json2Ids. Expected string|int|array|true"
  | Json.item v =>
    match d.getSource v with
    | Except.error e => Except.error e
    | Except.ok p => Except.ok [p]
  | Json.arr [] => Except.error "Bad argument 1 to getSource(). Expected uint or string."

/-- The loop `for (it = a.begin(); it != a.end(); it++) (*it)->name();`. -/
def Device.each (f : Source → AL → Source × AL) :
    List ALuint → List Source → AL → List Source × AL
  | [], srcs, al => (srcs, al)
  | p :: rest, srcs, al =>
    let r := withSource f srcs p al
    Device.each f rest r.1 r.2

/-- The methods `DEVICE_ACTION(name)` defines, for the method `name` of `Source`.  The first
component is the exception thrown, if any. -/
def Device.ACTION (name : Source → AL → Source × AL) (d : Device) (ids : Json) (al : AL) :
    Except String Unit × Device × AL :=
  match d.Ids2Sources ids with
  | Except.error e => (Except.error e, d, al)
  | Except.ok a =>
    let r := Device.each name a d.sources al
    (Except.ok (), { d with sources := r.1 }, r.2)

def Device.Play : Device → Json → AL → Except String Unit × Device × AL :=
  Device.ACTION Source.Play

def Device.Pause : Device → Json → AL → Except String Unit × Device × AL :=
  Device.ACTION Source.Pause

def Device.Stop : Device → Json → AL → Except String Unit × Device × AL :=
  Device.ACTION Source.Stop

def Device.Rewind : Device → Json → AL → Except String Unit × Device × AL :=
  Device.ACTION Source.Rewind

/-- The methods the second `FUN(name, type)` defines (the bulk setters), for the setter `name`
of `Source`; `f` is what `Json2AL(f, _f)` yields. -/
def Device.FUN {α : Type} (name : Source → AL → α → Source × AL) (d : Device) (ids : Json)
    (f : Except String α) (al : AL) : Except String Unit × Device × AL :=
  match d.Ids2Sources ids with
  | Except.error e => (Except.error e, d, al)
  | Except.ok a =>
    match f with
    | Except.error e => (Except.error e, d, al)
    | Except.ok _f =>
      let r := Device.each (fun s al => name s al _f) a d.sources al
      (Except.ok (), { d with sources := r.1 }, r.2)

def Device.gain : Device → Json → Except String ALfloat → AL →
    Except String Unit × Device × AL :=
  Device.FUN Source.set_gain

def Device.pitch : Device → Json → Except String ALfloat → AL →
    Except String Unit × Device × AL :=
  Device.FUN Source.set_pitch

def Device.loop : Device → Json → Except String Bool → AL →
    Except String Unit × Device × AL :=
  Device.FUN Source.set_loop

def Device.position : Device → Json → Except String Vec3 → AL →
    Except String Unit × Device × AL :=
  Device.FUN Source.set_position

def Device.velocity : Device → Json → Except String Vec3 → AL →
    Except String Unit × Device × AL :=
  Device.FUN Source.set_velocity

/-- What `alGenSources` yields and `alDeleteSources` leaves behind for a name: a source with
the default parameters in its initial state. -/
def Voice.fresh : Voice :=
  { position := { x := 0, y := 0, z := 0 }, velocity := { x := 0, y := 0, z := 0 },
    pitch := 1, gain := 1, min_gain := 0, max_gain := 1, state := ALstate.AL_INITIAL,
    queue := [], processed := 0 }

def alDeleteSources (al : AL) (id : ALuint) : AL :=
  (al.setVoice id (fun _ => Voice.fresh)).call (ALCall.alDeleteSources id)

/-- The destructor `~Buffer`. -/
def Buffer.destroy (b : Buffer) (al : AL) : AL :=
  al.call (ALCall.alDeleteBuffers b.id0 b.id1)

/-- The destructor `~Source`. -/
def Source.destroy (s : Source) (al : AL) : AL :=
  let r := s.Stop al
  let al :=
    match r.1.buffer with
    | some b => b.destroy r.2
    | none => r.2
  alDeleteSources al r.1.id

/-- Erases the last element that satisfies `p`, as the reverse-iterator loops of
`Device::removeSource` do. -/
def eraseLast {α : Type} (p : α → Bool) (l : List α) : List α :=
  (l.reverse.eraseP p).reverse

/-- The method `Device::removeSource`; `s` is the pointer, whose `id` is read first. -/
def Device.removeSource (d : Device) (s : ALuint) (al : AL) : Device × AL :=
  let snapshot := eraseLast (fun c => c.id = s) d.snapshot
  let al :=
    match d.sources.reverse.find? (fun x => x.id = s) with
    | some x => x.destroy al
    | none => al
  let sources := eraseLast (fun x => x.id = s) d.sources
  let name2source := d.name2source.eraseP (fun e => e.2 = s)
  ({ d with snapshot := snapshot, sources := sources, name2source := name2source }, al)

/-- The loop of `Device::removeSources`. -/
def Device.remove_loop : List ALuint → Device → AL → Device × AL
  | [], d, al => (d, al)
  | s :: rest, d, al =>
    let d := { d with animator := d.animator.removeSource s }
    let r := d.removeSource s al
    Device.remove_loop rest r.1 r.2

/-- The method `Device::removeSources`. -/
def Device.removeSources (d : Device) (ids : Json) (al : AL) :
    Except String Unit × Device × AL :=
  match d.Ids2Sources ids with
  | Except.error e => (Except.error e, d, al)
  | Except.ok a =>
    let r := Device.remove_loop a d al
    (Except.ok (), r.1, r.2)

/-! ## Example files -/

/-- Little-endian bytes of a 32-bit word. -/
def le32 (n : Nat) : List Nat :=
  [n % 256, n / 256 % 256, n / 65536 % 256, n / 16777216 % 256]

/-- Little-endian bytes of a 16-bit word. -/
def le16 (n : Nat) : List Nat :=
  [n % 256, n / 256 % 256]

/-- A RIFF/WAVE file: the 12-byte RIFF header, the 24-byte format chunk, the bytes `extra`
(zero or more whole chunks), then a `data` chunk holding `samples`. -/
def wavFile (channels sample_rate bytes_per_second bits_per_sample : Nat)
    (extra samples : List Nat) : List Nat :=
  tag_RIFF ++ le32 (36 + extra.length + samples.length) ++ tag_WAVE ++
  tag_fmt ++ le32 16 ++ le16 1 ++ le16 channels ++ le32 sample_rate ++
  le32 bytes_per_second ++ le16 (channels * bits_per_sample / 8) ++ le16 bits_per_sample ++
  extra ++ tag_data ++ le32 samples.length ++ samples

/-- A 16-bit mono 44100 Hz file with four bytes of samples. -/
def fileFourBytes : List Nat := wavFile 1 44100 88200 16 [] [1, 2, 3, 4]

/-- An emitter with no bound buffer, as the constructor `Source(Device *)` leaves it. -/
def unboundSource : Source :=
  { id := 1, position_value := { x := 0, y := 0, z := 0 },
    velocity_value := { x := 0, y := 0, z := 0 }, pitch_value := 1, gain_value := 1,
    min_gain_value := 0, max_gain_value := 1, state_value := 0, buffers_processed_value := 0,
    buffer := none, _loop := false, paused := false, timer_set := false }

/-- A voice in its initial state with an empty queue. -/
def voice0 : Voice :=
  { position := { x := 0, y := 0, z := 0 }, velocity := { x := 0, y := 0, z := 0 },
    pitch := 1, gain := 1, min_gain := 0, max_gain := 1, state := ALstate.AL_INITIAL,
    queue := [], processed := 0 }

/-- A backend in which every voice is initial and no call has been made. -/
def al0 : AL :=
  { voices := fun _ => voice0, log := [] }

/-- A buffer whose offset has reached the end of its file. -/
def exhaustedBuffer : Buffer :=
  { id0 := 7, id1 := 8, st_size := 48, offset := 48, chunk_size := 2,
    format := ALformat.AL_FORMAT_MONO16, frequency := 44100, interval := 0 }

/-- An emitter bound to `exhaustedBuffer`, not looping, with its timer fired. -/
def exhaustedSource : Source :=
  { unboundSource with buffer := some exhaustedBuffer }

/-- A backend in which voice 1 plays, with one buffer queued and processed. -/
def alOneProcessed : AL :=
  { voices := fun _ => { voice0 with state := ALstate.AL_PLAYING, queue := [7], processed := 1 },
    log := [] }

/-- The buffer `fromFile` makes of `fileFourBytes`. -/
def fourByteBuffer : Buffer :=
  { id0 := 7, id1 := 8, st_size := 48, offset := 44, chunk_size := 2,
    format := ALformat.AL_FORMAT_MONO16, frequency := 44100, interval := 0 }

/-- An emitter bound to `fourByteBuffer`. -/
def fileSource : Source :=
  { unboundSource with buffer := some fourByteBuffer }

/-- A registry with no emitter, no snapshot, no name and no animation. -/
def emptyDevice : Device :=
  { sources := [], snapshot := [], name2source := [], animator := { l := [] } }

/-- Two emitters without buffers, voices 1 and 2, registered as `a` and `b`. -/
def twoSources : Device :=
  { sources := [unboundSource, { unboundSource with id := 2 }], snapshot := [],
    name2source := [("a", 1), ("b", 2)], animator := { l := [] } }

/-- An 8-bit mono 44100 Hz file with a single sample: 45 bytes. -/
def fileOneByte : List Nat := wavFile 1 44100 44100 8 [] [5]

/-- The buffer `fromFile` makes of `fileOneByte`. -/
def oneByteBuffer : Buffer :=
  { id0 := 7, id1 := 8, st_size := 45, offset := 44, chunk_size := 0,
    format := ALformat.AL_FORMAT_MONO8, frequency := 44100, interval := 0 }

/-- The bytes of a `LIST` chunk with four bytes of payload. -/
def listChunk : List Nat := [76, 73, 83, 84] ++ le32 4 ++ [1, 2, 3, 4]

/-- A 16-bit mono file with a `LIST` chunk between the format chunk and the `data` chunk:
the `data` chunk header is at byte 48 and the four sample bytes are at bytes 56..59. -/
def fileExtraChunk : List Nat := wavFile 1 44100 88200 16 listChunk [9, 9, 9, 9]

/-- A `Libm` whose functions are not called by `FadeGain`. -/
def libm0 : Libm :=
  { sqrt := fun x => x, cos := fun _ => 1, sin := fun _ => 0 }

/-- A fade of emitter 1 from gain 1 to gain 3 over 2 seconds, started at second 10. -/
def fade13 : Animation :=
  { start := { tv_sec := 10, tv_nsec := 0 }, end_ := { tv_sec := 12, tv_nsec := 0 },
    now := { tv_sec := 10, tv_nsec := 0 }, length := 2, source := 1,
    kind := AnimKind.FadeGain 1 3 }

/-- A mono file that declares 24 bits per sample, with two samples. -/
def fileMono24 : List Nat := wavFile 1 44100 132300 24 [] [1, 2, 3, 4, 5, 6]

/-- A file that declares three channels of 16 bits. -/
def fileThreeChannels : List Nat := wavFile 3 44100 264600 16 [] [1, 2, 3, 4, 5, 6]

/-- An 8-bit mono 1000 Hz file with twenty samples: 20 ms of sound. -/
def fileTwentyMs : List Nat := wavFile 1 1000 1000 8 [] (List.replicate 20 128)

/-- A fade of emitter 2 and a scale of emitter 1 around `fade13`. -/
def threeAnimations : Animator :=
  { l := [{ fade13 with source := 2 }, fade13, { fade13 with kind := AnimKind.Scale 1 0 }] }

/-- A fade of emitter 1 from gain 1 down to gain 0 over 1/16 second, started at second
10.9375. -/
def fadeOut : Animation :=
  { start := { tv_sec := 10, tv_nsec := 937500000 },
    end_ := { tv_sec := 10, tv_nsec := 62500000 },
    now := { tv_sec := 10, tv_nsec := 937500000 }, length := Flt.fin false (1 / 16),
    source := 1, kind := AnimKind.FadeGain 1 0 }

/-! ## Progress and position steps of the animations -/

/-- The nanoseconds of a `struct timespec`. -/
def timespec.nanos (t : timespec) : Int :=
  t.tv_sec * 1000000000 + t.tv_nsec

/-- A clock reading as `clock_gettime` delivers it: `0 <= tv_nsec < 1000000000`. -/
def timespec.normal (t : timespec) : Prop :=
  0 ≤ t.tv_nsec ∧ t.tv_nsec < 1000000000

instance (t : timespec) : Decidable t.normal :=
  inferInstanceAs (Decidable (0 ≤ t.tv_nsec ∧ t.tv_nsec < 1000000000))

/-- The field `t0` of `Scale` and `Rotate` (0 for `FadeGain`, which has none). -/
def Animation.t0 (a : Animation) : Flt :=
  match a.kind with
  | AnimKind.FadeGain _ _ => 0
  | AnimKind.Scale _ t0 => t0
  | AnimKind.Rotate _ t0 => t0

/-- Whether the animation is a `Scale` or a `Rotate`. -/
def Animation.integrates (a : Animation) : Bool :=
  match a.kind with
  | AnimKind.FadeGain _ _ => false
  | AnimKind.Scale _ _ => true
  | AnimKind.Rotate _ _ => true

/-- The progress deltas `p() - t0` that `step` multiplies with `speed`, over the ticks with
the clock readings `ts`, each tick being `update` followed by `step`. -/
def Animation.deltas (U : FPU) (M : Libm) : Animation → Source → AL → List timespec → List Flt
  | _, _, _, [] => []
  | a, s, al, t :: ts =>
    let a1 := a.update t
    let r := a1.step U M s al
    U.sub64 (a1.p U) a1.t0 :: Animation.deltas U M r.1 r.2.1 r.2.2 ts

/-- The value `sqrt(v[0]*v[0] + v[1]*v[1] + v[2]*v[2])` of `Scale::step`. -/
def norm3 {K : Type} [Field K] (sqrt : K → K) (v : K × K × K) : K :=
  sqrt (v.1 * v.1 + v.2.1 * v.2.1 + v.2.2 * v.2.2)

/-- The position `Scale::step` writes for the position `v` it read and the radial step
`d = (p() - t0) * speed`. -/
def Scale.position {K : Type} [Field K] (sqrt : K → K) (v : K × K × K) (d : K) : K × K × K :=
  let r := norm3 sqrt v
  let t := (r + d) / r
  (v.1 * t, v.2.1 * t, v.2.2 * t)

/-- The position `Rotate::step` writes for the position `v` it read and the angle
`t = (p() - t0) * speed`. -/
def Rotate.position {K : Type} [Field K] (cos sin : K → K) (v : K × K × K) (t : K) :
    K × K × K :=
  let a := cos t
  let d := a
  let b := sin t
  let c := -b
  (v.1 * a + v.2.2 * b, v.2.1, v.1 * c + v.2.2 * d)

/-- The numbers the three components of an `ALfloat[3]` stand for. -/
def Vec3.values (v : Vec3) : ℚ × ℚ × ℚ :=
  (v.x.value, v.y.value, v.z.value)

/-- A function of `Libm` as a function on the numbers its arguments and results stand
for. -/
def Libm.onValues (f : Flt → Flt) (q : ℚ) : ℚ :=
  (f (Flt.ofValue q)).value

/-- A scale of emitter 1 lasting one second, started at second 10. -/
def scaleOneSecond : Animation :=
  { start := { tv_sec := 10, tv_nsec := 0 }, end_ := { tv_sec := 11, tv_nsec := 0 },
    now := { tv_sec := 10, tv_nsec := 0 }, length := 1, source := 1,
    kind := AnimKind.Scale 1 0 }

/-- A `Libm` whose square root is right at 25 and whose cosine and sine are right at 0. -/
def libm5 : Libm :=
  { sqrt := fun _ => 5, cos := fun _ => 1, sin := fun _ => 0 }

/-- A backend in which every voice is at the position (3, 0, 4). -/
def alAt345 : AL :=
  { voices := fun _ => { voice0 with position := { x := 3, y := 0, z := 4 } }, log := [] }

/-! ## Theorems -/

/-! ### Rounding -/

theorem bitLen_spec :
    ∀ (fuel n : Nat), n ≤ fuel → 0 < n →
      0 < bitLen fuel n ∧ 2 ^ (bitLen fuel n - 1) ≤ n ∧ n < 2 ^ bitLen fuel n
  | 0, n, h, hn => by omega
  | fuel + 1, n, h, hn => by
    have hne : n ≠ 0 := by omega
    simp only [bitLen, if_neg hne]
    by_cases h2 : n / 2 = 0
    · have h1 : n = 1 := by omega
      subst h1
      cases fuel with
      | zero => simp [bitLen]
      | succ f => simp [bitLen]
    · obtain ⟨i1, i2, i3⟩ := bitLen_spec fuel (n / 2) (by omega) (by omega)
      refine ⟨by omega, ?_, ?_⟩
      · have e : bitLen fuel (n / 2) + 1 - 1 = (bitLen fuel (n / 2) - 1) + 1 := by omega
        rw [e, Nat.pow_succ]
        omega
      · rw [Nat.pow_succ]
        omega

theorem two_zpow_pos (k : Int) : (0 : ℚ) < (2 : ℚ) ^ k :=
  zpow_pos (by norm_num) k

theorem two_zpow_mono {a b : Int} (h : a ≤ b) : (2 : ℚ) ^ a ≤ (2 : ℚ) ^ b :=
  zpow_le_zpow_right₀ (by norm_num) h

theorem two_zpow_succ (k : Int) : (2 : ℚ) ^ (k + 1) = (2 : ℚ) ^ k * 2 := by
  rw [zpow_add₀ (by norm_num : (2 : ℚ) ≠ 0), zpow_one]

theorem two_zpow_nat (n : Nat) : (2 : ℚ) ^ (n : Int) = ((2 ^ n : Nat) : ℚ) := by
  rw [zpow_natCast]
  push_cast
  rfl

/-- The exponent `floorLog2` yields is the binade of `x`. -/
theorem floorLog2_spec (x : ℚ) (hx : 0 < x) :
    (2 : ℚ) ^ floorLog2 x ≤ x ∧ x < (2 : ℚ) ^ (floorLog2 x + 1) := by
  have hnum : 0 < x.num := Rat.num_pos.mpr hx
  have hden : 0 < x.den := x.den_pos
  have hna : 0 < x.num.toNat := by omega
  obtain ⟨a1, a2, a3⟩ := bitLen_spec x.num.toNat x.num.toNat (le_refl _) hna
  obtain ⟨b1, b2, b3⟩ := bitLen_spec x.den x.den (le_refl _) hden
  have hx' : x = (x.num.toNat : ℚ) / (x.den : ℚ) := by
    have h1 : ((x.num.toNat : Nat) : Int) = x.num := Int.toNat_of_nonneg (le_of_lt hnum)
    have h2 : ((x.num.toNat : Nat) : ℚ) = (x.num : ℚ) := by
      have h3 := congrArg (fun z : Int => (z : ℚ)) h1
      simp only [Int.cast_natCast] at h3
      exact h3
    rw [h2]
    exact (Rat.num_div_den x).symm
  have hdq : (0 : ℚ) < (x.den : ℚ) := by exact_mod_cast hden
  set la := bitLen x.num.toNat x.num.toNat with hla
  set lb := bitLen x.den x.den with hlb
  have ea : ((la : Int)) = ((la - 1 : Nat) : Int) + 1 := by omega
  have eb : ((lb : Int)) = ((lb - 1 : Nat) : Int) + 1 := by omega
  have A2 : ((2 : ℚ) ^ ((la - 1 : Nat) : Int)) ≤ (x.num.toNat : ℚ) := by
    rw [two_zpow_nat]
    exact_mod_cast a2
  have A3 : (x.num.toNat : ℚ) < (2 : ℚ) ^ (la : Int) := by
    rw [two_zpow_nat]
    exact_mod_cast a3
  have B2 : ((2 : ℚ) ^ ((lb - 1 : Nat) : Int)) ≤ (x.den : ℚ) := by
    rw [two_zpow_nat]
    exact_mod_cast b2
  have B3 : (x.den : ℚ) < (2 : ℚ) ^ (lb : Int) := by
    rw [two_zpow_nat]
    exact_mod_cast b3
  -- upper bound: x < 2 ^ (la - lb + 1)
  have hup : x < (2 : ℚ) ^ ((la : Int) - (lb : Int) + 1) := by
    rw [hx', div_lt_iff₀ hdq]
    have e : (2 : ℚ) ^ ((la : Int) - (lb : Int) + 1) * (2 : ℚ) ^ ((lb - 1 : Nat) : Int)
        = (2 : ℚ) ^ (la : Int) := by
      rw [← zpow_add₀ (by norm_num : (2 : ℚ) ≠ 0)]
      congr 1
      omega
    calc (x.num.toNat : ℚ) < (2 : ℚ) ^ (la : Int) := A3
      _ = (2 : ℚ) ^ ((la : Int) - (lb : Int) + 1) * (2 : ℚ) ^ ((lb - 1 : Nat) : Int) := e.symm
      _ ≤ (2 : ℚ) ^ ((la : Int) - (lb : Int) + 1) * (x.den : ℚ) :=
        mul_le_mul_of_nonneg_left B2 (le_of_lt (two_zpow_pos _))
  -- lower bound: 2 ^ (la - lb - 1) ≤ x
  have hlo : (2 : ℚ) ^ ((la : Int) - (lb : Int) - 1) ≤ x := by
    rw [hx', le_div_iff₀ hdq]
    have e : (2 : ℚ) ^ ((la : Int) - (lb : Int) - 1) * (2 : ℚ) ^ (lb : Int)
        = (2 : ℚ) ^ ((la - 1 : Nat) : Int) := by
      rw [← zpow_add₀ (by norm_num : (2 : ℚ) ≠ 0)]
      congr 1
      omega
    calc (2 : ℚ) ^ ((la : Int) - (lb : Int) - 1) * (x.den : ℚ)
        ≤ (2 : ℚ) ^ ((la : Int) - (lb : Int) - 1) * (2 : ℚ) ^ (lb : Int) :=
          mul_le_mul_of_nonneg_left (le_of_lt B3) (le_of_lt (two_zpow_pos _))
      _ = (2 : ℚ) ^ ((la - 1 : Nat) : Int) := e
      _ ≤ (x.num.toNat : ℚ) := A2
  simp only [floorLog2]
  rw [← hla, ← hlb]
  split
  · rename_i h
    exact ⟨h, hup⟩
  · rename_i h
    refine ⟨hlo, ?_⟩
    rw [sub_add_cancel]
    exact lt_of_not_le h

/-- The shape of a rounded magnitude: the integer significand is the floor of the scaled
magnitude or one more, and it is the scaled magnitude itself when that is an integer. -/
theorem roundMag_form (f : Fmt) (neg : Bool) (x : ℚ) (hx : 0 < x) :
    ∃ m : Int,
      ⌊x / (2 : ℚ) ^ (max (floorLog2 x - ((f.prec : Int) - 1)) f.emin)⌋ ≤ m ∧
      m ≤ ⌊x / (2 : ℚ) ^ (max (floorLog2 x - ((f.prec : Int) - 1)) f.emin)⌋ + 1 ∧
      (x / (2 : ℚ) ^ (max (floorLog2 x - ((f.prec : Int) - 1)) f.emin)
          = (⌊x / (2 : ℚ) ^ (max (floorLog2 x - ((f.prec : Int) - 1)) f.emin)⌋ : ℚ) →
        m = ⌊x / (2 : ℚ) ^ (max (floorLog2 x - ((f.prec : Int) - 1)) f.emin)⌋) ∧
      roundMag f neg x
        = if (2 : ℚ) ^ (f.emax + 1)
              ≤ m * (2 : ℚ) ^ (max (floorLog2 x - ((f.prec : Int) - 1)) f.emin)
          then Flt.inf neg
          else Flt.fin neg (m * (2 : ℚ) ^ (max (floorLog2 x - ((f.prec : Int) - 1)) f.emin)) := by
  have hnx : ¬ x ≤ 0 := not_le.mpr hx
  simp only [roundMag, if_neg hnx]
  generalize x / (2 : ℚ) ^ (max (floorLog2 x - ((f.prec : Int) - 1)) f.emin) = y
  refine ⟨_, ?_, ?_, ?_, rfl⟩
  · split_ifs <;> omega
  · split_ifs <;> omega
  · intro hy
    have h0 : y - (⌊y⌋ : ℚ) < 1 / 2 := by
      rw [← hy]
      norm_num
    rw [if_pos h0]

/-- A rounded magnitude is an infinity or a finite value of magnitude at least 0, with the
sign asked for. -/
theorem roundMag_sign (f : Fmt) (neg : Bool) (x : ℚ) :
    roundMag f neg x = Flt.inf neg ∨ ∃ y : ℚ, 0 ≤ y ∧ roundMag f neg x = Flt.fin neg y := by
  by_cases hx : x ≤ 0
  · exact Or.inr ⟨0, le_refl _, by simp [roundMag, hx]⟩
  · obtain ⟨m, h1, -, -, h4⟩ := roundMag_form f neg x (not_le.mp hx)
    rw [h4]
    split
    · exact Or.inl rfl
    · refine Or.inr ⟨_, ?_, rfl⟩
      have hy : (0 : ℚ) ≤ x / (2 : ℚ) ^ (max (floorLog2 x - ((f.prec : Int) - 1)) f.emin) :=
        div_nonneg (le_of_lt (not_le.mp hx)) (le_of_lt (two_zpow_pos _))
      have hf : (0 : Int) ≤ ⌊x / (2 : ℚ) ^ (max (floorLog2 x - ((f.prec : Int) - 1)) f.emin)⌋ :=
        Int.floor_nonneg.mpr hy
      have hm : (0 : ℚ) ≤ (m : ℚ) := by exact_mod_cast le_trans hf h1
      exact mul_nonneg hm (le_of_lt (two_zpow_pos _))

/-- In `binary64` a magnitude of at least 1 rounds to an infinity or to a magnitude of at
least 1. -/
theorem roundMag_ge_one (neg : Bool) (x : ℚ) (hx : 1 ≤ x) :
    roundMag binary64 neg x = Flt.inf neg ∨
    ∃ y : ℚ, 1 ≤ y ∧ roundMag binary64 neg x = Flt.fin neg y := by
  have hpos : 0 < x := lt_of_lt_of_le one_pos hx
  obtain ⟨k1, k2⟩ := floorLog2_spec x hpos
  have hk : 0 ≤ floorLog2 x := by
    by_contra hneg
    have : (2 : ℚ) ^ (floorLog2 x + 1) ≤ (2 : ℚ) ^ (0 : Int) := two_zpow_mono (by omega)
    rw [zpow_zero] at this
    linarith
  obtain ⟨m, h1, -, -, h4⟩ := roundMag_form binary64 neg x hpos
  have he : max (floorLog2 x - (((binary64.prec : Nat) : Int) - 1)) binary64.emin
      = floorLog2 x - 52 := by
    simp only [binary64]
    omega
  rw [he] at h1 h4
  rw [h4]
  split
  · exact Or.inl rfl
  · refine Or.inr ⟨_, ?_, rfl⟩
    have hy : (2 : ℚ) ^ (52 : Int) ≤ x / (2 : ℚ) ^ (floorLog2 x - 52) := by
      rw [le_div_iff₀ (two_zpow_pos _), ← zpow_add₀ (by norm_num : (2 : ℚ) ≠ 0)]
      rw [show (52 : Int) + (floorLog2 x - 52) = floorLog2 x by omega]
      exact k1
    have hfl : ((2 ^ 52 : Nat) : Int) ≤ ⌊x / (2 : ℚ) ^ (floorLog2 x - 52)⌋ := by
      apply Int.le_floor.mpr
      have : (2 : ℚ) ^ (52 : Int) = (((2 ^ 52 : Nat) : Int) : ℚ) := by norm_num
      rw [← this]
      exact hy
    have hm : (2 : ℚ) ^ (52 : Int) ≤ (m : ℚ) := by
      have : (2 : ℚ) ^ (52 : Int) = (((2 ^ 52 : Nat) : Int) : ℚ) := by norm_num
      rw [this]
      exact_mod_cast le_trans hfl h1
    calc (1 : ℚ) = (2 : ℚ) ^ (0 : Int) := (zpow_zero _).symm
      _ ≤ (2 : ℚ) ^ floorLog2 x := two_zpow_mono hk
      _ = (2 : ℚ) ^ (52 : Int) * (2 : ℚ) ^ (floorLog2 x - 52) := by
        rw [← zpow_add₀ (by norm_num : (2 : ℚ) ≠ 0)]
        congr 1
        omega
      _ ≤ (m : ℚ) * (2 : ℚ) ^ (floorLog2 x - 52) :=
        mul_le_mul_of_nonneg_right hm (le_of_lt (two_zpow_pos _))

/-- In `binary64` a magnitude below 1 in the normal range rounds to a magnitude of at most
1. -/
theorem roundMag_le_one (neg : Bool) (x : ℚ) (hlo : (2 : ℚ) ^ (-1022 : Int) ≤ x) (hx : x < 1) :
    ∃ y : ℚ, 0 ≤ y ∧ y ≤ 1 ∧ roundMag binary64 neg x = Flt.fin neg y := by
  have hpos : 0 < x := lt_of_lt_of_le (two_zpow_pos _) hlo
  obtain ⟨k1, k2⟩ := floorLog2_spec x hpos
  have hk : floorLog2 x ≤ -1 := by
    by_contra hneg
    have : (2 : ℚ) ^ (0 : Int) ≤ (2 : ℚ) ^ floorLog2 x := two_zpow_mono (by omega)
    rw [zpow_zero] at this
    linarith
  have hk2 : -1022 ≤ floorLog2 x := by
    by_contra hneg
    have : (2 : ℚ) ^ (floorLog2 x + 1) ≤ (2 : ℚ) ^ (-1022 : Int) := two_zpow_mono (by omega)
    linarith
  obtain ⟨m, h1, h2, -, h4⟩ := roundMag_form binary64 neg x hpos
  have he : max (floorLog2 x - (((binary64.prec : Nat) : Int) - 1)) binary64.emin
      = floorLog2 x - 52 := by
    simp only [binary64]
    omega
  rw [he] at h1 h2 h4
  have hy : x / (2 : ℚ) ^ (floorLog2 x - 52) < (2 : ℚ) ^ (53 : Int) := by
    rw [div_lt_iff₀ (two_zpow_pos _), ← zpow_add₀ (by norm_num : (2 : ℚ) ≠ 0)]
    rw [show (53 : Int) + (floorLog2 x - 52) = floorLog2 x + 1 by omega]
    exact k2
  have hfl : ⌊x / (2 : ℚ) ^ (floorLog2 x - 52)⌋ < ((2 ^ 53 : Nat) : Int) := by
    apply Int.floor_lt.mpr
    have : (2 : ℚ) ^ (53 : Int) = (((2 ^ 53 : Nat) : Int) : ℚ) := by norm_num
    rw [← this]
    exact hy
  have hm : (m : ℚ) ≤ (2 : ℚ) ^ (53 : Int) := by
    have : (2 : ℚ) ^ (53 : Int) = (((2 ^ 53 : Nat) : Int) : ℚ) := by norm_num
    rw [this]
    have hmi : m ≤ ((2 ^ 53 : Nat) : Int) := by omega
    exact_mod_cast hmi
  have hval : (m : ℚ) * (2 : ℚ) ^ (floorLog2 x - 52) ≤ 1 := by
    calc (m : ℚ) * (2 : ℚ) ^ (floorLog2 x - 52)
        ≤ (2 : ℚ) ^ (53 : Int) * (2 : ℚ) ^ (floorLog2 x - 52) :=
          mul_le_mul_of_nonneg_right hm (le_of_lt (two_zpow_pos _))
      _ = (2 : ℚ) ^ (floorLog2 x + 1) := by
        rw [← zpow_add₀ (by norm_num : (2 : ℚ) ≠ 0)]
        congr 1
        omega
      _ ≤ (2 : ℚ) ^ (0 : Int) := two_zpow_mono (by omega)
      _ = 1 := zpow_zero _
  have hnot : ¬ (2 : ℚ) ^ (binary64.emax + 1) ≤ (m : ℚ) * (2 : ℚ) ^ (floorLog2 x - 52) := by
    have h1024 : (1 : ℚ) < (2 : ℚ) ^ (binary64.emax + 1) := by
      have : (2 : ℚ) ^ (1 : Int) ≤ (2 : ℚ) ^ (binary64.emax + 1) :=
        two_zpow_mono (by simp only [binary64]; omega)
      rw [zpow_one] at this
      linarith
    intro h
    linarith
  rw [h4, if_neg hnot]
  refine ⟨_, ?_, hval, rfl⟩
  have hyn : (0 : ℚ) ≤ x / (2 : ℚ) ^ (floorLog2 x - 52) :=
    div_nonneg (le_of_lt hpos) (le_of_lt (two_zpow_pos _))
  have hf : (0 : Int) ≤ ⌊x / (2 : ℚ) ^ (floorLog2 x - 52)⌋ := Int.floor_nonneg.mpr hyn
  have hm0 : (0 : ℚ) ≤ (m : ℚ) := by exact_mod_cast le_trans hf h1
  exact mul_nonneg hm0 (le_of_lt (two_zpow_pos _))

/-- In `binary64` a natural number below `2 ^ 53` is represented exactly. -/
theorem roundMag_nat (neg : Bool) (n : Nat) (hn : n < 2 ^ 53) :
    roundMag binary64 neg (n : ℚ) = Flt.fin neg (n : ℚ) := by
  by_cases h0 : n = 0
  · subst h0
    simp [roundMag]
  have hpos : (0 : ℚ) < (n : ℚ) := by exact_mod_cast Nat.pos_of_ne_zero h0
  obtain ⟨k1, k2⟩ := floorLog2_spec (n : ℚ) hpos
  have hk : 0 ≤ floorLog2 (n : ℚ) := by
    by_contra hneg
    have h1 : (2 : ℚ) ^ (floorLog2 (n : ℚ) + 1) ≤ (2 : ℚ) ^ (0 : Int) := two_zpow_mono (by omega)
    rw [zpow_zero] at h1
    have h2 : (1 : ℚ) ≤ (n : ℚ) := by exact_mod_cast Nat.pos_of_ne_zero h0
    linarith
  have hk2 : floorLog2 (n : ℚ) ≤ 52 := by
    by_contra hneg
    have h1 : (2 : ℚ) ^ (53 : Int) ≤ (2 : ℚ) ^ floorLog2 (n : ℚ) := two_zpow_mono (by omega)
    have h2 : (n : ℚ) < (2 : ℚ) ^ (53 : Int) := by
      have : (2 : ℚ) ^ (53 : Int) = ((2 ^ 53 : Nat) : ℚ) := by norm_num
      rw [this]
      exact_mod_cast hn
    linarith
  obtain ⟨m, -, -, h3, h4⟩ := roundMag_form binary64 neg (n : ℚ) hpos
  have he : max (floorLog2 (n : ℚ) - (((binary64.prec : Nat) : Int) - 1)) binary64.emin
      = floorLog2 (n : ℚ) - 52 := by
    simp only [binary64]
    omega
  rw [he] at h3 h4
  -- the scaled magnitude is the integer n * 2 ^ (52 - k)
  obtain ⟨j, hj⟩ : ∃ j : Nat, (52 : Int) - floorLog2 (n : ℚ) = (j : Int) :=
    ⟨(52 - floorLog2 (n : ℚ)).toNat, by omega⟩
  have hscaled : (n : ℚ) / (2 : ℚ) ^ (floorLog2 (n : ℚ) - 52) = ((n * 2 ^ j : Nat) : ℚ) := by
    rw [div_eq_iff (ne_of_gt (two_zpow_pos _))]
    have e2 : (2 : ℚ) ^ (floorLog2 (n : ℚ) - 52) = ((2 : ℚ) ^ (j : Int))⁻¹ := by
      rw [← zpow_neg]
      congr 1
      omega
    rw [e2, zpow_natCast]
    push_cast
    field_simp
  have hfloor : ⌊(n : ℚ) / (2 : ℚ) ^ (floorLog2 (n : ℚ) - 52)⌋ = ((n * 2 ^ j : Nat) : Int) := by
    rw [hscaled]
    exact_mod_cast Int.floor_natCast (n * 2 ^ j)
  have hm : m = ((n * 2 ^ j : Nat) : Int) := by
    rw [← hfloor]
    apply h3
    rw [hfloor, hscaled]
    norm_cast
  have hval : (m : ℚ) * (2 : ℚ) ^ (floorLog2 (n : ℚ) - 52) = (n : ℚ) := by
    rw [hm]
    have : (((n * 2 ^ j : Nat) : Int) : ℚ) = ((n * 2 ^ j : Nat) : ℚ) := by norm_cast
    rw [this, ← hscaled]
    exact div_mul_cancel₀ _ (ne_of_gt (two_zpow_pos _))
  have hnot : ¬ (2 : ℚ) ^ (binary64.emax + 1) ≤ (m : ℚ) * (2 : ℚ) ^ (floorLog2 (n : ℚ) - 52) := by
    rw [hval]
    have h1 : (2 : ℚ) ^ (53 : Int) ≤ (2 : ℚ) ^ (binary64.emax + 1) :=
      two_zpow_mono (by simp only [binary64]; omega)
    have h2 : (n : ℚ) < (2 : ℚ) ^ (53 : Int) := by
      have : (2 : ℚ) ^ (53 : Int) = ((2 ^ 53 : Nat) : ℚ) := by norm_num
      rw [this]
      exact_mod_cast hn
    intro h
    linarith
  rw [h4, if_neg hnot, hval]

theorem ofLong_small (z : Int) (hz : z.natAbs < 2 ^ 53) :
    FPU.ieee.ofLong z = Flt.fin (decide ((z : ℚ) < 0)) |(z : ℚ)| := by
  have h : |(z : ℚ)| = ((z.natAbs : Nat) : ℚ) := by
    rw [Nat.cast_natAbs, Int.cast_abs]
  show roundMag binary64 (decide ((z : ℚ) < 0)) |(z : ℚ)| = _
  rw [h]
  exact roundMag_nat _ _ hz

theorem ofLong_nonneg (z : Int) (hz : 0 ≤ z) :
    FPU.ieee.ofLong z = Flt.inf false ∨
    ∃ y : ℚ, 0 ≤ y ∧ FPU.ieee.ofLong z = Flt.fin false y := by
  have hq : ¬ (z : ℚ) < 0 := not_lt.mpr (by exact_mod_cast hz)
  have h := roundMag_sign binary64 false |(z : ℚ)|
  show roundMag binary64 (decide ((z : ℚ) < 0)) |(z : ℚ)| = _ ∨
    ∃ y : ℚ, 0 ≤ y ∧ roundMag binary64 (decide ((z : ℚ) < 0)) |(z : ℚ)| = _
  rw [decide_eq_false hq]
  exact h

theorem ofLong_ge_one (z : Int) (hz : 1 ≤ z) :
    FPU.ieee.ofLong z = Flt.inf false ∨
    ∃ y : ℚ, 1 ≤ y ∧ FPU.ieee.ofLong z = Flt.fin false y := by
  have h1 : (1 : ℚ) ≤ (z : ℚ) := by exact_mod_cast hz
  have hq : ¬ (z : ℚ) < 0 := not_lt.mpr (by linarith)
  have habs : |(z : ℚ)| = (z : ℚ) := abs_of_nonneg (by linarith)
  have h := roundMag_ge_one false (z : ℚ) h1
  show roundMag binary64 (decide ((z : ℚ) < 0)) |(z : ℚ)| = _ ∨
    ∃ y : ℚ, 1 ≤ y ∧ roundMag binary64 (decide ((z : ℚ) < 0)) |(z : ℚ)| = _
  rw [decide_eq_false hq, habs]
  exact h

/-- The `double` nearest to `1E-9`. -/
theorem nano_ieee :
    FPU.ieee.nano = Flt.fin false (4835703278458517 / 4835703278458516698824704) := by
  decide!

/-- A sum in `binary64` of a first term that is +infinity or finite with a clear sign bit and a
second term that is +infinity or finite, the exact sum being at least 0, is +infinity or
finite with a clear sign bit and a magnitude of at least 0. -/
theorem add_shape (x y : Flt)
    (hx : x = Flt.inf false ∨ ∃ a : ℚ, x = Flt.fin false a)
    (hy : y = Flt.inf false ∨ ∃ (b : Bool) (z : ℚ), y = Flt.fin b z)
    (hs : 0 ≤ x.value + y.value) :
    Flt.add binary64 x y = Flt.inf false ∨
    ∃ r : ℚ, 0 ≤ r ∧ Flt.add binary64 x y = Flt.fin false r := by
  rcases hx with rfl | ⟨a, rfl⟩
  · rcases hy with rfl | ⟨b, z, rfl⟩
    · exact Or.inl (by simp [Flt.add])
    · exact Or.inl (by simp [Flt.add])
  · rcases hy with rfl | ⟨b, z, rfl⟩
    · exact Or.inl (by simp [Flt.add])
    · simp only [Flt.add]
      split
      · exact Or.inr ⟨0, le_refl _, by simp⟩
      · have hn : ¬ (Flt.fin false a).value + (Flt.fin b z).value < 0 := not_lt.mpr hs
        rw [decide_eq_false hn]
        exact roundMag_sign binary64 false _

theorem div_shape (x : Flt) (D : ℚ) (hD : 0 < D)
    (hx : x = Flt.inf false ∨ ∃ a : ℚ, 0 ≤ a ∧ x = Flt.fin false a) :
    Flt.div binary64 x (Flt.fin false D) = Flt.inf false ∨
    ∃ r : ℚ, 0 ≤ r ∧ Flt.div binary64 x (Flt.fin false D) = Flt.fin false r := by
  rcases hx with rfl | ⟨a, -, rfl⟩
  · exact Or.inl (by simp [Flt.div])
  · simp only [Flt.div, if_neg (ne_of_gt hD)]
    exact roundMag_sign binary64 _ _

theorem ge_zero_of_shape (x : Flt)
    (hx : x = Flt.inf false ∨ ∃ a : ℚ, 0 ≤ a ∧ x = Flt.fin false a) :
    Flt.ge x 0 = true := by
  rcases hx with rfl | ⟨a, ha, rfl⟩
  · rfl
  · show decide ((Flt.fin false ((0 : Nat) : ℚ)).value ≤ (Flt.fin false a).value) = true
    simp [Flt.value, ha]

/-- In IEEE arithmetic the numerator of `p()` is +infinity or at least 0 when the clock
readings are normal and `now` is not before `start`. -/
theorem elapsed_shape_ieee (a : Animation) (hs : a.start.normal) (hn : a.now.normal)
    (h : a.start.nanos ≤ a.now.nanos) :
    a.elapsed FPU.ieee = Flt.inf false ∨
    ∃ r : ℚ, 0 ≤ r ∧ a.elapsed FPU.ieee = Flt.fin false r := by
  obtain ⟨hs1, hs2⟩ := hs
  obtain ⟨hn1, hn2⟩ := hn
  simp only [timespec.nanos] at h
  have hdn : (a.now.tv_nsec - a.start.tv_nsec).natAbs < 2 ^ 53 := by omega
  have hsmall := ofLong_small (a.now.tv_nsec - a.start.tv_nsec) hdn
  have hc0 : (0 : ℚ) < 4835703278458517 / 4835703278458516698824704 := by norm_num
  show Flt.add binary64 (FPU.ieee.ofLong (a.now.tv_sec - a.start.tv_sec))
      (Flt.mul binary64 (FPU.ieee.ofLong (a.now.tv_nsec - a.start.tv_nsec)) FPU.ieee.nano)
      = Flt.inf false ∨ ∃ r : ℚ, 0 ≤ r ∧
    Flt.add binary64 (FPU.ieee.ofLong (a.now.tv_sec - a.start.tv_sec))
      (Flt.mul binary64 (FPU.ieee.ofLong (a.now.tv_nsec - a.start.tv_nsec)) FPU.ieee.nano)
      = Flt.fin false r
  rw [hsmall, nano_ieee]
  by_cases hneg : a.now.tv_nsec - a.start.tv_nsec < 0
  · -- the nanoseconds went down: at least one whole second has passed
    have hds : 1 ≤ a.now.tv_sec - a.start.tv_sec := by omega
    have hq : ((a.now.tv_nsec - a.start.tv_nsec : Int) : ℚ) < 0 := by exact_mod_cast hneg
    rw [decide_eq_true hq]
    have habs1 : (1 : ℚ) ≤ |((a.now.tv_nsec - a.start.tv_nsec : Int) : ℚ)| := by
      rw [abs_of_neg hq]
      have : a.now.tv_nsec - a.start.tv_nsec ≤ -1 := by omega
      have h2 : ((a.now.tv_nsec - a.start.tv_nsec : Int) : ℚ) ≤ ((-1 : Int) : ℚ) := by
        exact_mod_cast this
      push_cast at h2 ⊢
      linarith
    have habs2 : |((a.now.tv_nsec - a.start.tv_nsec : Int) : ℚ)| ≤ 999999999 := by
      rw [abs_of_neg hq]
      have : -999999999 ≤ a.now.tv_nsec - a.start.tv_nsec := by omega
      have h2 : ((-999999999 : Int) : ℚ) ≤ ((a.now.tv_nsec - a.start.tv_nsec : Int) : ℚ) := by
        exact_mod_cast this
      push_cast at h2 ⊢
      linarith
    have hlo : (2 : ℚ) ^ (-1022 : Int)
        ≤ |((a.now.tv_nsec - a.start.tv_nsec : Int) : ℚ)|
          * (4835703278458517 / 4835703278458516698824704) := by
      have h1 : (2 : ℚ) ^ (-1022 : Int) ≤ (2 : ℚ) ^ (-30 : Int) := two_zpow_mono (by omega)
      have h2 : (2 : ℚ) ^ (-30 : Int) ≤ 4835703278458517 / 4835703278458516698824704 := by
        norm_num
      nlinarith
    have hhi : |((a.now.tv_nsec - a.start.tv_nsec : Int) : ℚ)|
          * (4835703278458517 / 4835703278458516698824704) < 1 := by
      have h3 : (999999999 : ℚ) * (4835703278458517 / 4835703278458516698824704) < 1 := by
        norm_num
      nlinarith
    obtain ⟨z, hz0, hz1, hz⟩ := roundMag_le_one true _ hlo hhi
    have hmul : Flt.mul binary64 (Flt.fin true |((a.now.tv_nsec - a.start.tv_nsec : Int) : ℚ)|)
        (Flt.fin false (4835703278458517 / 4835703278458516698824704)) = Flt.fin true z := by
      simp only [Flt.mul]
      exact hz
    rw [hmul]
    rcases ofLong_ge_one _ hds with e | ⟨y, hy, e⟩
    · rw [e]
      exact Or.inl rfl
    · rw [e]
      apply add_shape _ _ (Or.inr ⟨y, rfl⟩) (Or.inr ⟨true, z, rfl⟩)
      simp only [Flt.value]
      simp
      linarith
  · have hds : 0 ≤ a.now.tv_sec - a.start.tv_sec := by omega
    have hq : ¬ ((a.now.tv_nsec - a.start.tv_nsec : Int) : ℚ) < 0 := by
      have : (0 : Int) ≤ a.now.tv_nsec - a.start.tv_nsec := by omega
      have h2 : ((0 : Int) : ℚ) ≤ ((a.now.tv_nsec - a.start.tv_nsec : Int) : ℚ) := by
        exact_mod_cast this
      push_cast at h2 ⊢
      linarith
    rw [decide_eq_false hq]
    have hmul := roundMag_sign binary64 false
      (|((a.now.tv_nsec - a.start.tv_nsec : Int) : ℚ)|
        * (4835703278458517 / 4835703278458516698824704))
    have hmul2 : Flt.mul binary64
        (Flt.fin false |((a.now.tv_nsec - a.start.tv_nsec : Int) : ℚ)|)
        (Flt.fin false (4835703278458517 / 4835703278458516698824704))
        = roundMag binary64 false (|((a.now.tv_nsec - a.start.tv_nsec : Int) : ℚ)|
          * (4835703278458517 / 4835703278458516698824704)) := by
      simp [Flt.mul]
    rw [hmul2]
    rcases ofLong_nonneg _ hds with e | ⟨y, hy, e⟩
    · rw [e]
      rcases hmul with e2 | ⟨z, hz, e2⟩
      · rw [e2]
        exact Or.inl (by simp [Flt.add])
      · rw [e2]
        exact Or.inl (by simp [Flt.add])
    · rw [e]
      rcases hmul with e2 | ⟨z, hz, e2⟩
      · rw [e2]
        exact Or.inl (by simp [Flt.add])
      · rw [e2]
        apply add_shape _ _ (Or.inr ⟨y, rfl⟩) (Or.inr ⟨false, z, rfl⟩)
        simp only [Flt.value]
        simp
        linarith

/-- In IEEE arithmetic `p() >= 0` for a finite duration above 0, normal clock readings and
`now` not before `start`. -/
theorem p_nonneg_ieee (a : Animation) (D : ℚ) (hl : a.length = Flt.fin false D) (hD : 0 < D)
    (hs : a.start.normal) (hn : a.now.normal) (h : a.start.nanos ≤ a.now.nanos) :
    Flt.ge (a.p FPU.ieee) 0 = true := by
  apply ge_zero_of_shape
  show Flt.div binary64 (a.elapsed FPU.ieee) a.length = Flt.inf false ∨
    ∃ r : ℚ, 0 ≤ r ∧ Flt.div binary64 (a.elapsed FPU.ieee) a.length = Flt.fin false r
  rw [hl]
  exact div_shape _ D hD (elapsed_shape_ieee a hs hn h)


theorem or_shift_lt (c k : Nat) (hc : c < 2 ^ 32) : c ||| (c >>> k) < 2 ^ 32 := by
  apply Nat.or_lt_two_pow hc
  rw [Nat.shiftRight_eq_div_pow]
  exact lt_of_le_of_lt (Nat.div_le_self _ _) hc

theorem smear_le (x : Nat) (hx : x < 2 ^ 32) : smear x ≤ 2 ^ 32 := by
  have h1 := or_shift_lt x 1 hx
  have h2 := or_shift_lt _ 2 h1
  have h3 := or_shift_lt _ 4 h2
  have h4 := or_shift_lt _ 8 h3
  have h5 := or_shift_lt _ 16 h4
  have h6 := or_shift_lt _ 32 h5
  simp only [smear, SIZE_MOD]
  omega

theorem chunkParams_clamped (bps st_size c i : Nat)
    (h : chunkParams bps st_size = Except.ok (c, i)) : 2 * c ≤ st_size - HEADER_SIZE := by
  have hx : bps / 1000 * BUFFER_INTERVAL % UINT_MOD < 2 ^ 32 := by
    simp only [UINT_MOD]; omega
  have hs := smear_le _ hx
  simp only [chunkParams] at h
  split at h
  · split at h
    · cases h
    · injection h with h
      injection h with h1 h2
      subst h1
      omega
  · rename_i hlt
    injection h with h
    injection h with h1 h2
    subst h1
    simp only [SIZE_MOD] at hlt
    omega

theorem readU32_lt (f : List Nat) (p v : Nat) (h : readU32 f p = some v) : v < 2 ^ 32 := by
  simp only [readU32, readByte] at h
  split at h
  · rename_i a b c d ha hb hc hd
    injection h with h
    simp only [Option.map_eq_some'] at ha hb hc hd
    obtain ⟨a', -, rfl⟩ := ha
    obtain ⟨b', -, rfl⟩ := hb
    obtain ⟨c', -, rfl⟩ := hc
    obtain ⟨d', -, rfl⟩ := hd
    omega
  · cases h

theorem readHeader_bps_lt (f : List Nat) (h : Header) (hh : readHeader f = Except.ok h) :
    h.bytes_per_second < 2 ^ 32 := by
  simp only [readHeader] at hh
  split at hh
  · rename_i riff length wave fmt len channels rate bps bits _ _ _ _ _ _ _ hbps _
    split at hh
    · cases hh
    · split at hh
      · cases hh
      · injection hh with hh
        subst hh
        exact readU32_lt f 28 bps hbps
  · cases hh

/-- What an accepted file determines: the buffer `fromFile` returns is built from the header
read from the file and the chunk parameters computed from it. -/
theorem fromFile_ok (f : List Nat) (id0 id1 : ALuint) (b : Buffer)
    (h : Buffer.fromFile f id0 id1 = Except.ok b) :
    ∃ hd, readHeader f = Except.ok hd ∧ HEADER_SIZE ≤ f.length ∧
      (hd.length + 8) % UINT_MOD = f.length ∧
      chunkParams hd.bytes_per_second f.length = Except.ok (b.chunk_size, b.interval) ∧
      b.st_size = f.length ∧ b.offset = HEADER_SIZE := by
  simp only [Buffer.fromFile] at h
  split at h
  · cases h
  · rename_i hsz
    split at h
    · cases h
    · rename_i hd hhd
      split at h
      · cases h
      · split at h
        · cases h
        · rename_i hlen
          split at h
          · cases h
          · split at h
            · cases h
            · split at h
              · cases h
              · split at h
                · cases h
                · rename_i c i hcp
                  injection h with h
                  subst h
                  refine ⟨hd, hhd, by omega, ?_, hcp, rfl, rfl⟩
                  simpa using hlen

/-- C2: for every file `Buffer::fromFile` accepts, two chunks fit into the bytes after the
header, `2 * chunk_size <= st_size - HEADER_SIZE`; and for `bytes_per_second = 88200`,
`st_size = 88200 + HEADER_SIZE` the chunk before the clamp is 131072, the clamped chunk is 44100
and the interval is 250. -/
theorem C2_two_chunks_fit (f : List Nat) (id0 id1 : ALuint) (b : Buffer)
    (h : Buffer.fromFile f id0 id1 = Except.ok b) :
    HEADER_SIZE ≤ b.st_size ∧ 2 * b.chunk_size ≤ b.st_size - HEADER_SIZE ∧
    smear (88200 / 1000 * BUFFER_INTERVAL % UINT_MOD) = 131072 ∧
    chunkParams 88200 (88200 + HEADER_SIZE) = Except.ok (44100, 250) := by
  obtain ⟨hd, hhd, hsz, -, hcp, hst, -⟩ := fromFile_ok f id0 id1 b h
  refine ⟨by rw [hst]; exact hsz, ?_, by decide, rfl⟩
  rw [hst]
  exact chunkParams_clamped _ _ _ _ hcp

theorem C2_two_chunks_fit_witness :
    Buffer.fromFile fileFourBytes 7 8 = Except.ok
      { id0 := 7, id1 := 8, st_size := 48, offset := 44, chunk_size := 2,
        format := ALformat.AL_FORMAT_MONO16, frequency := 44100, interval := 0 } ∧
    (HEADER_SIZE ≤ 48 ∧ 2 * 2 ≤ 48 - HEADER_SIZE ∧
      smear (88200 / 1000 * BUFFER_INTERVAL % UINT_MOD) = 131072 ∧
      chunkParams 88200 (88200 + HEADER_SIZE) = Except.ok (44100, 250)) :=
  ⟨rfl, C2_two_chunks_fit fileFourBytes 7 8 _ rfl⟩

/-! ### The backend state under the calls -/

@[simp] theorem AL.call_voices (al : AL) (c : ALCall) : (al.call c).voices = al.voices := rfl

@[simp] theorem AL.call_log (al : AL) (c : ALCall) : (al.call c).log = al.log ++ [c] := rfl

@[simp] theorem AL.setVoice_log (al : AL) (id : ALuint) (f : Voice → Voice) :
    (al.setVoice id f).log = al.log := rfl

@[simp] theorem AL.setVoice_same (al : AL) (id : ALuint) (f : Voice → Voice) :
    (al.setVoice id f).voices id = f (al.voices id) := by
  simp [AL.setVoice]

theorem AL.setVoice_other (al : AL) (id j : ALuint) (f : Voice → Voice) (h : j ≠ id) :
    (al.setVoice id f).voices j = al.voices j := by
  simp [AL.setVoice, h]

@[simp] theorem checkError_voices (al : AL) : (checkError al).voices = al.voices := rfl

/-- The loop of `Stop` empties a queue all of whose entries are processed. -/
theorem unqueue_all_drains (id : ALuint) :
    ∀ (n : Nat) (al : AL), (al.voices id).processed = n → (al.voices id).queue.length = n →
      ((Source.unqueue_all id n al).voices id).queue = []
  | 0, al, _, hq => by
    simpa [Source.unqueue_all] using hq
  | n + 1, al, hp, hq => by
    simp only [Source.unqueue_all]
    apply unqueue_all_drains id n
    · cases hl : (al.voices id).queue with
      | nil => rw [hl] at hq; cases hq
      | cons b rest =>
        simp [Source.unqueue_buffer, alSourceUnqueueBuffers, hl, hp]
    · cases hl : (al.voices id).queue with
      | nil => rw [hl] at hq; cases hq
      | cons b rest =>
        rw [hl] at hq
        simp [Source.unqueue_buffer, alSourceUnqueueBuffers, hl, hp]
        simpa using hq

/-- What `Source::Stop` leaves behind for an emitter with a bound buffer. -/
theorem Stop_spec (s : Source) (al : AL) (b : Buffer) (hb : s.buffer = some b) :
    ((s.Stop al).2.voices s.id).queue = [] ∧ (s.Stop al).1.buffer = some b.reset ∧
    (s.Stop al).1.timer_set = false ∧ (s.Stop al).1.paused = false ∧
    (s.Stop al).1.id = s.id := by
  obtain ⟨ss, buf, lp, pa, ts⟩ := s
  simp only at hb
  subst hb
  cases ts
  · refine ⟨?_, rfl, rfl, rfl, rfl⟩
    simp only [Source.Stop, Source.timer_stop, SourceSettings.buffers_processed,
      SourceSettings.geti, alGetSourcei]
    apply unqueue_all_drains <;> simp [alSourceStop, Voice.geti]
  · refine ⟨?_, rfl, rfl, rfl, rfl⟩
    simp only [Source.Stop, Source.timer_stop, SourceSettings.buffers_processed,
      SourceSettings.geti, alGetSourcei]
    apply unqueue_all_drains <;> simp [alSourceStop, Voice.geti]

theorem timer_continue_facts (s : Source) :
    s.timer_continue.id = s.id ∧ s.timer_continue.buffer = s.buffer := by
  unfold Source.timer_continue
  split <;> exact ⟨rfl, rfl⟩

theorem timer_start_keeps (s : Source) (al : AL) (b : Buffer) (hb : s.buffer = some b) :
    (s.timer_start al).1.id = s.id ∧ ∃ b1, (s.timer_start al).1.buffer = some b1 := by
  obtain ⟨ss, buf, lp, pa, ts⟩ := s
  simp only at hb
  subst hb
  simp only [Source.timer_start]
  split
  · exact ⟨(timer_continue_facts _).1, _, (timer_continue_facts _).2⟩
  · exact ⟨rfl, _, rfl⟩

/-- The method `Play` keeps the name of the emitter and keeps a buffer bound. -/
theorem Play_keeps (s : Source) (al : AL) (b : Buffer) (hb : s.buffer = some b) :
    (s.Play al).1.id = s.id ∧ ∃ b1, (s.Play al).1.buffer = some b1 := by
  obtain ⟨h1, h2, -, -, h5⟩ := Stop_spec s al b hb
  obtain ⟨k1, k2⟩ := timer_start_keeps (s.Stop al).1 (s.Stop al).2 _ h2
  simp only [Source.Play, hb]
  split
  · exact ⟨(timer_continue_facts _).1, b, (timer_continue_facts _).2⟩
  · exact ⟨k1.trans h5, k2⟩

/-- C7: for every emitter with a bound Buffer, on a backend where stopping a voice marks all
of its queued buffers as processed, `Stop()` after `Play()` leaves no buffer queued on the
voice, the Buffer's offset at `HEADER_SIZE`, `timer_set = false` and `paused = false`. -/
theorem C7_stop_after_play (s : Source) (al : AL) (b : Buffer) (hb : s.buffer = some b) :
    (((s.Play al).1.Stop (s.Play al).2).2.voices s.id).queue = [] ∧
    ((s.Play al).1.Stop (s.Play al).2).1.buffer.map Buffer.offset = some HEADER_SIZE ∧
    ((s.Play al).1.Stop (s.Play al).2).1.timer_set = false ∧
    ((s.Play al).1.Stop (s.Play al).2).1.paused = false := by
  obtain ⟨hid, b1, hb1⟩ := Play_keeps s al b hb
  obtain ⟨h1, h2, h3, h4, -⟩ := Stop_spec (s.Play al).1 (s.Play al).2 b1 hb1
  rw [hid] at h1
  refine ⟨h1, ?_, h3, h4⟩
  rw [h2]
  rfl

theorem C7_stop_after_play_witness :
    (fileSource.Play al0).2.voices 1
      = { voice0 with state := ALstate.AL_PLAYING, queue := [7, 8] } ∧
    (((fileSource.Play al0).1.Stop (fileSource.Play al0).2).2.voices fileSource.id).queue = [] ∧
    ((fileSource.Play al0).1.Stop (fileSource.Play al0).2).1.buffer.map Buffer.offset
      = some HEADER_SIZE ∧
    ((fileSource.Play al0).1.Stop (fileSource.Play al0).2).1.timer_set = false ∧
    ((fileSource.Play al0).1.Stop (fileSource.Play al0).2).1.paused = false :=
  ⟨by decide, C7_stop_after_play fileSource al0 _ rfl⟩

/-- With no bound buffer `Play`, `Stop` and `Rewind` return at their guard: the emitter and
the backend (its log included) are as before. -/
theorem unbound_guarded (s : Source) (al : AL) (hb : s.buffer = none) :
    s.Play al = (s, al) ∧ s.Stop al = (s, al) ∧ s.Rewind al = (s, al) := by
  simp only [Source.Play, Source.Stop, Source.Rewind, hb, and_self]

/-- C8: `Pause()` on an emitter with no bound Buffer is not a no-op: on `unboundSource`
(`buffer = NULL`, `paused = false`) it sets `paused = true` and issues `alSourcePause`, whereas
`Play()`, `Stop()` and `Rewind()` leave the same emitter and the backend log untouched. -/
theorem C8_pause_unbound_not_noop :
    unboundSource.buffer = none ∧ unboundSource.paused = false ∧
    (unboundSource.Pause al0).1.paused = true ∧
    (unboundSource.Pause al0).2.log = [ALCall.alSourcePause 1] ∧
    (unboundSource.Play al0).1 = unboundSource ∧ (unboundSource.Play al0).2.log = [] ∧
    (unboundSource.Stop al0).1 = unboundSource ∧ (unboundSource.Stop al0).2.log = [] ∧
    (unboundSource.Rewind al0).1 = unboundSource ∧ (unboundSource.Rewind al0).2.log = [] := by
  decide

/-- The function `feed_one` on an exhausted buffer returns 0 and changes nothing. -/
theorem feed_one_exhausted (b : Buffer) (source : ALuint) (al : AL) (buffer len : Nat)
    (h : b.left = 0) : b.feed_one source al buffer len = (0, b, al) := by
  simp [Buffer.feed_one, h]

/-- C9 as stated fails: with an exhausted buffer, `loop = false` and a processed-buffer count
of 0, `feed_more` returns 1 and `run()` rearms the timer. -/
theorem C9_counterexample :
    exhaustedBuffer.left = 0 ∧ exhaustedSource._loop = false ∧
    (al0.voices exhaustedSource.id).processed = 0 ∧
    (exhaustedBuffer.feed_more exhaustedSource al0).1 = 1 ∧
    (exhaustedSource.run al0).1.timer_set = true := by
  decide

theorem feed_more_exhausted_some (b : Buffer) (s : Source) (al : AL) (hleft : b.left = 0)
    (hloop : s._loop = false) (hp : 0 < (al.voices s.id).processed) :
    (b.feed_more s al).1 = 0 := by
  obtain ⟨n, hn⟩ : ∃ n, (al.voices s.id).processed = n + 1 :=
    ⟨_, (Nat.succ_pred_eq_of_pos hp).symm⟩
  simp [Buffer.feed_more, SourceSettings.buffers_processed, SourceSettings.geti,
    alGetSourcei, Voice.geti, hn, Buffer.feed_more_loop, feed_one_exhausted, hleft, hloop]

theorem feed_more_none_processed (b : Buffer) (s : Source) (al : AL)
    (hp : (al.voices s.id).processed = 0) : (b.feed_more s al).1 = 1 := by
  simp [Buffer.feed_more, SourceSettings.buffers_processed, SourceSettings.geti,
    alGetSourcei, Voice.geti, hp, Buffer.feed_more_loop]

/-- C9 (amended): for every emitter whose bound Buffer is exhausted (`left() == 0`) with the
loop flag false, `feed_more` returns 0 and `run()` leaves the timer disarmed whenever the
backend reports at least one processed buffer; when it reports none, `feed_more` returns 1
and `run()` rearms the timer. -/
theorem C9_feed_more_exhausted (s : Source) (al : AL) (b : Buffer) (hb : s.buffer = some b)
    (hleft : b.left = 0) (hloop : s._loop = false) :
    (0 < (al.voices s.id).processed →
      (b.feed_more s al).1 = 0 ∧ (s.run al).1.timer_set = false) ∧
    ((al.voices s.id).processed = 0 →
      (b.feed_more s al).1 = 1 ∧ (s.run al).1.timer_set = true) := by
  obtain ⟨ss, buf, lp, pa, ts⟩ := s
  simp only at hb hloop
  subst hb hloop
  constructor
  · intro hp
    have h1 := feed_more_exhausted_some b ⟨ss, some b, false, pa, false⟩ al hleft rfl hp
    refine ⟨feed_more_exhausted_some b _ al hleft rfl hp, ?_⟩
    simp only [Source.run, h1]
    rfl
  · intro hp
    have h1 := feed_more_none_processed b ⟨ss, some b, false, pa, false⟩ al hp
    refine ⟨feed_more_none_processed b _ al hp, ?_⟩
    simp only [Source.run, h1]
    rfl

theorem C9_feed_more_exhausted_witness :
    0 < (alOneProcessed.voices exhaustedSource.id).processed ∧
    (exhaustedBuffer.feed_more exhaustedSource alOneProcessed).1 = 0 ∧
    (exhaustedSource.run alOneProcessed).1.timer_set = false :=
  ⟨by decide,
    (C9_feed_more_exhausted exhaustedSource alOneProcessed exhaustedBuffer rfl (by decide)
      rfl).1 (by decide)⟩

/-! ### The name index -/

theorem mapFind_mapPlace (k : String) (v : ALuint) :
    ∀ m : List (String × ALuint), mapFind m k = none → mapFind (mapPlace k v m) k = some v
  | [], _ => by simp [mapFind, mapPlace]
  | e :: rest, h => by
    have hne : ¬ e.1 = k := by
      intro he
      simp [mapFind, List.find?, he] at h
    have hrest : mapFind rest k = none := by
      simpa [mapFind, List.find?, hne] using h
    have ih := mapFind_mapPlace k v rest hrest
    simp only [mapPlace]
    split
    · simp [mapFind, List.find?]
    · simpa [mapFind, List.find?, hne] using ih

theorem mapFind_mapInsert_present (m : List (String × ALuint)) (k : String) (v p : ALuint)
    (h : mapFind m k = some p) : mapInsert m k v = m := by
  simp [mapInsert, h]

theorem mapFind_mapInsert_absent (m : List (String × ALuint)) (k : String) (v : ALuint)
    (h : mapFind m k = none) : mapFind (mapInsert m k v) k = some v := by
  simp only [mapInsert, h]
  exact mapFind_mapPlace k v m h

/-- C5 as stated fails: after `addName("a", 1)` and `addName("a", 2)` on an empty index the
lookup of `a` yields emitter 1, not emitter 2. -/
theorem C5_counterexample :
    ((emptyDevice.addName "a" 1).addName "a" 2).getSourceNamed "a" = Except.ok 1 ∧
    ((emptyDevice.addName "a" 1).addName "a" 2).getSourceNamed "a" ≠ Except.ok 2 := by
  refine ⟨rfl, ?_⟩
  intro h
  have h1 : ((emptyDevice.addName "a" 1).addName "a" 2).getSourceNamed "a" = Except.ok 1 := rfl
  rw [h1] at h
  injection h with h
  exact absurd h (by decide)

/-- C5 (amended): for every name and every two emitters `s1`, `s2`, after `addName(name, s1)`
followed by `addName(name, s2)` the lookup `getSource(name)` yields what it yielded after the
first call: the second call does not replace the entry.  When the name was not in the index
before, the lookup yields `s1` (the first writer wins).  `addName` throws nothing. -/
theorem C5_first_writer_wins (d : Device) (name : String) (s1 s2 : ALuint)
    (h : mapFind d.name2source name = none) :
    ((d.addName name s1).addName name s2).getSourceNamed name = Except.ok s1 ∧
    (d.addName name s1).getSourceNamed name = Except.ok s1 ∧
    (d.addName name s1).addName name s2 = d.addName name s1 := by
  have h1 : mapFind (d.addName name s1).name2source name = some s1 :=
    mapFind_mapInsert_absent d.name2source name s1 h
  have h2 : (d.addName name s1).addName name s2 = d.addName name s1 := by
    have h3 := mapFind_mapInsert_present _ name s2 s1 h1
    simp only [Device.addName] at h3 ⊢
    rw [h3]
  refine ⟨?_, ?_, h2⟩
  · rw [h2]
    simp [Device.getSourceNamed, h1]
  · simp [Device.getSourceNamed, h1]

theorem C5_first_writer_wins_witness :
    ((emptyDevice.addName "a" 1).addName "a" 2).getSourceNamed "a" = Except.ok 1 ∧
    (emptyDevice.addName "a" 1).getSourceNamed "a" = Except.ok 1 ∧
    (emptyDevice.addName "a" 1).addName "a" 2 = emptyDevice.addName "a" 1 :=
  C5_first_writer_wins emptyDevice "a" 1 2 rfl

/-! ### Bulk operations -/

theorem resolve_loop_unknown (d : Device) (n : String) (post : List JsonItem)
    (hn : mapFind d.name2source n = none) :
    ∀ pre : List JsonItem, (∀ v ∈ pre, ∃ p, d.getSource v = Except.ok p) →
      d.resolve_loop (pre ++ JsonItem.str n :: post)
        = Except.error "Could not find source by name."
  | [], _ => by
    simp [Device.resolve_loop, Device.getSource, Device.getSourceNamed, hn]
  | v :: pre, hpre => by
    obtain ⟨p, hp⟩ := hpre v (List.mem_cons_self _ _)
    have ih := resolve_loop_unknown d n post hn pre
      (fun w hw => hpre w (List.mem_cons_of_mem _ hw))
    rw [List.cons_append]
    simp only [Device.resolve_loop, hp]
    rw [ih]

theorem Ids2Sources_unknown (d : Device) (n : String) (pre post : List JsonItem)
    (hn : mapFind d.name2source n = none)
    (hpre : ∀ v ∈ pre, ∃ p, d.getSource v = Except.ok p) :
    d.Ids2Sources (Json.arr (pre ++ JsonItem.str n :: post))
      = Except.error "Could not find source by name." := by
  have h := resolve_loop_unknown d n post hn pre hpre
  cases pre with
  | nil => simpa [Device.Ids2Sources] using h
  | cons v pre => simpa [Device.Ids2Sources] using h

/-- C6 as stated fails: `Pause` on the selector list `["a", "zzz", "b"]`, where `a` and `b`
name the two emitters of `twoSources` and `zzz` names none, pauses neither of them and issues
no backend call, whereas `Pause` on `["a", "b"]` pauses both. -/
theorem C6_counterexample :
    (twoSources.Pause (Json.arr [JsonItem.str "a", JsonItem.str "zzz", JsonItem.str "b"])
      al0).1 = Except.error "Could not find source by name." ∧
    (twoSources.Pause (Json.arr [JsonItem.str "a", JsonItem.str "zzz", JsonItem.str "b"])
      al0).2.1.sources.map (fun s => s.paused) = [false, false] ∧
    (twoSources.Pause (Json.arr [JsonItem.str "a", JsonItem.str "zzz", JsonItem.str "b"])
      al0).2.2.log = [] ∧
    (twoSources.Pause (Json.arr [JsonItem.str "a", JsonItem.str "b"])
      al0).2.1.sources.map (fun s => s.paused) = [true, true] :=
  ⟨rfl, by decide, by decide, by decide⟩

/-- C6 (amended): for every bulk operation (`Play`, `Pause`, `Stop`, `Rewind` and the bulk
setters) called with a selector list in which one element is a name that resolves to no emitter
and the elements before it resolve to emitters, `Ids2Sources` throws "Could not find source by
name." before the loop over the targets starts: the operation is applied to no emitter, no
backend call is issued, and the registry and the backend are as before. -/
theorem C6_unknown_name_aborts (d : Device) (al : AL) (n : String)
    (pre post : List JsonItem) (hn : mapFind d.name2source n = none)
    (hpre : ∀ v ∈ pre, ∃ p, d.getSource v = Except.ok p) :
    (∀ name : Source → AL → Source × AL,
      Device.ACTION name d (Json.arr (pre ++ JsonItem.str n :: post)) al
        = (Except.error "Could not find source by name.", d, al)) ∧
    (∀ (α : Type) (name : Source → AL → α → Source × AL) (f : Except String α),
      Device.FUN name d (Json.arr (pre ++ JsonItem.str n :: post)) f al
        = (Except.error "Could not find source by name.", d, al)) ∧
    d.Play (Json.arr (pre ++ JsonItem.str n :: post)) al
      = (Except.error "Could not find source by name.", d, al) ∧
    d.Pause (Json.arr (pre ++ JsonItem.str n :: post)) al
      = (Except.error "Could not find source by name.", d, al) ∧
    d.Stop (Json.arr (pre ++ JsonItem.str n :: post)) al
      = (Except.error "Could not find source by name.", d, al) ∧
    d.Rewind (Json.arr (pre ++ JsonItem.str n :: post)) al
      = (Except.error "Could not find source by name.", d, al) := by
  have h := Ids2Sources_unknown d n pre post hn hpre
  have hA : ∀ name : Source → AL → Source × AL,
      Device.ACTION name d (Json.arr (pre ++ JsonItem.str n :: post)) al
        = (Except.error "Could not find source by name.", d, al) := by
    intro name
    simp only [Device.ACTION, h]
  refine ⟨hA, ?_, hA _, hA _, hA _, hA _⟩
  intro α name f
  simp only [Device.FUN, h]

theorem C6_unknown_name_aborts_witness :
    twoSources.Pause (Json.arr ([JsonItem.str "a"] ++ JsonItem.str "zzz" :: [JsonItem.str "b"]))
      al0 = (Except.error "Could not find source by name.", twoSources, al0) :=
  (C6_unknown_name_aborts twoSources al0 "zzz" [JsonItem.str "a"] [JsonItem.str "b"] rfl
    (by
      intro v hv
      simp only [List.mem_singleton] at hv
      subst hv
      exact ⟨1, rfl⟩)).2.2.2.1

/-! ### Reading a file chunk by chunk -/

/-- The chunk scan does not depend on the fuel once the fuel covers the file. -/
theorem scanData_fuel (f : List Nat) :
    ∀ (fuel pos k : Nat), f.length ≤ fuel + pos →
      scanData f (fuel + k) pos = scanData f fuel pos
  | 0, pos, k, h => by
    have hb : readByte f pos = none := by
      unfold readByte
      rw [List.get?_eq_none.mpr (by omega)]
      rfl
    have hnone : readTag f pos = none := by
      unfold readTag
      rw [hb]
    cases k with
    | zero => rfl
    | succ k => simp [scanData, hnone]
  | fuel + 1, pos, k, h => by
    have e : fuel + 1 + k = (fuel + k) + 1 := by omega
    rw [e]
    simp only [scanData]
    split
    · rfl
    · split
      · rfl
      · split
        · rfl
        · rename_i len _
          exact scanData_fuel f fuel (pos + sizeof_chunk + len) k
            (by simp only [sizeof_chunk]; omega)

/-- One call of `feed_one` with `len = chunk_size = 0` on a buffer that is not exhausted
returns 1 and leaves the buffer where it was. -/
theorem feed_one_zero_chunk (b : Buffer) (source buffer : ALuint) (al : AL)
    (hc : b.chunk_size = 0) (hl : b.left ≠ 0) (ho : b.offset < SIZE_MOD) :
    (b.feed_one source al buffer b.chunk_size).1 = 1 ∧
    (b.feed_one source al buffer b.chunk_size).2.1 = b := by
  obtain ⟨i0, i1, st, off, cs, fm, fr, iv⟩ := b
  simp only at hc ho
  subst hc
  refine ⟨?_, ?_⟩ <;> simp [Buffer.feed_one, hl, Nat.mod_eq_of_lt ho]

theorem feed_repeat_zero_chunk (b : Buffer) (source buffer : ALuint)
    (hc : b.chunk_size = 0) (hl : b.left ≠ 0) (ho : b.offset < SIZE_MOD) :
    ∀ (n : Nat) (al : AL),
      (b.feed_repeat source buffer n al).1 = List.replicate n 1 ∧
      (b.feed_repeat source buffer n al).2.1 = b
  | 0, al => ⟨rfl, rfl⟩
  | n + 1, al => by
    obtain ⟨h1, h2⟩ := feed_one_zero_chunk b source buffer al hc hl ho
    simp only [Buffer.feed_repeat, h1, h2]
    obtain ⟨k1, k2⟩ := feed_repeat_zero_chunk b source buffer hc hl ho n
      (b.feed_one source al buffer b.chunk_size).2.2
    exact ⟨by rw [k1]; rfl, k2⟩

theorem left_of_inv (b : Buffer) (h : b.inv) : b.left = b.st_size - b.offset := by
  obtain ⟨-, h2, h3⟩ := h
  simp only [Buffer.left, SIZE_MOD] at *
  omega

/-- One call of `feed_one` on a buffer that is not exhausted: it returns 1, hands the bytes
`[offset, offset + min (left, len))` to the backend, queues the buffer and moves the offset to
the end of that range. -/
theorem feed_one_step (b : Buffer) (source buffer : ALuint) (al : AL) (len : Nat)
    (hinv : b.inv) (hl : b.offset < b.st_size) :
    b.feed_one source al buffer len
      = (1, { b with offset := b.offset + min (b.st_size - b.offset) len },
          Source.enqueue_buffer source
            (alBufferData al buffer b.format b.offset (min (b.st_size - b.offset) len)
              b.frequency) buffer) := by
  have hleft := left_of_inv b hinv
  obtain ⟨-, h2, h3⟩ := hinv
  have hne : b.left ≠ 0 := by omega
  have hmin : (if b.left < len then b.left else len) = min (b.st_size - b.offset) len := by
    rw [hleft]
    split <;> omega
  have hmod : (b.offset + min (b.st_size - b.offset) len) % SIZE_MOD
      = b.offset + min (b.st_size - b.offset) len := by
    apply Nat.mod_eq_of_lt
    have : b.offset + min (b.st_size - b.offset) len ≤ b.st_size := by omega
    omega
  simp only [Buffer.feed_one, if_neg hne, hmin, hmod]

/-- With `chunk_size > 0`, finitely many `feed_one` calls with `len = chunk_size` all return 1
and move the offset to `st_size`; the call after them returns 0 and changes nothing. -/
theorem feed_repeat_consumes (source buffer : ALuint) :
    ∀ (k : Nat) (b : Buffer) (al : AL), b.inv → 0 < b.chunk_size →
      b.st_size - b.offset = k →
      ∃ n, (b.feed_repeat source buffer n al).1 = List.replicate n 1 ∧
        (b.feed_repeat source buffer n al).2.1 = { b with offset := b.st_size } ∧
        (b.feed_repeat source buffer n al).2.1.feed_one source
            (b.feed_repeat source buffer n al).2.2 buffer b.chunk_size
          = (0, (b.feed_repeat source buffer n al).2.1,
              (b.feed_repeat source buffer n al).2.2) := by
  intro k
  induction k using Nat.strong_induction_on with
  | _ k ih =>
    intro b al hinv hc hk
    by_cases hz : b.offset = b.st_size
    · refine ⟨0, rfl, ?_, ?_⟩
      · obtain ⟨i0, i1, st, off, cs, fm, fr, iv⟩ := b
        simp only at hz
        subst hz
        rfl
      · have hl : b.left = 0 := by rw [left_of_inv b hinv]; omega
        exact feed_one_exhausted b source al buffer b.chunk_size hl
    · have hlt : b.offset < b.st_size := lt_of_le_of_ne hinv.2.1 hz
      have hstep := feed_one_step b source buffer al b.chunk_size hinv hlt
      have hinv1 : ({ b with offset := b.offset + min (b.st_size - b.offset) b.chunk_size } :
          Buffer).inv := by
        obtain ⟨h1, h2, h3⟩ := hinv
        refine ⟨?_, ?_, h3⟩
        · show HEADER_SIZE ≤ b.offset + min (b.st_size - b.offset) b.chunk_size
          omega
        · show b.offset + min (b.st_size - b.offset) b.chunk_size ≤ b.st_size
          omega
      obtain ⟨n, e1, e2, e3⟩ := ih
        (b.st_size - (b.offset + min (b.st_size - b.offset) b.chunk_size)) (by omega)
        { b with offset := b.offset + min (b.st_size - b.offset) b.chunk_size }
        (Source.enqueue_buffer source
          (alBufferData al buffer b.format b.offset (min (b.st_size - b.offset) b.chunk_size)
            b.frequency) buffer) hinv1 hc rfl
      refine ⟨n + 1, ?_, ?_, ?_⟩
      · simp only [Buffer.feed_repeat, hstep, e1]
        rfl
      · simp only [Buffer.feed_repeat, hstep, e2]
      · simp only [Buffer.feed_repeat, hstep]
        exact e3

/-- The buffer of an accepted file starts inside its bounds. -/
theorem fromFile_inv (f : List Nat) (id0 id1 : ALuint) (b : Buffer)
    (h : Buffer.fromFile f id0 id1 = Except.ok b) : b.inv := by
  obtain ⟨hd, -, hsz, hlen, -, hst, hoff⟩ := fromFile_ok f id0 id1 b h
  have hlt : f.length < UINT_MOD := by
    rw [← hlen]
    exact Nat.mod_lt _ (by decide)
  refine ⟨by rw [hoff], by rw [hoff, hst]; exact hsz, ?_⟩
  rw [hst]
  simp only [UINT_MOD, SIZE_MOD] at *
  omega

/-- Every accepted file whose chunk size is not 0 is consumed up to `st_size` by finitely many
`feed_one` calls with `len = chunk_size`, and the call after them returns 0 and changes
nothing. -/
theorem accepted_file_consumed (f : List Nat) (id0 id1 source buffer : ALuint) (b : Buffer)
    (al : AL) (h : Buffer.fromFile f id0 id1 = Except.ok b) (hc : 0 < b.chunk_size) :
    ∃ n, (b.feed_repeat source buffer n al).1 = List.replicate n 1 ∧
      (b.feed_repeat source buffer n al).2.1.offset = b.st_size ∧
      (b.feed_repeat source buffer n al).2.1.feed_one source
          (b.feed_repeat source buffer n al).2.2 buffer b.chunk_size
        = (0, (b.feed_repeat source buffer n al).2.1,
            (b.feed_repeat source buffer n al).2.2) := by
  obtain ⟨n, e1, e2, e3⟩ := feed_repeat_consumes source buffer _ b al
    (fromFile_inv f id0 id1 b h) hc rfl
  exact ⟨n, e1, by rw [e2], e3⟩

/-- C3: on the accepted 45-byte file `fileOneByte` (one 8-bit sample) `fromFile` sets
`chunk_size = 0`, and then every one of any number `n` of `feed_one` calls with
`len = chunk_size` returns 1 and leaves the offset at `HEADER_SIZE` with one byte left: the
byte is never consumed and no call returns 0. -/
theorem C3_one_byte_file_never_consumed (n : Nat) (al : AL) :
    Buffer.fromFile fileOneByte 7 8 = Except.ok oneByteBuffer ∧
    oneByteBuffer.chunk_size = 0 ∧ oneByteBuffer.st_size - HEADER_SIZE = 1 ∧
    (oneByteBuffer.feed_repeat 1 7 n al).1 = List.replicate n 1 ∧
    (oneByteBuffer.feed_repeat 1 7 n al).2.1.offset = HEADER_SIZE ∧
    (oneByteBuffer.feed_repeat 1 7 n al).2.1.left = 1 := by
  obtain ⟨h1, h2⟩ := feed_repeat_zero_chunk oneByteBuffer 1 7 rfl (by decide) (by decide) n al
  refine ⟨rfl, rfl, by decide, h1, ?_, ?_⟩
  · rw [h2]; rfl
  · rw [h2]; decide

/-- C4: on the accepted file `fileExtraChunk`, which carries a `LIST` chunk between the
format chunk and the `data` chunk, the chunk scan locates the `data` chunk header at byte 48,
so the first sample byte is byte 56, but the offset after `fromFile` and after `reset()` is
`HEADER_SIZE = 44`. -/
theorem C4_offset_ignores_scanned_chunk :
    (readHeader fileExtraChunk).map (fun h => h.dataPos) = Except.ok 48 ∧
    (Buffer.fromFile fileExtraChunk 7 8).map (fun b => b.offset) = Except.ok 44 ∧
    (Buffer.fromFile fileExtraChunk 7 8).map (fun b => b.reset.offset) = Except.ok 44 ∧
    (Buffer.fromFile fileExtraChunk 7 8).map (fun b => b.st_size) = Except.ok 60 ∧
    fileExtraChunk.drop 56 = [9, 9, 9, 9] ∧ 44 ≠ 48 + sizeof_pcm_header := by
  refine ⟨rfl, rfl, rfl, rfl, by decide, by decide⟩

/-! ### Fading the gain -/

theorem lookupSource_id (srcs : List Source) (p : ALuint) (s : Source)
    (h : lookupSource srcs p = some s) : s.id = p := by
  have := List.find?_some h
  simpa using this

theorem lookup_store (p : ALuint) (s1 : Source) :
    ∀ (srcs : List Source) (s : Source), lookupSource srcs p = some s → s1.id = s.id →
      lookupSource (storeSource srcs s1) p = some s1
  | [], s, h, _ => by simp [lookupSource] at h
  | x :: rest, s, h, hid => by
    have hsp := lookupSource_id _ _ _ h
    by_cases hx : x.id = p
    · have hx1 : x.id = s1.id := by rw [hid, hsp, hx]
      simp only [storeSource, hx1, if_true]
      simp [lookupSource, List.find?, hid, hsp]
    · have hx1 : ¬ x.id = s1.id := by rw [hid, hsp]; exact hx
      have hrest : lookupSource rest p = some s := by
        simpa [lookupSource, List.find?, hx] using h
      have ih := lookup_store p s1 rest s hrest hid
      simp only [storeSource, hx1, if_false]
      simpa [lookupSource, List.find?, hx] using ih

theorem set_gain_facts (s : Source) (al : AL) (v : ALfloat) :
    (s.set_gain al v).1.id = s.id ∧ (s.set_gain al v).1.gain_value = v ∧
    ((s.set_gain al v).2.voices s.id).gain = v := by
  refine ⟨rfl, rfl, ?_⟩
  simp [Source.set_gain, SourceSettings.set_gain, SourceSettings.setf, alSourcef, Voice.setf]

theorem update_facts (a : Animation) (t : timespec) :
    (a.update t).kind = a.kind ∧ (a.update t).length = a.length ∧
    (a.update t).source = a.source ∧ (a.update t).start = a.start ∧
    (a.update t).update t = a.update t ∧ ∀ u, (a.update t).update u = a.update u :=
  ⟨rfl, rfl, rfl, rfl, rfl, fun _ => rfl⟩

/-- The tick that reaches the end of a fade: the gain is set to the target and the animation is
erased. -/
theorem visit_fade_done (U : FPU) (M : Libm) (a : Animation) (old_gain g : ALfloat)
    (t : timespec) (srcs : List Source) (al : AL) (s : Source)
    (hk : a.kind = AnimKind.FadeGain old_gain g)
    (hs : lookupSource srcs a.source = some s)
    (hp : Flt.ge ((a.update t).p U) 1 = true) :
    Animator.visit U M t a srcs al
      = (none, storeSource srcs (s.set_gain al g).1, (s.set_gain al g).2) := by
  have hdone : (a.update t).done U = true := hp
  have hs1 : lookupSource srcs (a.update t).source = some s := hs
  have hk1 : (a.update t).kind = AnimKind.FadeGain old_gain g := hk
  simp only [Animator.visit, hs1, Animation.step, hk1, hp, if_true, hdone]

/-- A tick before the end of a fade: the gain is set to the interpolated value, converted to
`ALfloat`, and the animation stays. -/
theorem visit_fade_early (U : FPU) (M : Libm) (a : Animation) (old_gain g : ALfloat)
    (t : timespec) (srcs : List Source) (al : AL) (s : Source)
    (hk : a.kind = AnimKind.FadeGain old_gain g)
    (hs : lookupSource srcs a.source = some s)
    (hp : Flt.ge ((a.update t).p U) 1 = false) :
    Animator.visit U M t a srcs al
      = (some (a.update t),
          storeSource srcs (s.set_gain al
            (U.toFloat (U.add64 old_gain
              (U.mul64 (U.sub32 g old_gain) ((a.update t).p U))))).1,
          (s.set_gain al
            (U.toFloat (U.add64 old_gain
              (U.mul64 (U.sub32 g old_gain) ((a.update t).p U))))).2) := by
  have hdone : (a.update t).done U = false := hp
  have hs1 : lookupSource srcs (a.update t).source = some s := hs
  have hk1 : (a.update t).kind = AnimKind.FadeGain old_gain g := hk
  simp only [Animator.visit, hs1, Animation.step, hk1, hp, Bool.false_eq_true, if_false, hdone]

theorem ticks_append (U : FPU) (M : Libm) :
    ∀ (l1 l2 : List (Nat → timespec)) (an : Animator) (srcs : List Source) (al : AL),
      Animator.ticks U M (l1 ++ l2) an srcs al
        = Animator.ticks U M l2 (Animator.ticks U M l1 an srcs al).1
            (Animator.ticks U M l1 an srcs al).2.1 (Animator.ticks U M l1 an srcs al).2.2
  | [], _, _, _, _ => rfl
  | now :: l1, l2, an, srcs, al => by
    simp only [List.cons_append, Animator.ticks]
    exact ticks_append U M l1 l2 _ _ _

theorem run_single (U : FPU) (M : Libm) (now : Nat → timespec) (a : Animation)
    (srcs : List Source) (al : AL) :
    Animator.run U M now { l := [a] } srcs al
      = ({ l := (Animator.visit U M (now 0) a srcs al).1.toList },
          (Animator.visit U M (now 0) a srcs al).2.1,
          (Animator.visit U M (now 0) a srcs al).2.2) := by
  simp [Animator.run, Animator.run_loop]

/-- Ticks before the end of a fade that is alone in the list keep it in the list and keep its
emitter reachable. -/
theorem ticks_fade_early (U : FPU) (M : Libm) (a : Animation) (old_gain g : ALfloat)
    (hk : a.kind = AnimKind.FadeGain old_gain g) :
    ∀ (early : List (Nat → timespec)) (t0 : timespec) (srcs : List Source) (al : AL)
      (s : Source), lookupSource srcs a.source = some s →
      (∀ now ∈ early, Flt.ge ((a.update (now 0)).p U) 1 = false) →
      ∃ t1 srcs1 al1 s1,
        Animator.ticks U M early { l := [a.update t0] } srcs al
          = ({ l := [a.update t1] }, srcs1, al1) ∧
        lookupSource srcs1 a.source = some s1
  | [], t0, srcs, al, s, hs, _ => ⟨t0, srcs, al, s, rfl, hs⟩
  | now :: early, t0, srcs, al, s, hs, he => by
    have h1 := visit_fade_early U M (a.update t0) old_gain g (now 0) srcs al s hk hs
      (he now (List.mem_cons_self _ _))
    have hl := lookup_store a.source
      (s.set_gain al (U.toFloat (U.add64 old_gain
        (U.mul64 (U.sub32 g old_gain) ((a.update (now 0)).p U))))).1
      srcs s hs rfl
    obtain ⟨t1, srcs1, al1, s1, e1, e2⟩ := ticks_fade_early U M a old_gain g hk early (now 0)
      _ (s.set_gain al (U.toFloat (U.add64 old_gain
        (U.mul64 (U.sub32 g old_gain) ((a.update (now 0)).p U))))).2
      _ hl (fun n hn => he n (List.mem_cons_of_mem _ hn))
    refine ⟨t1, srcs1, al1, s1, ?_, e2⟩
    simp only [Animator.ticks, run_single]
    rw [h1]
    exact e1

/-- A sum in `binary64` is not a number, an infinity, or finite with a magnitude of at least
0. -/
theorem add_magnitude (x y : Flt) (b : Bool) (m : ℚ)
    (h : Flt.add binary64 x y = Flt.fin b m) : 0 ≤ m := by
  cases x with
  | nan => simp [Flt.add] at h
  | inf a =>
    cases y with
    | nan => simp [Flt.add] at h
    | inf c =>
      simp only [Flt.add] at h
      split at h <;> simp at h
    | fin c k => simp [Flt.add] at h
  | fin a j =>
    cases y with
    | nan => simp [Flt.add] at h
    | inf c => simp [Flt.add] at h
    | fin c k =>
      simp only [Flt.add] at h
      split at h
      · injection h with h1 h2
        rw [← h2]
      · rcases roundMag_sign binary64 (decide ((Flt.fin a j).value + (Flt.fin c k).value < 0))
          |(Flt.fin a j).value + (Flt.fin c k).value| with e | ⟨y, hy, e⟩
        · rw [e] at h
          simp at h
        · rw [e] at h
          injection h with h1 h2
          rw [← h2]
          exact hy

/-- In IEEE arithmetic, for a finite duration `D > 0`: when the computed elapsed seconds (the
numerator of `p()`) are at least `D`, then `p() >= 1.0`. -/
theorem p_ge_one_ieee (a : Animation) (D : ℚ) (hl : a.length = Flt.fin false D) (hD : 0 < D)
    (h : Flt.ge (a.elapsed FPU.ieee) a.length = true) :
    Flt.ge (a.p FPU.ieee) 1 = true := by
  have hadd : ∀ (b : Bool) (m : ℚ), a.elapsed FPU.ieee = Flt.fin b m → 0 ≤ m :=
    fun b m e => add_magnitude _ _ b m e
  show Flt.ge (Flt.div binary64 (a.elapsed FPU.ieee) a.length) 1 = true
  rw [hl] at h ⊢
  generalize a.elapsed FPU.ieee = e at h hadd ⊢
  cases e with
  | nan => simp [Flt.ge] at h
  | inf c =>
    simp only [Flt.ge, Bool.not_eq_true'] at h
    subst h
    rfl
  | fin c m =>
    have hm := hadd c m rfl
    simp only [Flt.ge, decide_eq_true_eq, Flt.value] at h
    have hc : c = false := by
      cases c with
      | false => rfl
      | true =>
        simp at h
        linarith
    subst hc
    simp at h
    have hq : 1 ≤ m / D := by
      rw [le_div_iff₀ hD]
      linarith
    simp only [Flt.div, if_neg (ne_of_gt hD), Bool.xor_false]
    rcases roundMag_ge_one false (m / D) hq with e | ⟨y, hy, e⟩
    · rw [e]
      rfl
    · rw [e]
      show decide ((Flt.fin false ((1 : Nat) : ℚ)).value ≤ (Flt.fin false y).value) = true
      simp [Flt.value, hy]

theorem new_eq (id : ALuint) (al : AL) :
    (SourceSettings.new id al).1 = SourceSettings.ofVoice id (al.voices id) ∧
    (SourceSettings.new id al).2.voices = al.voices :=
  ⟨rfl, rfl⟩

theorem copy_loop_eq :
    ∀ (l : List Source) (al : AL),
      (Device.copy_loop l al).1
        = l.map (fun x => SourceSettings.ofVoice x.id (al.voices x.id)) ∧
      (Device.copy_loop l al).2.voices = al.voices
  | [], _ => ⟨rfl, rfl⟩
  | x :: rest, al => by
    obtain ⟨h1, h2⟩ := copy_loop_eq rest (x.copy al).2
    have hv : (x.copy al).2.voices = al.voices := rfl
    simp only [Device.copy_loop, List.map_cons]
    rw [h1, h2, hv]
    exact ⟨rfl, rfl⟩

theorem update_eq (c : SourceSettings) (al : AL) :
    (c.update al).1.id = c.id ∧ (c.update al).1.params = (al.voices c.id).params ∧
    (c.update al).2.voices = al.voices :=
  ⟨rfl, rfl, rfl⟩

theorem Source_update_eq (x : Source) (al : AL) :
    (x.update al).1.id = x.id ∧ (x.update al).1.params = (al.voices x.id).params ∧
    (x.update al).2.voices = al.voices :=
  ⟨rfl, rfl, rfl⟩

/-- Applying settings that equal what the backend holds changes no voice. -/
theorem apply_voices_same (c : SourceSettings) (al : AL)
    (h : c.params = (al.voices c.id).params) : (c.apply al).2.voices = al.voices := by
  simp only [SourceSettings.params, Voice.params, Prod.mk.injEq] at h
  obtain ⟨h1, h2, h3, h4, h5, h6⟩ := h
  funext j
  by_cases hj : j = c.id
  · subst hj
    simp [SourceSettings.apply, SourceSettings.set_position, SourceSettings.set_velocity,
      SourceSettings.set_pitch, SourceSettings.set_gain, SourceSettings.set_min_gain,
      SourceSettings.set_max_gain, SourceSettings.setf, SourceSettings.setfv, alSourcef,
      alSourcefv, AL.setVoice, Voice.setf, Voice.setfv, h1, h2, h3, h4, h5, h6]
  · simp [SourceSettings.apply, SourceSettings.set_position, SourceSettings.set_velocity,
      SourceSettings.set_pitch, SourceSettings.set_gain, SourceSettings.set_min_gain,
      SourceSettings.set_max_gain, SourceSettings.setf, SourceSettings.setfv, alSourcef,
      alSourcefv, AL.setVoice, hj]

/-- The loop of `applySnapshot` over settings that were read off voices `V` with the same
parameters as the current ones: no voice changes, the emitters keep their names and their
cached parameters are the backend's. -/
theorem apply_loop_aligned (V : ALuint → Voice) :
    ∀ (srcs : List Source) (al : AL),
      (∀ x ∈ srcs, (V x.id).params = (al.voices x.id).params) →
      (Device.apply_loop (srcs.map (fun x => SourceSettings.ofVoice x.id (V x.id))) srcs
        al).2.2.voices = al.voices ∧
      (Device.apply_loop (srcs.map (fun x => SourceSettings.ofVoice x.id (V x.id))) srcs
        al).2.1.map (fun x => x.id) = srcs.map (fun x => x.id) ∧
      ∀ x ∈ (Device.apply_loop (srcs.map (fun x => SourceSettings.ofVoice x.id (V x.id))) srcs
        al).2.1, x.toSourceSettings.params = (al.voices x.id).params
  | [], al, _ => ⟨rfl, rfl, fun x hx => by simp [Device.apply_loop] at hx⟩
  | x :: rest, al, h => by
    have ha : ((SourceSettings.ofVoice x.id (V x.id)).apply al).2.voices = al.voices :=
      apply_voices_same _ al (h x (List.mem_cons_self _ _))
    have hu : (x.update ((SourceSettings.ofVoice x.id (V x.id)).apply al).2).2.voices
        = al.voices := (Source_update_eq x _).2.2.trans ha
    have hui : (x.update ((SourceSettings.ofVoice x.id (V x.id)).apply al).2).1.id = x.id :=
      (Source_update_eq x _).1
    have hup : (x.update ((SourceSettings.ofVoice x.id (V x.id)).apply al).2).1.params
        = (al.voices x.id).params := by
      have := (Source_update_eq x ((SourceSettings.ofVoice x.id (V x.id)).apply al).2).2.1
      rw [ha] at this
      exact this
    obtain ⟨i1, i2, i3⟩ := apply_loop_aligned V rest
      (x.update ((SourceSettings.ofVoice x.id (V x.id)).apply al).2).2
      (by
        intro y hy
        rw [hu]
        exact h y (List.mem_cons_of_mem _ hy))
    simp only [List.map_cons, Device.apply_loop]
    refine ⟨i1.trans hu, ?_, ?_⟩
    · rw [i2, hui]
    · intro y hy
      rcases List.mem_cons.mp hy with hy | hy
      · subst hy
        rw [hui]
        exact hup
      · have := i3 y hy
        rw [hu] at this
        exact this

/-! ### Removing an emitter -/

theorem unqueue_buffer_other (id j : ALuint) (al : AL) (hj : j ≠ id) :
    (Source.unqueue_buffer id al).2.voices j = al.voices j := by
  simp only [Source.unqueue_buffer, alSourceUnqueueBuffers]
  split
  · split
    · simp [AL.setVoice, hj]
    · rfl
  · rfl

theorem unqueue_all_other (id j : ALuint) (hj : j ≠ id) :
    ∀ (n : Nat) (al : AL), (Source.unqueue_all id n al).voices j = al.voices j
  | 0, _ => rfl
  | n + 1, al => by
    simp only [Source.unqueue_all]
    rw [unqueue_all_other id j hj n, unqueue_buffer_other id j al hj]

theorem Stop_other (s : Source) (al : AL) (j : ALuint) (hj : j ≠ s.id) :
    (s.Stop al).2.voices j = al.voices j ∧ (s.Stop al).1.id = s.id := by
  cases hb : s.buffer with
  | none => simp [Source.Stop, hb]
  | some b =>
    have hid : s.timer_stop.id = s.id := by
      unfold Source.timer_stop; split <;> rfl
    refine ⟨?_, (Stop_spec s al b hb).2.2.2.2⟩
    simp only [Source.Stop, hb, SourceSettings.buffers_processed, SourceSettings.geti,
      alGetSourcei, hid]
    rw [unqueue_all_other s.id j hj]
    simp [alSourceStop, AL.setVoice, hj]

theorem destroy_other (s : Source) (al : AL) (j : ALuint) (hj : j ≠ s.id) :
    (s.destroy al).voices j = al.voices j := by
  obtain ⟨h1, h2⟩ := Stop_other s al j hj
  simp only [Source.destroy, alDeleteSources, h2]
  have : ((AL.setVoice (match (s.Stop al).1.buffer with
      | some b => b.destroy (s.Stop al).2
      | none => (s.Stop al).2) s.id fun _ => Voice.fresh).call
      (ALCall.alDeleteSources s.id)).voices j
      = (match (s.Stop al).1.buffer with
      | some b => b.destroy (s.Stop al).2
      | none => (s.Stop al).2).voices j := by
    simp [AL.setVoice, hj]
  rw [this]
  split <;> exact h1

theorem eraseP_nodup {α : Type} (f : α → Nat) (s : Nat) :
    ∀ l : List α, (l.map f).Nodup →
      l.eraseP (fun x => decide (f x = s)) = l.filter (fun x => decide (f x ≠ s))
  | [], _ => rfl
  | x :: xs, h => by
    rw [List.map_cons, List.nodup_cons] at h
    by_cases hx : f x = s
    · have hall : ∀ y ∈ xs, decide (f y ≠ s) = true := by
        intro y hy
        have : f y ≠ s := by
          intro hys
          exact h.1 (by rw [hx, ← hys]; exact List.mem_map_of_mem f hy)
        simpa using this
      rw [List.eraseP_cons_of_pos (by simpa using hx)]
      rw [List.filter_cons_of_neg (by simpa using hx)]
      exact (List.filter_eq_self.mpr hall).symm
    · rw [List.eraseP_cons_of_neg (by simpa using hx)]
      rw [List.filter_cons_of_pos (by simpa using hx)]
      rw [eraseP_nodup f s xs h.2]

theorem eraseLast_nodup {α : Type} (f : α → Nat) (s : Nat) (l : List α)
    (h : (l.map f).Nodup) :
    eraseLast (fun x => decide (f x = s)) l = l.filter (fun x => decide (f x ≠ s)) := by
  unfold eraseLast
  rw [eraseP_nodup f s l.reverse (by rw [List.map_reverse]; exact List.nodup_reverse.mpr h)]
  rw [List.filter_reverse, List.reverse_reverse]

/-- The registry and the backend after `makeSnapshot()` and then `removeSource(s)`, for
emitters with distinct names: the emitter and its snapshot entry are both gone, the snapshot
is the one read off the remaining emitters, whose voices are untouched. -/
theorem snapshot_then_remove (d : Device) (al : AL) (s : ALuint)
    (hnd : (d.sources.map (fun x => x.id)).Nodup) :
    ((d.makeSnapshot al).1.removeSource s (d.makeSnapshot al).2).1.sources
      = d.sources.filter (fun x => decide (x.id ≠ s)) ∧
    ((d.makeSnapshot al).1.removeSource s (d.makeSnapshot al).2).1.snapshot
      = (d.sources.filter (fun x => decide (x.id ≠ s))).map
          (fun x => SourceSettings.ofVoice x.id (al.voices x.id)) ∧
    ∀ j, j ≠ s →
      ((d.makeSnapshot al).1.removeSource s (d.makeSnapshot al).2).2.voices j = al.voices j := by
  obtain ⟨c1, c2⟩ := copy_loop_eq d.sources al
  have hsnap : (d.makeSnapshot al).1.snapshot
      = d.sources.map (fun x => SourceSettings.ofVoice x.id (al.voices x.id)) := c1
  have hsrc : (d.makeSnapshot al).1.sources = d.sources := rfl
  have hvo : (d.makeSnapshot al).2.voices = al.voices := c2
  refine ⟨?_, ?_, ?_⟩
  · simp only [Device.removeSource, hsrc]
    exact eraseLast_nodup (fun x : Source => x.id) s d.sources hnd
  · simp only [Device.removeSource, hsnap]
    have hmm : (d.sources.map (fun x => SourceSettings.ofVoice x.id (al.voices x.id))).map
        (fun c : SourceSettings => c.id) = d.sources.map (fun x => x.id) := by
      rw [List.map_map]
      rfl
    rw [eraseLast_nodup (fun c : SourceSettings => c.id) s _ (by rw [hmm]; exact hnd)]
    rw [List.filter_map]
    rfl
  · intro j hj
    simp only [Device.removeSource, hsrc]
    split
    · rename_i x hx
      have hxid : x.id = s := by
        have := List.find?_some hx
        simpa using this
      rw [destroy_other x _ j (by rw [hxid]; exact hj), hvo]
    · rw [hvo]

/-- What `Device::removeSources` does for one resolved target: it purges the animations of
the emitter and calls `removeSource`. -/
theorem remove_loop_single (d : Device) (al : AL) (s : ALuint) :
    Device.remove_loop [s] d al
      = Device.removeSource { d with animator := d.animator.removeSource s } s al :=
  rfl

/-- C1 as stated fails: with two emitters, `makeSnapshot()`, then `removeSource` of emitter 2,
then `applySnapshot()` does not throw "mismatching snapshot"; it completes. -/
theorem C1_counterexample :
    (((twoSources.makeSnapshot al0).1.removeSource 2
      (twoSources.makeSnapshot al0).2).1.applySnapshot
      ((twoSources.makeSnapshot al0).1.removeSource 2 (twoSources.makeSnapshot al0).2).2).1
      = Except.ok () ∧
    ((twoSources.makeSnapshot al0).1.removeSource 2
      (twoSources.makeSnapshot al0).2).1.sources.length = 1 ∧
    ((twoSources.makeSnapshot al0).1.removeSource 2
      (twoSources.makeSnapshot al0).2).1.snapshot.length = 1 :=
  ⟨rfl, by decide, by decide⟩

/-- C1 (amended): for every registry state with at least one emitter (the emitters having
distinct names): after `makeSnapshot()`, destroying one emitter with `Device::removeSource`
removes that emitter's snapshot entry too, so the snapshot and the emitter list stay equally
long and `applySnapshot()` does not fail; it completes, and the parameters of every surviving
emitter are the same as before the `applySnapshot()` call (no voice of the backend is changed,
the cached values equal the backend's, which are those of the snapshot). -/
theorem C1_restore_after_remove (d d1 d2 : Device) (al al1 al2 : AL) (s : ALuint)
    (hnd : (d.sources.map (fun x => x.id)).Nodup) (hs : s ∈ d.sources.map (fun x => x.id))
    (hm : d.makeSnapshot al = (d1, al1)) (hr : d1.removeSource s al1 = (d2, al2)) :
    d2.sources.map (fun x => x.id) = (d.sources.map (fun x => x.id)).erase s ∧
    d2.sources.length + 1 = d.sources.length ∧
    d2.snapshot.length = d2.sources.length ∧
    (d2.applySnapshot al2).1 = Except.ok () ∧
    (d2.applySnapshot al2).2.2.voices = al2.voices ∧
    (d2.applySnapshot al2).2.1.sources.map (fun x => x.id) = d2.sources.map (fun x => x.id) ∧
    (∀ x ∈ (d2.applySnapshot al2).2.1.sources,
      x.toSourceSettings.params = (al2.voices x.id).params) ∧
    (∀ x ∈ d2.sources, (al2.voices x.id).params = (al.voices x.id).params) := by
  obtain ⟨rfl, rfl⟩ : d1 = (d.makeSnapshot al).1 ∧ al1 = (d.makeSnapshot al).2 := by
    rw [hm]; exact ⟨rfl, rfl⟩
  obtain ⟨rfl, rfl⟩ : d2 = ((d.makeSnapshot al).1.removeSource s (d.makeSnapshot al).2).1 ∧
      al2 = ((d.makeSnapshot al).1.removeSource s (d.makeSnapshot al).2).2 := by
    rw [hr]; exact ⟨rfl, rfl⟩
  obtain ⟨k1, k2, k3⟩ := snapshot_then_remove d al s hnd
  have hids : ((d.makeSnapshot al).1.removeSource s (d.makeSnapshot al).2).1.sources.map
      (fun x => x.id) = (d.sources.map (fun x => x.id)).erase s := by
    rw [k1, hnd.erase_eq_filter, List.filter_map]
    congr 1
    apply List.filter_congr
    intro x _
    by_cases hx : x.id = s <;> simp [hx]
  have hlen : ((d.makeSnapshot al).1.removeSource s (d.makeSnapshot al).2).1.sources.length + 1
      = d.sources.length := by
    have h1 := congrArg List.length hids
    rw [List.length_map, List.length_erase_of_mem hs, List.length_map] at h1
    have h2 : 0 < d.sources.length := by
      rw [← List.length_map d.sources (fun x => x.id)]
      exact List.length_pos_of_mem hs
    omega
  have hsl : ((d.makeSnapshot al).1.removeSource s (d.makeSnapshot al).2).1.snapshot.length
      = ((d.makeSnapshot al).1.removeSource s (d.makeSnapshot al).2).1.sources.length := by
    rw [k2, k1, List.length_map]
  have hagree : ∀ x ∈ d.sources.filter (fun x => decide (x.id ≠ s)),
      (al.voices x.id).params
        = (((d.makeSnapshot al).1.removeSource s (d.makeSnapshot al).2).2.voices x.id).params := by
    intro x hx
    have hne : x.id ≠ s := by simpa using (List.mem_filter.mp hx).2
    rw [k3 x.id hne]
  obtain ⟨a1, a2, a3⟩ := apply_loop_aligned al.voices
    (d.sources.filter (fun x => decide (x.id ≠ s)))
    ((d.makeSnapshot al).1.removeSource s (d.makeSnapshot al).2).2 hagree
  have happ : ((d.makeSnapshot al).1.removeSource s (d.makeSnapshot al).2).1.applySnapshot
      ((d.makeSnapshot al).1.removeSource s (d.makeSnapshot al).2).2
      = (Except.ok (),
          { ((d.makeSnapshot al).1.removeSource s (d.makeSnapshot al).2).1 with
            snapshot := (Device.apply_loop
              ((d.sources.filter (fun x => decide (x.id ≠ s))).map
                (fun x => SourceSettings.ofVoice x.id (al.voices x.id)))
              (d.sources.filter (fun x => decide (x.id ≠ s)))
              ((d.makeSnapshot al).1.removeSource s (d.makeSnapshot al).2).2).1,
            sources := (Device.apply_loop
              ((d.sources.filter (fun x => decide (x.id ≠ s))).map
                (fun x => SourceSettings.ofVoice x.id (al.voices x.id)))
              (d.sources.filter (fun x => decide (x.id ≠ s)))
              ((d.makeSnapshot al).1.removeSource s (d.makeSnapshot al).2).2).2.1 },
          (Device.apply_loop
              ((d.sources.filter (fun x => decide (x.id ≠ s))).map
                (fun x => SourceSettings.ofVoice x.id (al.voices x.id)))
              (d.sources.filter (fun x => decide (x.id ≠ s)))
              ((d.makeSnapshot al).1.removeSource s (d.makeSnapshot al).2).2).2.2) := by
    unfold Device.applySnapshot
    rw [if_neg (by rw [hsl]; exact fun h => h rfl), k1, k2]
  refine ⟨hids, hlen, hsl, by rw [happ], by rw [happ]; exact a1, ?_, ?_, ?_⟩
  · rw [happ, k1]
    exact a2
  · rw [happ]
    exact a3
  · intro x hx
    rw [k1] at hx
    exact (hagree x hx).symm

theorem C1_restore_after_remove_witness :
    (((twoSources.makeSnapshot al0).1.removeSource 2
      (twoSources.makeSnapshot al0).2).1.applySnapshot
      ((twoSources.makeSnapshot al0).1.removeSource 2 (twoSources.makeSnapshot al0).2).2).1
      = Except.ok () :=
  (C1_restore_after_remove twoSources _ _ al0 _ _ 2 (by decide) (by decide) rfl rfl).2.2.2.1

/-! ### The channel check -/

theorem readHeader_channels (f : List Nat) (h : Header) (hh : readHeader f = Except.ok h) :
    readU16 f 22 = some h.channels ∧ readU16 f 34 = some h.bits_per_sample := by
  simp only [readHeader] at hh
  split at hh
  · rename_i riff length wave fmt len channels rate bps bits _ _ _ _ _ hch _ _ hbits
    split at hh
    · cases hh
    · split at hh
      · cases hh
      · injection hh with hh
        subst hh
        exact ⟨hch, hbits⟩
  · cases hh

/-- C11 as stated fails: the file `fileMono24` declares one channel with 24 bits per sample
and `fromFile` accepts it, with the format `AL_FORMAT_MONO16`. -/
theorem C11_counterexample :
    (readHeader fileMono24).map (fun h => (h.channels, h.bits_per_sample))
      = Except.ok (1, 24) ∧
    (Buffer.fromFile fileMono24 7 8).map (fun b => b.format)
      = Except.ok ALformat.AL_FORMAT_MONO16 :=
  ⟨rfl, rfl⟩

/-- C11 (amended): `Buffer::fromFile` fails for every file whose header carries a channel
count other than 1 or 2.  The bit depth is not checked: with one or two channels
`bits_per_sample = 8` selects the 8-bit format and every other value the 16-bit format. -/
theorem C11_bad_channel_count_fails (f : List Nat) (id0 id1 : ALuint)
    (h1 : readU16 f 22 ≠ some 1) (h2 : readU16 f 22 ≠ some 2) :
    (∃ e, Buffer.fromFile f id0 id1 = Except.error e) ∧
    (∀ bits, selectFormat 1 bits = Except.ok
      (if bits = 8 then ALformat.AL_FORMAT_MONO8 else ALformat.AL_FORMAT_MONO16)) ∧
    (∀ bits, selectFormat 2 bits = Except.ok
      (if bits = 8 then ALformat.AL_FORMAT_STEREO8 else ALformat.AL_FORMAT_STEREO16)) := by
  refine ⟨?_, fun bits => by simp [selectFormat], fun bits => by simp [selectFormat]⟩
  simp only [Buffer.fromFile]
  split
  · exact ⟨_, rfl⟩
  · split
    · exact ⟨_, rfl⟩
    · rename_i hd hhd
      have hch := (readHeader_channels f hd hhd).1
      have hsel : selectFormat hd.channels hd.bits_per_sample
          = Except.error "bad number of channels" := by
        have c1 : hd.channels ≠ 1 := fun hc => h1 (by rw [hch, hc])
        have c2 : hd.channels ≠ 2 := fun hc => h2 (by rw [hch, hc])
        simp [selectFormat, c1, c2]
      split
      · exact ⟨_, rfl⟩
      · split
        · exact ⟨_, rfl⟩
        · split
          · exact ⟨_, rfl⟩
          · rw [hsel]
            exact ⟨_, rfl⟩

theorem C11_bad_channel_count_fails_witness :
    readU16 fileThreeChannels 22 = some 3 ∧
    ∃ e, Buffer.fromFile fileThreeChannels 7 8 = Except.error e :=
  ⟨by decide, (C11_bad_channel_count_fails fileThreeChannels 7 8 (by decide) (by decide)).1⟩

/-! ### The offset stays inside the file -/

theorem reset_inv (b : Buffer) (h : b.inv) : b.reset.inv ∧ b.reset.st_size = b.st_size := by
  obtain ⟨h1, h2, h3⟩ := h
  exact ⟨⟨le_refl _, le_trans h1 h2, h3⟩, rfl⟩

theorem feed_one_inv (b : Buffer) (source buffer : ALuint) (al : AL) (len : Nat)
    (h : b.inv) :
    (b.feed_one source al buffer len).2.1.inv ∧
    (b.feed_one source al buffer len).2.1.st_size = b.st_size := by
  by_cases hz : b.offset = b.st_size
  · have hl : b.left = 0 := by rw [left_of_inv b h]; omega
    rw [feed_one_exhausted b source al buffer len hl]
    exact ⟨h, rfl⟩
  · have hlt : b.offset < b.st_size := lt_of_le_of_ne h.2.1 hz
    rw [feed_one_step b source buffer al len h hlt]
    obtain ⟨h1, h2, h3⟩ := h
    refine ⟨⟨?_, ?_, h3⟩, rfl⟩
    · show HEADER_SIZE ≤ b.offset + min (b.st_size - b.offset) len
      omega
    · show b.offset + min (b.st_size - b.offset) len ≤ b.st_size
      omega

theorem rewind_if_inv (b : Buffer) (loop : Bool) (h : b.inv) :
    (if b.left = 0 ∧ loop = true then b.reset else b).inv ∧
    (if b.left = 0 ∧ loop = true then b.reset else b).st_size = b.st_size := by
  split
  · exact reset_inv b h
  · exact ⟨h, rfl⟩

theorem feed_start_inv (b : Buffer) (source : ALuint) (loop : Bool) (al : AL) (h : b.inv) :
    (b.feed_start source loop al).2.1.inv ∧
    (b.feed_start source loop al).2.1.st_size = b.st_size := by
  obtain ⟨a1, a2⟩ := feed_one_inv b source b.id0 al b.chunk_size h
  obtain ⟨b1, b2⟩ := rewind_if_inv (b.feed_one source al b.id0 b.chunk_size).2.1 loop a1
  obtain ⟨c1, c2⟩ := feed_one_inv
    (if (b.feed_one source al b.id0 b.chunk_size).2.1.left = 0 ∧ loop = true then
      (b.feed_one source al b.id0 b.chunk_size).2.1.reset
      else (b.feed_one source al b.id0 b.chunk_size).2.1) source
    (if (b.feed_one source al b.id0 b.chunk_size).2.1.left = 0 ∧ loop = true then
      (b.feed_one source al b.id0 b.chunk_size).2.1.reset
      else (b.feed_one source al b.id0 b.chunk_size).2.1).id1
    (b.feed_one source al b.id0 b.chunk_size).2.2
    (if (b.feed_one source al b.id0 b.chunk_size).2.1.left = 0 ∧ loop = true then
      (b.feed_one source al b.id0 b.chunk_size).2.1.reset
      else (b.feed_one source al b.id0 b.chunk_size).2.1).chunk_size b1
  exact ⟨c1, c2.trans (b2.trans a2)⟩

theorem feed_more_loop_inv (source : ALuint) (loop : Bool) :
    ∀ (num : Nat) (b : Buffer) (al : AL), b.inv →
      (Buffer.feed_more_loop source loop num b al).2.1.inv ∧
      (Buffer.feed_more_loop source loop num b al).2.1.st_size = b.st_size
  | 0, b, al, h => ⟨h, rfl⟩
  | num + 1, b, al, h => by
    obtain ⟨b1, b2⟩ := rewind_if_inv b loop h
    simp only [Buffer.feed_more_loop]
    generalize (if b.left = 0 ∧ loop = true then b.reset else b) = b' at b1 b2 ⊢
    obtain ⟨c1, c2⟩ := feed_one_inv b' source
      (Source.unqueue_buffer source al).1 (Source.unqueue_buffer source al).2 b'.chunk_size b1
    split
    · exact ⟨c1, c2.trans b2⟩
    · obtain ⟨d1, d2⟩ := feed_more_loop_inv source loop num
        (b'.feed_one source (Source.unqueue_buffer source al).2
          (Source.unqueue_buffer source al).1 b'.chunk_size).2.1
        (b'.feed_one source (Source.unqueue_buffer source al).2
          (Source.unqueue_buffer source al).1 b'.chunk_size).2.2 c1
      exact ⟨d1, d2.trans (c2.trans b2)⟩

theorem feed_more_inv (b : Buffer) (s : Source) (al : AL) (h : b.inv) :
    (b.feed_more s al).2.1.inv ∧ (b.feed_more s al).2.1.st_size = b.st_size := by
  simp only [Buffer.feed_more]
  exact feed_more_loop_inv _ _ _ b _ h

/-- C12: `HEADER_SIZE <= offset <= st_size` (with `st_size` in the range of its type) is an
invariant of Buffer: it holds for the buffer of every file `fromFile` accepts and is
preserved, along with `st_size`, by `reset()`, by `feed_one` for every `len`, and by
`feed_start` and `feed_more` for every loop flag and every processed-buffer count. -/
theorem C12_offset_invariant (b : Buffer) (h1 : HEADER_SIZE ≤ b.offset)
    (h2 : b.offset ≤ b.st_size) (h3 : b.st_size < SIZE_MOD) :
    (∀ (f : List Nat) (id0 id1 : ALuint) (b0 : Buffer),
      Buffer.fromFile f id0 id1 = Except.ok b0 →
        HEADER_SIZE ≤ b0.offset ∧ b0.offset ≤ b0.st_size ∧ b0.st_size < SIZE_MOD) ∧
    (HEADER_SIZE ≤ b.reset.offset ∧ b.reset.offset ≤ b.reset.st_size ∧
      b.reset.st_size = b.st_size) ∧
    (∀ (source buffer : ALuint) (al : AL) (len : Nat),
      HEADER_SIZE ≤ (b.feed_one source al buffer len).2.1.offset ∧
      (b.feed_one source al buffer len).2.1.offset
        ≤ (b.feed_one source al buffer len).2.1.st_size ∧
      (b.feed_one source al buffer len).2.1.st_size = b.st_size) ∧
    (∀ (source : ALuint) (loop : Bool) (al : AL),
      HEADER_SIZE ≤ (b.feed_start source loop al).2.1.offset ∧
      (b.feed_start source loop al).2.1.offset ≤ (b.feed_start source loop al).2.1.st_size ∧
      (b.feed_start source loop al).2.1.st_size = b.st_size) ∧
    (∀ (s : Source) (al : AL),
      HEADER_SIZE ≤ (b.feed_more s al).2.1.offset ∧
      (b.feed_more s al).2.1.offset ≤ (b.feed_more s al).2.1.st_size ∧
      (b.feed_more s al).2.1.st_size = b.st_size) := by
  have h : b.inv := ⟨h1, h2, h3⟩
  refine ⟨fun f id0 id1 b0 h0 => fromFile_inv f id0 id1 b0 h0, ?_, ?_, ?_, ?_⟩
  · obtain ⟨k, e⟩ := reset_inv b h
    exact ⟨k.1, k.2.1, e⟩
  · intro source buffer al len
    obtain ⟨k, e⟩ := feed_one_inv b source buffer al len h
    exact ⟨k.1, k.2.1, e⟩
  · intro source loop al
    obtain ⟨k, e⟩ := feed_start_inv b source loop al h
    exact ⟨k.1, k.2.1, e⟩
  · intro s al
    obtain ⟨k, e⟩ := feed_more_inv b s al h
    exact ⟨k.1, k.2.1, e⟩

theorem C12_offset_invariant_witness :
    (fourByteBuffer.feed_one 1 al0 7 3).2.1.offset = 47 ∧
    (fourByteBuffer.feed_start 1 true al0).2.1.offset = 48 ∧
    (HEADER_SIZE ≤ (fourByteBuffer.feed_start 1 true al0).2.1.offset ∧
      (fourByteBuffer.feed_start 1 true al0).2.1.offset
        ≤ (fourByteBuffer.feed_start 1 true al0).2.1.st_size ∧
      (fourByteBuffer.feed_start 1 true al0).2.1.st_size = fourByteBuffer.st_size) :=
  ⟨by decide, by decide,
    (C12_offset_invariant fourByteBuffer (by decide) (by decide) (by decide)).2.2.2.1
      1 true al0⟩

/-! ### Rounding up to a power of two -/

/-- One or-shift step doubles the window of bits of `x` that are or-ed into each bit. -/
theorem or_shift_testBit (x c m : Nat)
    (hc : ∀ i, c.testBit i = true ↔ ∃ j, j < m ∧ x.testBit (i + j) = true) :
    ∀ i, (c ||| (c >>> m)).testBit i = true ↔ ∃ j, j < 2 * m ∧ x.testBit (i + j) = true := by
  intro i
  rw [Nat.testBit_or, Nat.testBit_shiftRight, Bool.or_eq_true, hc, hc]
  constructor
  · rintro (⟨j, hj, h⟩ | ⟨j, hj, h⟩)
    · exact ⟨j, by omega, h⟩
    · refine ⟨m + j, by omega, ?_⟩
      rw [show i + (m + j) = m + i + j by omega]
      exact h
  · rintro ⟨j, hj, h⟩
    by_cases hjm : j < m
    · exact Or.inl ⟨j, hjm, h⟩
    · refine Or.inr ⟨j - m, by omega, ?_⟩
      rw [show m + i + (j - m) = i + j by omega]
      exact h

theorem top_bit (x : Nat) (hx : x ≠ 0) : x.testBit x.log2 = true := by
  have h1 : 2 ^ x.log2 ≤ x := Nat.log2_self_le hx
  have h2 : x < 2 ^ (x.log2 + 1) := Nat.lt_log2_self
  rw [Nat.testBit_to_div_mod]
  have hd : x / 2 ^ x.log2 = 1 := by
    apply Nat.le_antisymm
    · have : x / 2 ^ x.log2 < 2 := by
        apply Nat.div_lt_of_lt_mul
        rw [Nat.pow_succ] at h2
        exact h2
      omega
    · exact (Nat.le_div_iff_mul_le (Nat.two_pow_pos _)).mpr (by simpa using h1)
  simp [hd]

/-- The or-shift sequence with the increment yields the power of two just above the top bit
of a value that is not 0. -/
theorem smear_eq (x : Nat) (hx : x ≠ 0) (hlt : x < 2 ^ 32) : smear x = 2 ^ (x.log2 + 1) := by
  have h2 : x < 2 ^ (x.log2 + 1) := Nat.lt_log2_self
  have hk : x.log2 < 32 := by
    by_contra hge
    have h1 : 2 ^ x.log2 ≤ x := Nat.log2_self_le hx
    have : 2 ^ 32 ≤ 2 ^ x.log2 := Nat.pow_le_pow_right (by decide) (by omega)
    omega
  have b0 : ∀ i, x.testBit i = true ↔ ∃ j, j < 1 ∧ x.testBit (i + j) = true := by
    intro i
    constructor
    · intro h
      exact ⟨0, by omega, h⟩
    · rintro ⟨j, hj, h⟩
      have : j = 0 := by omega
      subst this
      exact h
  have b1 := or_shift_testBit x _ 1 b0
  have b2 := or_shift_testBit x _ 2 b1
  have b4 := or_shift_testBit x _ 4 b2
  have b8 := or_shift_testBit x _ 8 b4
  have b16 := or_shift_testBit x _ 16 b8
  have b32 := or_shift_testBit x _ 32 b16
  have hall : x ||| x >>> 1 ||| (x ||| x >>> 1) >>> 2
      ||| (x ||| x >>> 1 ||| (x ||| x >>> 1) >>> 2) >>> 4
      ||| (x ||| x >>> 1 ||| (x ||| x >>> 1) >>> 2
        ||| (x ||| x >>> 1 ||| (x ||| x >>> 1) >>> 2) >>> 4) >>> 8
      ||| (x ||| x >>> 1 ||| (x ||| x >>> 1) >>> 2
        ||| (x ||| x >>> 1 ||| (x ||| x >>> 1) >>> 2) >>> 4
        ||| (x ||| x >>> 1 ||| (x ||| x >>> 1) >>> 2
          ||| (x ||| x >>> 1 ||| (x ||| x >>> 1) >>> 2) >>> 4) >>> 8) >>> 16
      ||| (x ||| x >>> 1 ||| (x ||| x >>> 1) >>> 2
        ||| (x ||| x >>> 1 ||| (x ||| x >>> 1) >>> 2) >>> 4
        ||| (x ||| x >>> 1 ||| (x ||| x >>> 1) >>> 2
          ||| (x ||| x >>> 1 ||| (x ||| x >>> 1) >>> 2) >>> 4) >>> 8
        ||| (x ||| x >>> 1 ||| (x ||| x >>> 1) >>> 2
          ||| (x ||| x >>> 1 ||| (x ||| x >>> 1) >>> 2) >>> 4
          ||| (x ||| x >>> 1 ||| (x ||| x >>> 1) >>> 2
            ||| (x ||| x >>> 1 ||| (x ||| x >>> 1) >>> 2) >>> 4) >>> 8) >>> 16) >>> 32
      = 2 ^ (x.log2 + 1) - 1 := by
    apply Nat.eq_of_testBit_eq
    intro i
    rw [Nat.testBit_two_pow_sub_one]
    apply Bool.eq_iff_iff.mpr
    rw [b32 i, decide_eq_true_iff]
    constructor
    · rintro ⟨j, -, h⟩
      have hge : x ≥ 2 ^ (i + j) := Nat.testBit_implies_ge h
      by_contra hnot
      have : 2 ^ (x.log2 + 1) ≤ 2 ^ (i + j) := Nat.pow_le_pow_right (by decide) (by omega)
      omega
    · intro hi
      refine ⟨x.log2 - i, by omega, ?_⟩
      rw [show i + (x.log2 - i) = x.log2 by omega]
      exact top_bit x hx
  have hpos : 0 < 2 ^ (x.log2 + 1) := Nat.two_pow_pos _
  have hle : 2 ^ (x.log2 + 1) ≤ 2 ^ 32 := Nat.pow_le_pow_right (by decide) (by omega)
  simp only [smear, SIZE_MOD]
  rw [hall]
  omega

/-- A multiple of 1000 that is not 0 is not a power of two. -/
theorem thousand_not_pow (y j : Nat) (hy : y * 1000 = 2 ^ j) : False := by
  have h5 : 5 ∣ 2 ^ j := ⟨y * 200, by rw [← hy]; ring⟩
  have := Nat.Prime.dvd_of_dvd_pow Nat.prime_five h5
  omega

/-- C13: for every 32-bit `bytes_per_second`, the chunk size `fromFile` computes before the
clamp step from `x = bytes_per_second / 1000 * BUFFER_INTERVAL` is `x` rounded up to the next
power of two: it is a power of two, it is at least `x`, and every power of two that is at least
`x` is at least as large; it is the chunk size of the buffer whenever the clamp does not
trigger. -/
theorem C13_next_power_of_two (bps : Nat) (hb : bps < 2 ^ 32) :
    (∃ k, smear (bps / 1000 * BUFFER_INTERVAL % UINT_MOD) = 2 ^ k) ∧
    bps / 1000 * BUFFER_INTERVAL % UINT_MOD ≤ smear (bps / 1000 * BUFFER_INTERVAL % UINT_MOD) ∧
    (∀ j, bps / 1000 * BUFFER_INTERVAL % UINT_MOD ≤ 2 ^ j →
      smear (bps / 1000 * BUFFER_INTERVAL % UINT_MOD) ≤ 2 ^ j) ∧
    (∀ st_size, ¬ 2 * smear (bps / 1000 * BUFFER_INTERVAL % UINT_MOD) % SIZE_MOD
        > st_size - HEADER_SIZE →
      chunkParams bps st_size
        = Except.ok (smear (bps / 1000 * BUFFER_INTERVAL % UINT_MOD), BUFFER_INTERVAL / 2)) := by
  have hx : bps / 1000 * BUFFER_INTERVAL % UINT_MOD = bps / 1000 * 1000 := by
    simp only [BUFFER_INTERVAL, UINT_MOD]
    apply Nat.mod_eq_of_lt
    have := Nat.div_mul_le_self bps 1000
    omega
  have hlt : bps / 1000 * 1000 < 2 ^ 32 := by
    have := Nat.div_mul_le_self bps 1000
    omega
  have hcp : ∀ st_size, ¬ 2 * smear (bps / 1000 * BUFFER_INTERVAL % UINT_MOD) % SIZE_MOD
        > st_size - HEADER_SIZE →
      chunkParams bps st_size
        = Except.ok (smear (bps / 1000 * BUFFER_INTERVAL % UINT_MOD), BUFFER_INTERVAL / 2) := by
    intro st_size hno
    simp only [chunkParams, if_neg hno]
  rw [hx] at hcp ⊢
  by_cases h0 : bps / 1000 * 1000 = 0
  · rw [h0] at hcp ⊢
    have hs : smear 0 = 1 := by decide
    refine ⟨⟨0, hs⟩, by rw [hs]; omega, ?_, hcp⟩
    intro j _
    rw [hs]
    exact Nat.one_le_two_pow
  · have hs := smear_eq _ h0 hlt
    have h1 : 2 ^ (bps / 1000 * 1000).log2 ≤ bps / 1000 * 1000 := Nat.log2_self_le h0
    have h2 : bps / 1000 * 1000 < 2 ^ ((bps / 1000 * 1000).log2 + 1) := Nat.lt_log2_self
    refine ⟨⟨_, hs⟩, by rw [hs]; omega, ?_, hcp⟩
    intro j hj
    rw [hs]
    apply Nat.pow_le_pow_right (by decide)
    by_contra hnot
    have hjk : j ≤ (bps / 1000 * 1000).log2 := by omega
    have h3 : 2 ^ j ≤ 2 ^ (bps / 1000 * 1000).log2 := Nat.pow_le_pow_right (by decide) hjk
    exact thousand_not_pow (bps / 1000) j (by omega)

theorem C13_next_power_of_two_witness :
    smear (88200 / 1000 * BUFFER_INTERVAL % UINT_MOD) = 2 ^ 17 ∧
    88200 / 1000 * BUFFER_INTERVAL % UINT_MOD
      ≤ smear (88200 / 1000 * BUFFER_INTERVAL % UINT_MOD) ∧
    smear (88200 / 1000 * BUFFER_INTERVAL % UINT_MOD) ≤ 2 ^ 20 :=
  ⟨by decide, (C13_next_power_of_two 88200 (by decide)).2.1,
    (C13_next_power_of_two 88200 (by decide)).2.2.1 20 (by decide)⟩

/-! ### Purging the animations of an emitter -/

theorem remove_loop_eq_filter (s : ALuint) :
    ∀ l : List Animation,
      Animator.remove_loop s l = l.filter (fun a => decide (a.source ≠ s))
  | [] => rfl
  | a :: rest => by
    by_cases h : a.source = s
    · simp [Animator.remove_loop, h, remove_loop_eq_filter s rest]
    · simp [Animator.remove_loop, h, remove_loop_eq_filter s rest]

theorem device_remove_loop_animator :
    ∀ (targets : List ALuint) (d : Device) (al : AL),
      (Device.remove_loop targets d al).1.animator.l
        = d.animator.l.filter (fun a => decide (a.source ∉ targets))
  | [], d, al => by simp [Device.remove_loop]
  | s :: rest, d, al => by
    have ih := device_remove_loop_animator rest
      (Device.removeSource { d with animator := d.animator.removeSource s } s al).1
      (Device.removeSource { d with animator := d.animator.removeSource s } s al).2
    have ha : (Device.removeSource { d with animator := d.animator.removeSource s } s
        al).1.animator.l = d.animator.l.filter (fun a => decide (a.source ≠ s)) :=
      remove_loop_eq_filter s d.animator.l
    simp only [Device.remove_loop]
    rw [ih, ha, List.filter_filter]
    apply List.filter_congr
    intro a _
    by_cases h1 : a.source = s <;> by_cases h2 : a.source ∈ rest <;> simp [h1, h2]

/-- C15: for every active animation list and every emitter `s`: after
`Animator::removeSource(s)` no animation in the list targets `s` and the list is the old one
restricted to the animations that target other emitters, in the old order;
`Device::removeSources` leaves the animator with exactly the animations that target none of
the emitters it destroyed. -/
theorem C15_remove_purges (an : Animator) (s : ALuint) :
    (∀ a ∈ (an.removeSource s).l, a.source ≠ s) ∧
    (an.removeSource s).l = an.l.filter (fun a => decide (a.source ≠ s)) ∧
    (∀ (d : Device) (al : AL) (targets : List ALuint),
      (Device.remove_loop targets d al).1.animator.l
        = d.animator.l.filter (fun a => decide (a.source ∉ targets))) ∧
    (∀ (d : Device) (al : AL) (ids : Json) (targets : List ALuint),
      d.Ids2Sources ids = Except.ok targets →
        (d.removeSources ids al).2.1.animator.l
          = d.animator.l.filter (fun a => decide (a.source ∉ targets))) := by
  have h := remove_loop_eq_filter s an.l
  refine ⟨?_, h, fun d al targets => device_remove_loop_animator targets d al, ?_⟩
  · intro a ha
    have ha1 : a ∈ an.l.filter (fun a => decide (a.source ≠ s)) := by
      rw [← h]
      exact ha
    simpa using (List.mem_filter.mp ha1).2
  · intro d al ids targets hids
    simp only [Device.removeSources, hids]
    exact device_remove_loop_animator targets d al

/-! ### The interval after the clamp -/

theorem readHeader_length_lt (f : List Nat) (b : Buffer) (id0 id1 : ALuint)
    (h : Buffer.fromFile f id0 id1 = Except.ok b) : f.length < 2 ^ 32 := by
  obtain ⟨hd, -, -, hlen, -, -, -⟩ := fromFile_ok f id0 id1 b h
  rw [← hlen]
  exact Nat.mod_lt _ (by decide)

/-- C16 as stated fails: the accepted file `fileTwentyMs` (1000 bytes per second, 20 sample
bytes) is clamped to `chunk_size = 10`, whose playback duration is 10 ms, but the interval is
5 ms, so `interval * bytes_per_ms = 5` against `chunk_size = 10`. -/
theorem C16_counterexample :
    (Buffer.fromFile fileTwentyMs 7 8).map (fun b => (b.chunk_size, b.interval))
      = Except.ok (10, 5) ∧
    (readHeader fileTwentyMs).map (fun h => h.bytes_per_second) = Except.ok 1000 ∧
    2 * smear (1000 / 1000 * BUFFER_INTERVAL % UINT_MOD) % SIZE_MOD
      > fileTwentyMs.length - HEADER_SIZE ∧
    10 * 1000 / 1000 = 10 ∧ 5 + 1 < 10 ∧ 5 * (1000 / 1000) + (1000 / 1000) < 10 :=
  ⟨rfl, rfl, by decide, by decide, by decide, by decide⟩

/-- C16 (amended): for every accepted file with `bytes_per_second >= 1000` on which the clamp
step triggers, `chunk_size = (st_size - HEADER_SIZE) / 2` and the recomputed interval is half
of the playback duration of one chunk, rounded down:
`interval = floor (floor (chunk_size * 1000 / bytes_per_second) / 2)`, so twice the interval
equals that duration up to 1 ms. -/
theorem C16_interval_half_chunk (f : List Nat) (id0 id1 : ALuint) (b : Buffer) (hd : Header)
    (h : Buffer.fromFile f id0 id1 = Except.ok b) (hh : readHeader f = Except.ok hd)
    (hb : 1000 ≤ hd.bytes_per_second)
    (hc : 2 * smear (hd.bytes_per_second / 1000 * BUFFER_INTERVAL % UINT_MOD) % SIZE_MOD
      > f.length - HEADER_SIZE) :
    b.chunk_size = (b.st_size - HEADER_SIZE) / 2 ∧
    b.interval = b.chunk_size * 1000 / hd.bytes_per_second / 2 ∧
    2 * b.interval ≤ b.chunk_size * 1000 / hd.bytes_per_second ∧
    b.chunk_size * 1000 / hd.bytes_per_second ≤ 2 * b.interval + 1 := by
  have hlt := readHeader_length_lt f b id0 id1 h
  obtain ⟨hd1, hhd1, -, -, hcp, hst, -⟩ := fromFile_ok f id0 id1 b h
  rw [hh] at hhd1
  injection hhd1 with hhd1
  subst hhd1
  have hne : ¬ hd.bytes_per_second = 0 := by omega
  simp only [chunkParams, if_pos hc, if_neg hne] at hcp
  injection hcp with hcp
  injection hcp with e1 e2
  have hmod : (f.length - HEADER_SIZE) / 2 * 1000 % SIZE_MOD
      = (f.length - HEADER_SIZE) / 2 * 1000 := by
    apply Nat.mod_eq_of_lt
    simp only [SIZE_MOD]
    omega
  rw [hmod] at e2
  rw [hst, ← e1, ← e2]
  refine ⟨rfl, rfl, ?_, ?_⟩ <;> omega

theorem C16_interval_half_chunk_witness :
    (Buffer.fromFile fileTwentyMs 7 8).map (fun b => b.interval) = Except.ok 5 ∧
    (5 = 10 * 1000 / 1000 / 2 ∧ 2 * 5 ≤ 10 * 1000 / 1000 ∧ 10 * 1000 / 1000 ≤ 2 * 5 + 1) :=
  ⟨rfl, (C16_interval_half_chunk fileTwentyMs 7 8
    { id0 := 7, id1 := 8, st_size := 64, offset := 44, chunk_size := 10,
      format := ALformat.AL_FORMAT_MONO8, frequency := 1000, interval := 5 }
    { riff := tag_RIFF, length := 56, wave := tag_WAVE, fmt := tag_fmt, len := 16,
      channels := 1, sample_rate := 1000, bytes_per_second := 1000, bits_per_sample := 8,
      dataPos := 36, data := tag_data } rfl rfl (by decide) (by decide)).2⟩

theorem remove_purges_example :
    (threeAnimations.removeSource 1).l = [{ fade13 with source := 2 }] := by
  decide

/-! ### Progress of an animation -/

/-- What `step` leaves of an animation: everything but the field `t0` of a `Scale` or
`Rotate`. -/
theorem step_frame (U : FPU) (M : Libm) (a : Animation) (s : Source) (al : AL) :
    (a.step U M s al).1.start = a.start ∧ (a.step U M s al).1.length = a.length ∧
    (a.step U M s al).1.now = a.now ∧ (a.step U M s al).1.source = a.source ∧
    (a.step U M s al).1.integrates = a.integrates := by
  obtain ⟨st, en, nw, len, src, kind⟩ := a
  cases kind with
  | FadeGain o n =>
    simp only [Animation.step]
    split <;> exact ⟨rfl, rfl, rfl, rfl, rfl⟩
  | Scale speed t0 => exact ⟨rfl, rfl, rfl, rfl, rfl⟩
  | Rotate speed t0 => exact ⟨rfl, rfl, rfl, rfl, rfl⟩

theorem p_congr (U : FPU) (a b : Animation) (h1 : a.start = b.start) (h2 : a.now = b.now)
    (h3 : a.length = b.length) : a.p U = b.p U := by
  simp only [Animation.p, Animation.elapsed, h1, h2, h3]

theorem step_p (U : FPU) (M : Libm) (a : Animation) (s : Source) (al : AL) :
    (a.step U M s al).1.p U = a.p U := by
  obtain ⟨e1, e2, e3, -, -⟩ := step_frame U M a s al
  exact p_congr U _ _ e1 e3 e2

/-- What `step` leaves in a `Scale` or `Rotate` animation: `t0 = p()`. -/
theorem step_integrates (U : FPU) (M : Libm) (a : Animation) (s : Source) (al : AL)
    (hk : a.integrates = true) : (a.step U M s al).1.t0 = a.p U := by
  obtain ⟨st, en, nw, len, src, kind⟩ := a
  cases kind with
  | FadeGain o n => simp [Animation.integrates] at hk
  | Scale speed t0 => rfl
  | Rotate speed t0 => rfl

/-- The animation that a tick of `Animator::run` leaves in the list, if it leaves one: the
animation after `update` and `step`. -/
theorem visit_cases (U : FPU) (M : Libm) (t : timespec) (a : Animation) (srcs : List Source)
    (al : AL) :
    ∃ a1 : Animation, a1.start = a.start ∧ a1.length = a.length ∧ a1.now = t ∧
      a1.source = a.source ∧ a1.integrates = a.integrates ∧
      (Animator.visit U M t a srcs al).1
        = if Flt.ge ((a.update t).p U) 1 = true then none else some a1 := by
  simp only [Animator.visit]
  cases hl : lookupSource srcs (a.update t).source with
  | none => exact ⟨a.update t, rfl, rfl, rfl, rfl, rfl, rfl⟩
  | some s =>
    obtain ⟨e1, e2, e3, e4, e5⟩ := step_frame U M (a.update t) s al
    refine ⟨((a.update t).step U M s al).1, e1, e2, e3, e4, e5, ?_⟩
    simp only [Animation.done, step_p]

/-- The deltas of a `Scale` or `Rotate` animation are the `double` differences of consecutive
progress values, the first against the `t0` before the first tick. -/
theorem deltas_eq (U : FPU) (M : Libm) :
    ∀ (ts : List timespec) (a : Animation) (s : Source) (al : AL),
      a.integrates = true →
      Animation.deltas U M a s al ts
        = List.zipWith U.sub64 (ts.map (fun t => (a.update t).p U))
            (a.t0 :: ts.map (fun t => (a.update t).p U))
  | [], _, _, _, _ => rfl
  | u :: ts, a, s, al, hk => by
    have hk1 : (a.update u).integrates = true := hk
    obtain ⟨e1, e2, -, -, e5⟩ := step_frame U M (a.update u) s al
    have ih := deltas_eq U M ts ((a.update u).step U M s al).1
      ((a.update u).step U M s al).2.1 ((a.update u).step U M s al).2.2 (e5.trans hk1)
    have hp : ∀ t : timespec,
        (((a.update u).step U M s al).1.update t).p U = (a.update t).p U :=
      fun t => p_congr U _ _ e1 rfl e2
    have h0 : (a.update u).t0 = a.t0 := rfl
    rw [step_integrates U M (a.update u) s al hk1] at ih
    simp only [hp] at ih
    simp only [Animation.deltas, List.map_cons, List.zipWith_cons_cons, h0, ih]

theorem value_ofValue (q : ℚ) : (Flt.ofValue q).value = q := by
  unfold Flt.ofValue Flt.value
  by_cases h : q < 0
  · simp [h, abs_of_neg h]
  · simp [h, abs_of_nonneg (not_lt.mp h)]

theorem exact2_fin (op : ℚ → ℚ → ℚ) (x y : Flt) (hx : x.isFin = true) (hy : y.isFin = true) :
    Flt.exact2 op x y = Flt.ofValue (op x.value y.value) := by
  simp [Flt.exact2, hx, hy]

theorem value_negate (x : Flt) : x.negate.value = -x.value := by
  cases x with
  | nan => simp [Flt.negate, Flt.value]
  | inf b => simp [Flt.negate, Flt.value]
  | fin b m => cases b <;> simp [Flt.negate, Flt.value]

theorem isFin_negate (x : Flt) : x.negate.isFin = x.isFin := by
  cases x <;> rfl

/-- The position a `Scale` step computes in exact arithmetic from finite values, with a
finite square root that is not 0, is `Scale.position` of the numbers they stand for. -/
theorem scale_values (M : Libm) (v : Vec3) (p t0 speed : Flt)
    (hx : v.x.isFin = true) (hy : v.y.isFin = true) (hz : v.z.isFin = true)
    (hp : p.isFin = true) (ht : t0.isFin = true) (hsp : speed.isFin = true)
    (hr : (M.sqrt (Flt.ofValue
      (v.x.value * v.x.value + v.y.value * v.y.value + v.z.value * v.z.value))).isFin = true)
    (hr0 : norm3 (Libm.onValues M.sqrt) v.values ≠ 0) :
    Vec3.values
      { x := FPU.exact.toFloat (FPU.exact.mul64 v.x
          (FPU.exact.div64 (FPU.exact.add64
            (M.sqrt (FPU.exact.add32 (FPU.exact.add32 (FPU.exact.mul32 v.x v.x)
              (FPU.exact.mul32 v.y v.y)) (FPU.exact.mul32 v.z v.z)))
            (FPU.exact.mul64 (FPU.exact.sub64 p t0) speed))
            (M.sqrt (FPU.exact.add32 (FPU.exact.add32 (FPU.exact.mul32 v.x v.x)
              (FPU.exact.mul32 v.y v.y)) (FPU.exact.mul32 v.z v.z))))),
        y := FPU.exact.toFloat (FPU.exact.mul64 v.y
          (FPU.exact.div64 (FPU.exact.add64
            (M.sqrt (FPU.exact.add32 (FPU.exact.add32 (FPU.exact.mul32 v.x v.x)
              (FPU.exact.mul32 v.y v.y)) (FPU.exact.mul32 v.z v.z)))
            (FPU.exact.mul64 (FPU.exact.sub64 p t0) speed))
            (M.sqrt (FPU.exact.add32 (FPU.exact.add32 (FPU.exact.mul32 v.x v.x)
              (FPU.exact.mul32 v.y v.y)) (FPU.exact.mul32 v.z v.z))))),
        z := FPU.exact.toFloat (FPU.exact.mul64 v.z
          (FPU.exact.div64 (FPU.exact.add64
            (M.sqrt (FPU.exact.add32 (FPU.exact.add32 (FPU.exact.mul32 v.x v.x)
              (FPU.exact.mul32 v.y v.y)) (FPU.exact.mul32 v.z v.z)))
            (FPU.exact.mul64 (FPU.exact.sub64 p t0) speed))
            (M.sqrt (FPU.exact.add32 (FPU.exact.add32 (FPU.exact.mul32 v.x v.x)
              (FPU.exact.mul32 v.y v.y)) (FPU.exact.mul32 v.z v.z))))) }
      = Scale.position (Libm.onValues M.sqrt) v.values ((p.value - t0.value) * speed.value) := by
  have hfin : ∀ q : ℚ, (Flt.ofValue q).isFin = true := fun _ => rfl
  have hr1 : ¬ (M.sqrt (Flt.ofValue
      (v.x.value * v.x.value + v.y.value * v.y.value + v.z.value * v.z.value))).value = 0 := hr0
  simp only [FPU.exact, exact2_fin, hx, hy, hz, hp, ht, hsp, hfin, value_ofValue, hr, hr1,
    if_false, Vec3.values, Scale.position, norm3, Libm.onValues]

/-- The position a `Rotate` step computes in exact arithmetic from finite values, with finite
cosine and sine, is `Rotate.position` of the numbers they stand for. -/
theorem rotate_values (M : Libm) (v : Vec3) (p t0 speed : Flt)
    (hx : v.x.isFin = true) (hz : v.z.isFin = true)
    (hp : p.isFin = true) (ht : t0.isFin = true) (hsp : speed.isFin = true)
    (hc : (M.cos (Flt.ofValue ((p.value - t0.value) * speed.value))).isFin = true)
    (hs : (M.sin (Flt.ofValue ((p.value - t0.value) * speed.value))).isFin = true) :
    Vec3.values
      { x := FPU.exact.add32
          (FPU.exact.mul32 v.x
            (FPU.exact.toFloat (M.cos (FPU.exact.mul64 (FPU.exact.sub64 p t0) speed))))
          (FPU.exact.mul32 v.z
            (FPU.exact.toFloat (M.sin (FPU.exact.mul64 (FPU.exact.sub64 p t0) speed)))),
        y := v.y,
        z := FPU.exact.add32
          (FPU.exact.mul32 v.x
            (FPU.exact.toFloat
              (M.sin (FPU.exact.mul64 (FPU.exact.sub64 p t0) speed))).negate)
          (FPU.exact.mul32 v.z
            (FPU.exact.toFloat (M.cos (FPU.exact.mul64 (FPU.exact.sub64 p t0) speed)))) }
      = Rotate.position (Libm.onValues M.cos) (Libm.onValues M.sin) v.values
          ((p.value - t0.value) * speed.value) := by
  have hfin : ∀ q : ℚ, (Flt.ofValue q).isFin = true := fun _ => rfl
  simp only [FPU.exact, exact2_fin, hx, hz, hp, ht, hsp, hfin, value_ofValue, hc, hs,
    isFin_negate, value_negate, Vec3.values, Rotate.position, Libm.onValues]

/-- The step of a `Scale` reads the position of its emitter from the backend and writes a
position back, to the cached value and to the backend; in exact arithmetic on finite values,
with a finite square root that is not 0, the numbers written are `Scale.position` of the
numbers read. -/
theorem step_scale_position (M : Libm) (a : Animation) (s : Source) (al : AL)
    (speed t0 : Flt) (hk : a.kind = AnimKind.Scale speed t0)
    (hx : (al.voices s.id).position.x.isFin = true)
    (hy : (al.voices s.id).position.y.isFin = true)
    (hz : (al.voices s.id).position.z.isFin = true)
    (hp : (a.p FPU.exact).isFin = true) (ht : t0.isFin = true) (hsp : speed.isFin = true)
    (hr : (M.sqrt (Flt.ofValue
      ((al.voices s.id).position.x.value * (al.voices s.id).position.x.value
        + (al.voices s.id).position.y.value * (al.voices s.id).position.y.value
        + (al.voices s.id).position.z.value * (al.voices s.id).position.z.value))).isFin
      = true)
    (hr0 : norm3 (Libm.onValues M.sqrt) (al.voices s.id).position.values ≠ 0) :
    (a.step FPU.exact M s al).2.1.position_value.values
      = Scale.position (Libm.onValues M.sqrt) (al.voices s.id).position.values
          (((a.p FPU.exact).value - t0.value) * speed.value) ∧
    ((a.step FPU.exact M s al).2.2.voices s.id).position.values
      = Scale.position (Libm.onValues M.sqrt) (al.voices s.id).position.values
          (((a.p FPU.exact).value - t0.value) * speed.value) := by
  have key := scale_values M (al.voices s.id).position (a.p FPU.exact) t0 speed hx hy hz hp ht
    hsp hr hr0
  obtain ⟨st, en, nw, len, src, kind⟩ := a
  simp only at hk
  subst hk
  refine ⟨key, ?_⟩
  rw [← key]
  simp [Animation.step, Source.position, SourceSettings.position, SourceSettings.getfv,
    alGetSourcefv, Voice.getfv, Source.set_position, SourceSettings.set_position,
    SourceSettings.setfv, alSourcefv, Voice.setfv]

/-- The step of a `Rotate` reads the position of its emitter from the backend and writes a
position back, to the cached value and to the backend; in exact arithmetic on finite values,
with finite cosine and sine, the numbers written are `Rotate.position` of the numbers read. -/
theorem step_rotate_position (M : Libm) (a : Animation) (s : Source) (al : AL)
    (speed t0 : Flt) (hk : a.kind = AnimKind.Rotate speed t0)
    (hx : (al.voices s.id).position.x.isFin = true)
    (hz : (al.voices s.id).position.z.isFin = true)
    (hp : (a.p FPU.exact).isFin = true) (ht : t0.isFin = true) (hsp : speed.isFin = true)
    (hc : (M.cos (Flt.ofValue
      (((a.p FPU.exact).value - t0.value) * speed.value))).isFin = true)
    (hs : (M.sin (Flt.ofValue
      (((a.p FPU.exact).value - t0.value) * speed.value))).isFin = true) :
    (a.step FPU.exact M s al).2.1.position_value.values
      = Rotate.position (Libm.onValues M.cos) (Libm.onValues M.sin)
          (al.voices s.id).position.values (((a.p FPU.exact).value - t0.value) * speed.value) ∧
    ((a.step FPU.exact M s al).2.2.voices s.id).position.values
      = Rotate.position (Libm.onValues M.cos) (Libm.onValues M.sin)
          (al.voices s.id).position.values
          (((a.p FPU.exact).value - t0.value) * speed.value) := by
  have key := rotate_values M (al.voices s.id).position (a.p FPU.exact) t0 speed hx hz hp ht
    hsp hc hs
  obtain ⟨st, en, nw, len, src, kind⟩ := a
  simp only at hk
  subst hk
  refine ⟨key, ?_⟩
  rw [← key]
  simp [Animation.step, Source.position, SourceSettings.position, SourceSettings.getfv,
    alGetSourcefv, Voice.getfv, Source.set_position, SourceSettings.set_position,
    SourceSettings.setfv, alSourcefv, Voice.setfv]

/-- A `Scale` step in exact arithmetic: half a second into `scaleOneSecond` the position
(3, 0, 4), at distance 5, moves to distance 5.5. -/
theorem step_scale_example :
    ((scaleOneSecond.update { tv_sec := 10, tv_nsec := 500000000 }).step FPU.exact libm5
      unboundSource alAt345).2.1.position_value.values = (33 / 10, 0, 22 / 5) := by
  have h := (step_scale_position libm5
    (scaleOneSecond.update { tv_sec := 10, tv_nsec := 500000000 }) unboundSource alAt345 1 0
    rfl rfl rfl rfl rfl rfl rfl rfl (by decide!)).1
  rw [h]
  decide!

/-- A `Rotate` step in exact arithmetic: at the start of the animation the angle is 0 and the
position (3, 0, 4) stays. -/
theorem step_rotate_example :
    (({ scaleOneSecond with kind := AnimKind.Rotate 1 0 } : Animation).step FPU.exact libm5
      unboundSource alAt345).2.1.position_value.values = (3, 0, 4) := by
  have h := (step_rotate_position libm5
    ({ scaleOneSecond with kind := AnimKind.Rotate 1 0 } : Animation) unboundSource alAt345 1 0
    rfl rfl rfl rfl rfl rfl rfl rfl).1
  rw [h]
  decide!

/-- A `Scale` step of an emitter at the origin in the arithmetic of the program: the distance
`r` is 0, `(r + t) / r` is an infinity, and every coordinate written, 0 times an infinity, is
not a number. -/
theorem step_scale_origin :
    ((scaleOneSecond.update { tv_sec := 10, tv_nsec := 500000000 }).step FPU.ieee libm0
      unboundSource al0).2.1.position_value = { x := Flt.nan, y := Flt.nan, z := Flt.nan } := by
  decide!

theorem rotate_sq (v : ℝ × ℝ × ℝ) (a : ℝ) :
    (v.1 * Real.cos a + v.2.2 * Real.sin a) * (v.1 * Real.cos a + v.2.2 * Real.sin a)
      + v.2.1 * v.2.1
      + (v.1 * -Real.sin a + v.2.2 * Real.cos a) * (v.1 * -Real.sin a + v.2.2 * Real.cos a)
      = v.1 * v.1 + v.2.1 * v.2.1 + v.2.2 * v.2.2 := by
  have h := Real.cos_sq_add_sin_sq a
  nlinarith [h, sq_nonneg (v.1), sq_nonneg (v.2.2)]

theorem rotate_norm (v : ℝ × ℝ × ℝ) (a : ℝ) :
    norm3 Real.sqrt (Rotate.position Real.cos Real.sin v a) = norm3 Real.sqrt v := by
  simp only [norm3, Rotate.position]
  rw [rotate_sq]

/-- C17: in exact real arithmetic, for every position `v` with norm `r` that is not 0, every
radial step `d` with `r + d > 0` and every angle `a`: one Scale step followed by one Rotate
step gives the same position as the Rotate step followed by the Scale step; the Rotate step
leaves the distance from the origin unchanged and the Scale step changes it by exactly `d`. -/
theorem C17_scale_rotate_commute (v : ℝ × ℝ × ℝ) (d a : ℝ)
    (hr : norm3 Real.sqrt v ≠ 0) (hd : 0 < norm3 Real.sqrt v + d) :
    Rotate.position Real.cos Real.sin (Scale.position Real.sqrt v d) a
      = Scale.position Real.sqrt (Rotate.position Real.cos Real.sin v a) d ∧
    norm3 Real.sqrt (Rotate.position Real.cos Real.sin v a) = norm3 Real.sqrt v ∧
    norm3 Real.sqrt (Scale.position Real.sqrt v d) = norm3 Real.sqrt v + d := by
  have hrot := rotate_norm v a
  have hr0 : 0 ≤ norm3 Real.sqrt v := Real.sqrt_nonneg _
  have hrpos : 0 < norm3 Real.sqrt v := lt_of_le_of_ne hr0 (Ne.symm hr)
  have ht : 0 < (norm3 Real.sqrt v + d) / norm3 Real.sqrt v := div_pos hd hrpos
  refine ⟨?_, hrot, ?_⟩
  · simp only [Scale.position, hrot]
    simp only [Rotate.position]
    refine Prod.ext ?_ (Prod.ext ?_ ?_)
    · dsimp only
      ring
    · rfl
    · dsimp only
      ring
  · have hsq : (Scale.position Real.sqrt v d).1 * (Scale.position Real.sqrt v d).1
        + (Scale.position Real.sqrt v d).2.1 * (Scale.position Real.sqrt v d).2.1
        + (Scale.position Real.sqrt v d).2.2 * (Scale.position Real.sqrt v d).2.2
        = (((norm3 Real.sqrt v + d) / norm3 Real.sqrt v) * norm3 Real.sqrt v) ^ 2 := by
      have hS : norm3 Real.sqrt v ^ 2 = v.1 * v.1 + v.2.1 * v.2.1 + v.2.2 * v.2.2 := by
        have hnn : 0 ≤ v.1 * v.1 + v.2.1 * v.2.1 + v.2.2 * v.2.2 := by
          nlinarith [mul_self_nonneg v.1, mul_self_nonneg v.2.1, mul_self_nonneg v.2.2]
        simp only [norm3]
        exact Real.sq_sqrt hnn
      simp only [Scale.position]
      rw [mul_pow, hS]
      ring
    have hmul : (norm3 Real.sqrt v + d) / norm3 Real.sqrt v * norm3 Real.sqrt v
        = norm3 Real.sqrt v + d := div_mul_cancel₀ _ hr
    rw [show norm3 Real.sqrt (Scale.position Real.sqrt v d)
        = Real.sqrt ((Scale.position Real.sqrt v d).1 * (Scale.position Real.sqrt v d).1
        + (Scale.position Real.sqrt v d).2.1 * (Scale.position Real.sqrt v d).2.1
        + (Scale.position Real.sqrt v d).2.2 * (Scale.position Real.sqrt v d).2.2) from rfl,
      hsq, hmul]
    exact Real.sqrt_sq (le_of_lt hd)

theorem norm3_three_four : norm3 Real.sqrt ((3 : ℝ), (0 : ℝ), (4 : ℝ)) = 5 := by
  simp only [norm3]
  rw [show (3 : ℝ) * 3 + 0 * 0 + 4 * 4 = 5 ^ 2 by norm_num]
  exact Real.sqrt_sq (by norm_num)

theorem C17_scale_rotate_commute_witness :
    norm3 Real.sqrt ((3 : ℝ), (0 : ℝ), (4 : ℝ)) = 5 ∧
    (Rotate.position Real.cos Real.sin
        (Scale.position Real.sqrt ((3 : ℝ), (0 : ℝ), (4 : ℝ)) 5) 1
      = Scale.position Real.sqrt
          (Rotate.position Real.cos Real.sin ((3 : ℝ), (0 : ℝ), (4 : ℝ)) 1) 5 ∧
    norm3 Real.sqrt (Rotate.position Real.cos Real.sin ((3 : ℝ), (0 : ℝ), (4 : ℝ)) 1)
      = norm3 Real.sqrt ((3 : ℝ), (0 : ℝ), (4 : ℝ)) ∧
    norm3 Real.sqrt (Scale.position Real.sqrt ((3 : ℝ), (0 : ℝ), (4 : ℝ)) 5)
      = norm3 Real.sqrt ((3 : ℝ), (0 : ℝ), (4 : ℝ)) + 5) :=
  ⟨norm3_three_four,
    C17_scale_rotate_commute ((3 : ℝ), (0 : ℝ), (4 : ℝ)) 5 1
      (by rw [norm3_three_four]; norm_num) (by rw [norm3_three_four]; norm_num)⟩

/-- On rationals, with a square root that is exact on 25: the position (3, 0, 4) scaled by the
radial step 5 is (6, 0, 8). -/
theorem scale_position_example :
    Scale.position (fun _ : ℚ => 5) ((3 : ℚ), (0 : ℚ), (4 : ℚ)) 5 = (6, 0, 8) := by
  simp only [Scale.position, norm3]
  norm_num

end Soundspace
